import Mathlib

/-!
# Verification of the component-handler reconciliation engine

Shallow embedding of the object reconciliation engine of the operator
repository (`src/unnamed/part_000`, Go package `utils`): the deduplication
cache, the create/update/delete decision logic (`needsUpdate`, `mergeState`,
`createOrUpdateObject`, `CreateOrUpdateOrDelete`), the mutation pipeline, and
the per-kind merge policies.

Modelling conventions:
* Go maps (`map[string]string`) are association lists (`Smap`); `reflect.DeepEqual`
  on maps is list equality of the canonical lists produced by the model's
  operations.
* The remote cluster API is a state (`World`) holding the cluster content, the
  process-wide deduplication cache, a log of every write call issued
  (create/update/delete, including failed attempts), and oracle schedules that
  decide which update calls fail with an optimistic-concurrency conflict and
  which namespace lookups fail unexpectedly.  A successful write stores its
  payload verbatim, except that update preserves the stored object's
  deletion timestamp (that field is owned by the API server and cannot be
  changed by an update).  Server-side generation / resourceVersion bumping is
  not modelled; external modifications are modelled as explicit changes to the
  `World` between engine calls.
* Kind-specific `spec` payloads that the engine only ever compares for deep
  equality are opaque `String` fields.
* The Go type switches cast the current object to the desired object's type;
  in engine runs the two always have the same kind (the current object is
  fetched at the desired object's identity, which includes the kind).  The
  model's pair matches send the (unreachable) mismatched-kind combinations to
  the default branch.
-/

namespace Operator

/-! ## String maps (Go `map[string]string`) -/

/-- Association-list model of a Go string map. -/
abbrev Smap := List (String × String)

/-- Lookup in a string map (Go `m[k]` presence/value). -/
def lookupS (m : Smap) (k : String) : Option String :=
  (m.find? (fun p => p.1 = k)).map (fun p => p.2)

/-- Go `m[k] = v` (add or overwrite a key). -/
def mapSet (m : Smap) (k v : String) : Smap :=
  (k, v) :: m.filter (fun p => ¬ p.1 = k)

/-- Go `delete(m, k)`. -/
def removeKey (m : Smap) (k : String) : Smap :=
  m.filter (fun p => ¬ p.1 = k)

/-- Modelled from the spec: `common.MergeMaps` (not under `src/`): union of the
two maps with desired values winning on key conflict.  Desired pairs first,
then the current pairs whose key the desired map does not bind. -/
def mergeMaps (cur des : Smap) : Smap :=
  des ++ cur.filter (fun p => (lookupS des p.1).isNone)

/-! ## Resource identities and objects -/

/-- Resource kinds distinguished by the engine's type switches. -/
inductive Kind where
  | namespaceK | deployment | daemonSet | statefulSet | cronJob | job
  | secret | service | serviceAccount | roleBinding | clusterRoleBinding
  | elasticsearch | kibana | uiSettings | networkPolicy | tier
  | prometheus | alertmanager | podTemplate | other
deriving DecidableEq, Repr

/-- ResourceIdentity: kind + namespace + name. -/
structure Identity where
  kind : Kind
  ns : String
  name : String
deriving DecidableEq, Repr

/-- An owner reference: the owning object's name and the controller flag. -/
structure OwnerRef where
  owner : String
  controller : Bool
deriving DecidableEq, Repr

/-- Liveness/readiness probe settings touched by `setProbeTimeouts`. -/
structure Probe where
  failureThreshold : Nat
  periodSeconds : Nat
  successThreshold : Nat
  timeoutSeconds : Nat
deriving DecidableEq, Repr

/-- A container: the fields read or written by the mutation pipeline and the
Job merge policy. -/
structure Container where
  name : String
  image : String
  imagePullPolicy : String
  volumeMounts : List String
  env : List (String × String)
  livenessProbe : Option Probe
  readinessProbe : Option Probe
deriving DecidableEq, Repr

/-- A pod spec: containers, volumes (by name) and the node selector. -/
structure PodSpecM where
  containers : List Container
  volumes : List String
  nodeSelector : Smap
deriving DecidableEq, Repr

/-- A pod template: its own labels/annotations plus the pod spec. -/
structure Template where
  labels : Smap
  annotations : Smap
  spec : PodSpecM
deriving DecidableEq, Repr

/-- Elasticsearch spec: the node sets (each carrying a pod template) plus the
rest of the spec, opaque. -/
structure EsSpec where
  nodeSets : List Template
  rest : String
deriving DecidableEq, Repr

/-- Kibana spec: the pod template, the Elasticsearch reference, and the rest of
the spec, opaque. -/
structure KbSpec where
  podTemplate : Template
  elasticsearchRef : String
  rest : String
deriving DecidableEq, Repr

/-- Prometheus/Alertmanager spec: node selector and containers are inlined in
the spec (no embedded `v1.PodSpec`). -/
structure PromSpec where
  nodeSelector : Smap
  containers : List Container
  rest : String
deriving DecidableEq, Repr

/-- Kind-specific payload of a managed object (the fields the engine's merge
policies and mutation pipeline read or write; specs only compared for deep
equality are opaque strings). -/
inductive Payload where
  | namespaceK : Payload
  | deployment (replicas : Option Nat) (selector : Option Smap) (template : Template) : Payload
  | daemonSet (selector : Option Smap) (template : Template) : Payload
  | statefulSet (template : Template) : Payload
  | cronJob (template : Template) : Payload
  | job (template : Template) : Payload
  | secret (type : String) (data : Smap) : Payload
  | service (clusterIP : String) (rest : String) : Payload
  | roleBinding (roleRefName : String) (rest : String) : Payload
  | clusterRoleBinding (roleRefName : String) (rest : String) : Payload
  | serviceAccount (secrets : List String) (imagePullSecrets : List String) : Payload
  | elasticsearch (spec : EsSpec) (status : String) : Payload
  | kibana (spec : KbSpec) (status : String) : Payload
  | uiSettings (spec : String) : Payload
  | networkPolicy (spec : String) : Payload
  | tier (spec : String) : Payload
  | prometheus (spec : PromSpec) : Payload
  | alertmanager (spec : PromSpec) : Payload
  | podTemplate (template : Template) : Payload
  | other (spec : String) : Payload
deriving DecidableEq, Repr

/-- The kind tag of a payload. -/
def Payload.kind : Payload → Kind
  | .namespaceK => .namespaceK
  | .deployment _ _ _ => .deployment
  | .daemonSet _ _ => .daemonSet
  | .statefulSet _ => .statefulSet
  | .cronJob _ => .cronJob
  | .job _ => .job
  | .secret _ _ => .secret
  | .service _ _ => .service
  | .roleBinding _ _ => .roleBinding
  | .clusterRoleBinding _ _ => .clusterRoleBinding
  | .serviceAccount _ _ => .serviceAccount
  | .elasticsearch _ _ => .elasticsearch
  | .kibana _ _ => .kibana
  | .uiSettings _ => .uiSettings
  | .networkPolicy _ => .networkPolicy
  | .tier _ => .tier
  | .prometheus _ => .prometheus
  | .alertmanager _ => .alertmanager
  | .podTemplate _ => .podTemplate
  | .other _ => .other

/-- Object metadata (`metav1.ObjectMeta`), with `creationTimestamp = 0` and
`resourceVersion = ""` / `uid = ""` as the Go zero values. -/
structure Meta where
  name : String
  ns : String
  generation : Nat
  resourceVersion : String
  uid : String
  creationTimestamp : Nat
  labels : Smap
  annotations : Smap
  finalizers : List String
  ownerReferences : List OwnerRef
  deletionTimestamp : Option Nat
deriving DecidableEq, Repr

/-- A managed cluster object: metadata plus its kind-specific payload. -/
structure Obj where
  meta : Meta
  payload : Payload
deriving DecidableEq, Repr

/-- The identity under which an object is addressed. -/
def Obj.identity (o : Obj) : Identity :=
  ⟨o.payload.kind, o.meta.ns, o.meta.name⟩

/-! ## Deduplication cache and cluster state -/

/-- The process-wide deduplication cache (`dCache`): identity → last written
snapshot + generation at time of writing.  Modelled from the spec: the
`objectCache` type (`newCache`/`get`/`set`/`delete`) is not under `src/`; per
the spec it is a concurrency-safe map keyed by resource identity where `set`
overwrites unconditionally and `delete` is idempotent. -/
abbrev Cache := List (Identity × Obj × Nat)

/-- Lookup in an identity-keyed association list. -/
def assocGet {β : Type} (l : List (Identity × β)) (i : Identity) : Option β :=
  (l.find? (fun p => p.1 = i)).map (fun p => p.2)

/-- Add or overwrite an entry in an identity-keyed association list. -/
def assocSet {β : Type} (l : List (Identity × β)) (i : Identity) (v : β) : List (Identity × β) :=
  (i, v) :: l.filter (fun p => ¬ p.1 = i)

/-- Remove an entry (idempotent). -/
def assocDelete {β : Type} (l : List (Identity × β)) (i : Identity) : List (Identity × β) :=
  l.filter (fun p => ¬ p.1 = i)

/-- `dCache.get`: the snapshot and generation cached for an identity. -/
def cacheGet (c : Cache) (i : Identity) : Option (Obj × Nat) := assocGet c i

/-- `dCache.set`: overwrite the entry for an identity unconditionally. -/
def cacheSet (c : Cache) (i : Identity) (v : Obj × Nat) : Cache := assocSet c i v

/-- `dCache.delete`: idempotent removal. -/
def cacheDelete (c : Cache) (i : Identity) : Cache := assocDelete c i

/-- The live content of the remote cluster, keyed by identity. -/
abbrev Cluster := List (Identity × Obj)

/-- `client.Get` by identity. -/
def clusterGet (c : Cluster) (i : Identity) : Option Obj := assocGet c i

/-- Store an object at an identity (add or overwrite). -/
def clusterSet (c : Cluster) (i : Identity) (o : Obj) : Cluster := assocSet c i o

/-- Remove an object. -/
def clusterDelete (c : Cluster) (i : Identity) : Cluster := assocDelete c i

/-- A write call issued against the cluster API (including failed attempts). -/
inductive WriteOp where
  | create (i : Identity) (o : Obj)
  | update (i : Identity) (o : Obj)
  | delete (i : Identity)
deriving DecidableEq, Repr

/-- Whether a write-log entry is an update call. -/
def WriteOp.isUpdate : WriteOp → Bool
  | .update _ _ => true
  | _ => false

/-- The error classes the engine distinguishes (`errors.IsNotFound`,
`errors.IsAlreadyExists`, `errors.IsConflict`, plus the unexpected
namespace-lookup failure propagated raw). -/
inductive Err where
  | notFound
  | conflict
  | alreadyExists (i : Identity)
  | nsLookup
deriving DecidableEq, Repr

deriving instance DecidableEq for Except

/-- `errors.IsAlreadyExists`. -/
def Err.isAlreadyExists : Err → Bool
  | .alreadyExists _ => true
  | _ => false

/-- The state the engine runs against: the cluster, the process-wide dedup
cache, the write log, and oracle schedules deciding which update calls fail
with a conflict and which namespace lookups fail unexpectedly (one entry
popped per call; an exhausted schedule means no failure). -/
structure World where
  cluster : Cluster
  cache : Cache
  log : List WriteOp
  conflicts : List Bool
  nsFaults : List Bool
deriving DecidableEq, Repr

/-- Pop the next entry of a fault schedule. -/
def popSchedule : List Bool → Bool × List Bool
  | [] => (false, [])
  | b :: bs => (b, bs)

/-- `client.Create`: stores the payload verbatim and logs the call. -/
def clientCreate (w : World) (i : Identity) (o : Obj) : Except Err Unit × World :=
  (.ok (), { w with cluster := clusterSet w.cluster i o, log := w.log ++ [.create i o] })

/-- `client.Update`: logs the attempt; fails with a conflict when the oracle
schedule says so; fails NotFound when the object is absent; otherwise stores
the payload, preserving the stored object's deletion timestamp (a server-owned
field an update cannot change). -/
def clientUpdate (w : World) (i : Identity) (o : Obj) : Except Err Unit × World :=
  let s := popSchedule w.conflicts
  let w1 := { w with conflicts := s.2, log := w.log ++ [.update i o] }
  if s.1 then (.error .conflict, w1)
  else
    match clusterGet w1.cluster i with
    | none => (.error .notFound, w1)
    | some old =>
      let stored : Obj :=
        { o with meta := { o.meta with deletionTimestamp := old.meta.deletionTimestamp } }
      (.ok (), { w1 with cluster := clusterSet w1.cluster i stored })

/-- `client.Delete`: logs the attempt; fails NotFound when absent. -/
def clientDelete (w : World) (i : Identity) : Except Err Unit × World :=
  let w1 := { w with log := w.log ++ [.delete i] }
  match clusterGet w1.cluster i with
  | none => (.error .notFound, w1)
  | some _ => (.ok (), { w1 with cluster := clusterDelete w1.cluster i })

/-- Modelled from the spec: `GetIfExists[v1.Namespace]` (not under `src/`):
fetch the namespace by name, `nil` when not found, propagating only unexpected
lookup errors (drawn from the oracle schedule). -/
def getIfExistsNamespace (w : World) (name : String) : Except Err (Option Obj) × World :=
  let s := popSchedule w.nsFaults
  let w1 := { w with nsFaults := s.2 }
  if s.1 then (.error .nsLookup, w1)
  else (.ok (clusterGet w1.cluster ⟨Kind.namespaceK, "", name⟩), w1)

/-! ## Handler configuration and small helpers -/

/-- Modelled from the spec: `common.MultipleOwnersLabel` (not under `src/`),
the marker label opting a resource into multiple owners.  Its concrete value
is immaterial to the engine's logic. -/
def MultipleOwnersLabel : String := "operator.tigera.io/multiple-owners"

/-- `v1.SecretTypeOpaque`. -/
def SecretTypeOpaque : String := "Opaque"

/-- `TLS_CIPHERS_ENV_VAR_NAME`. -/
def TLS_CIPHERS_ENV_VAR_NAME : String := "TLS_CIPHER_SUITES"

/-- The owning custom resource configured on a handler (`c.cr`): its name and
namespace (empty namespace = cluster scoped). -/
structure CrRef where
  name : String
  ns : String
deriving DecidableEq, Repr

/-- A component handler: the owning resource (if any), the create-only mode
flag, and the cipher-suite string of the installation-configuration lookup.
The installation lookup is modelled from the spec as an external collaborator
returning a fixed cipher-suite string (empty = absent, which is not an
error). -/
structure Handler where
  cr : Option CrRef
  createOnly : Bool
  tlsCiphers : String
deriving DecidableEq, Repr

/-- `checkIfMultipleOwnersLabel`: whether the marker label is present. -/
def checkIfMultipleOwnersLabel (m : Meta) : Bool :=
  (lookupS m.labels MultipleOwnersLabel).isSome

/-- `skipAddingOwnerReference`: true when the owner is namespaced and the
controlled object is cluster scoped. -/
def skipAddingOwnerReference (owner : CrRef) (controlled : Meta) : Bool :=
  owner.ns ≠ "" ∧ controlled.ns = ""

/-- `controllerutil.SetControllerReference` (external collaborator): install
the configured owner as the single controlling owner reference. -/
def setControllerReference (owner : CrRef) (m : Meta) : Meta :=
  { m with ownerReferences :=
      m.ownerReferences.filter (fun r => ¬ r.controller) ++ [⟨owner.name, true⟩] }

/-- `controllerutil.SetOwnerReference` (external collaborator): append a
non-controlling owner reference unless one for this owner is already
present. -/
def setOwnerReference (owner : CrRef) (m : Meta) : Meta :=
  if m.ownerReferences.any (fun r => r.owner = owner.name) then m
  else { m with ownerReferences := m.ownerReferences ++ [⟨owner.name, false⟩] }

/-- Modelled from the spec: `IgnoreObject` (not under `src/`), the user-facing
ignore-annotation predicate consulted on the live object before updating. -/
def IgnoreObject (o : Obj) : Bool :=
  lookupS o.meta.annotations "unsupported.operator.tigera.io/ignore" = some "true"

/-- `resetMetadataForCreate`: clear resourceVersion, UID and creation
timestamp so that a merged object is accepted as a fresh creation. -/
def resetMetadataForCreate (o : Obj) : Obj :=
  { o with meta := { o.meta with resourceVersion := "", uid := "", creationTimestamp := 0 } }

/-- Modelled from the spec: `common.MergeOwnerReferences` (not under `src/`):
desired ∪ current, deduplicated, desired first. -/
def mergeOwnerReferences (desired current : List OwnerRef) : List OwnerRef :=
  desired ++ current.filter (fun r => ¬ desired.contains r)

/-! ## Merge policy (`mergeState`) -/

/-- The generic metadata merge of `mergeState` (applied to every kind before
the kind-specific logic): backfill resourceVersion / UID / creation timestamp
when the desired ones are empty, adopt the current generation, merge
annotations and labels with desired values winning, and under the
multiple-owners marker merge the owner-reference sets and strip the
marker. -/
def mergeMeta (dm cu : Meta) : Meta :=
  let lbls := mergeMaps cu.labels dm.labels
  let mo := checkIfMultipleOwnersLabel { dm with labels := lbls }
  { dm with
    resourceVersion := if dm.resourceVersion = "" then cu.resourceVersion else dm.resourceVersion,
    uid := if dm.uid = "" then cu.uid else dm.uid,
    creationTimestamp :=
      if dm.creationTimestamp = 0 then cu.creationTimestamp else dm.creationTimestamp,
    generation := cu.generation,
    annotations := mergeMaps cu.annotations dm.annotations,
    ownerReferences :=
      if mo then mergeOwnerReferences dm.ownerReferences cu.ownerReferences
      else dm.ownerReferences,
    labels := if mo then removeKey lbls MultipleOwnersLabel else lbls }

/-- `mergeState`: the object to pass to Update given the desired and current
object states, or `none` when no update should happen.  Transcribed from the
source: the generic metadata merge (`mergeMeta`) followed by the kind-specific
merge table. -/
def mergeState (desired0 current : Obj) : Option Obj :=
  let cu := current.meta
  let desired : Obj := { desired0 with meta := mergeMeta desired0.meta current.meta }
  match desired.payload with
  | .service dcIP drest =>
    -- preserve the cluster-assigned ClusterIP unless the desired object
    -- explicitly asks for none
    match current.payload with
    | .service ccIP _ =>
      if dcIP ≠ "None" then some { desired with payload := .service ccIP drest }
      else some desired
    | _ => some desired
  | .job dt =>
    -- compare only the container count, the image strings and the template
    -- annotations
    match current.payload with
    | .job ct =>
      if ct.spec.containers.length ≠ dt.spec.containers.length then some desired
      else if (List.zip ct.spec.containers dt.spec.containers).any
          (fun p => ¬ p.1.image = p.2.image) then some desired
      else if ct.annotations = dt.annotations then none
      else some desired
    | _ => some desired
  | .deployment dRepl dSel dTmpl =>
    match current.payload with
    | .deployment cRepl _ cTmpl =>
      let repl := match dRepl with
        | none => cRepl
        | some n => some n
      let tmpl := { dTmpl with
        labels := mergeMaps cTmpl.labels dTmpl.labels,
        annotations := mergeMaps cTmpl.annotations dTmpl.annotations }
      some { desired with payload := .deployment repl dSel tmpl }
    | _ => some desired
  | .daemonSet dSel dTmpl =>
    match current.payload with
    | .daemonSet _ cTmpl =>
      let tmpl := { dTmpl with
        labels := mergeMaps cTmpl.labels dTmpl.labels,
        annotations := mergeMaps cTmpl.annotations dTmpl.annotations }
      some { desired with payload := .daemonSet dSel tmpl }
    | _ => some desired
  | .serviceAccount dSec dPull =>
    match current.payload with
    | .serviceAccount cSec cPull =>
      let sec := if cSec ≠ [] ∧ dSec = [] then cSec else dSec
      let pull := if cPull ≠ [] ∧ dPull = [] then cPull else dPull
      some { desired with payload := .serviceAccount sec pull }
    | _ => some desired
  | .elasticsearch dSpec _ =>
    match current.payload with
    | .elasticsearch cSpec cStatus =>
      if dSpec = cSpec then some current
      else some { desired with
        payload := .elasticsearch dSpec cStatus,
        meta := { desired.meta with annotations := cu.annotations, finalizers := cu.finalizers } }
    | _ => some desired
  | .kibana dSpec _ =>
    match current.payload with
    | .kibana cSpec cStatus =>
      if dSpec = cSpec then some current
      else some { desired with
        payload := .kibana { dSpec with elasticsearchRef := cSpec.elasticsearchRef } cStatus,
        meta := { desired.meta with annotations := cu.annotations, finalizers := cu.finalizers } }
    | _ => some desired
  | .uiSettings dSpec =>
    match current.payload with
    | .uiSettings cSpec =>
      if dSpec = cSpec then some current
      else some { desired with meta := { desired.meta with ownerReferences := cu.ownerReferences } }
    | _ => some desired
  | .networkPolicy dSpec =>
    match current.payload with
    | .networkPolicy cSpec => if dSpec = cSpec then none else some desired
    | _ => some desired
  | .tier dSpec =>
    match current.payload with
    | .tier cSpec => if dSpec = cSpec then none else some desired
    | _ => some desired
  | _ => some desired

/-! ## Mutation pipeline -/

/-- The operating-system constraint of a component. -/
inductive OSType where
  | any | linux | windows
deriving DecidableEq, Repr

/-- The node-selector value for an OS constraint. -/
def OSType.toLabel : OSType → String
  | .any => "any"
  | .linux => "linux"
  | .windows => "windows"

/-- Insert a string into a sorted list (ordering step of `slices.SortFunc`
with `strings.Compare`). -/
def insertSorted (s : String) : List String → List String
  | [] => [s]
  | t :: ts => if s ≤ t then s :: t :: ts else t :: insertSorted s ts

/-- Sort strings ascending. -/
def sortStrings : List String → List String
  | [] => []
  | s :: ss => insertSorted s (sortStrings ss)

/-- `setImagePullPolicy`: default any unset pull policy to IfNotPresent. -/
def setImagePullPolicy (ps : PodSpecM) : PodSpecM :=
  { ps with containers := ps.containers.map (fun c =>
      if c.imagePullPolicy = "" then { c with imagePullPolicy := "IfNotPresent" } else c) }

/-- `orderVolumes`: sort the volumes by name. -/
def orderVolumes (ps : PodSpecM) : PodSpecM :=
  { ps with volumes := sortStrings ps.volumes }

/-- `orderVolumeMounts`: sort every container's volume mounts by name. -/
def orderVolumeMounts (ps : PodSpecM) : PodSpecM :=
  { ps with containers := ps.containers.map (fun c =>
      { c with volumeMounts := sortStrings c.volumeMounts }) }

/-- `modifyPodSpec`: apply a pod-spec transformation to whatever pod spec(s)
the object embeds (same kind coverage as the source's type switch). -/
def modifyPodSpec (o : Obj) (f : PodSpecM → PodSpecM) : Obj :=
  match o.payload with
  | .podTemplate t => { o with payload := .podTemplate { t with spec := f t.spec } }
  | .deployment r s t => { o with payload := .deployment r s { t with spec := f t.spec } }
  | .daemonSet s t => { o with payload := .daemonSet s { t with spec := f t.spec } }
  | .statefulSet t => { o with payload := .statefulSet { t with spec := f t.spec } }
  | .cronJob t => { o with payload := .cronJob { t with spec := f t.spec } }
  | .job t => { o with payload := .job { t with spec := f t.spec } }
  | .kibana sp st => { o with payload := (.kibana
      { sp with podTemplate := { sp.podTemplate with spec := f sp.podTemplate.spec } } st) }
  | .elasticsearch sp st => { o with payload := (.elasticsearch
      { sp with nodeSets := sp.nodeSets.map (fun ns1 => { ns1 with spec := f ns1.spec }) } st) }
  | _ => o

/-- `ensureOSSchedulingRestrictions`: when an OS constraint is declared,
inject the `kubernetes.io/os` node selector into the pod template (with the
dedicated handling for the Prometheus-operator kinds, whose custom specs
embed the node selector directly). -/
def ensureOSSchedulingRestrictions (o : Obj) (osType : OSType) : Obj :=
  if osType = .any then o
  else
    match o.payload with
    | .alertmanager sp => { o with payload := (.alertmanager
        { sp with nodeSelector := mapSet sp.nodeSelector "kubernetes.io/os" osType.toLabel }) }
    | .prometheus sp => { o with payload := (.prometheus
        { sp with nodeSelector := mapSet sp.nodeSelector "kubernetes.io/os" osType.toLabel }) }
    | _ => modifyPodSpec o (fun ps =>
        { ps with nodeSelector := mapSet ps.nodeSelector "kubernetes.io/os" osType.toLabel })

/-- Default the unset fields of a probe (`setProbeTimeouts` constants). -/
def defaultProbe (period : Nat) (p : Probe) : Probe :=
  let p := if p.failureThreshold = 0 then { p with failureThreshold := 3 } else p
  let p := if p.periodSeconds = 0 then { p with periodSeconds := period } else p
  let p := if p.successThreshold = 0 then { p with successThreshold := 1 } else p
  if p.timeoutSeconds = 0 then { p with timeoutSeconds := 5 } else p

/-- Default the probes of one container (liveness period 60s, readiness
period 30s). -/
def defaultContainerProbes (c : Container) : Container :=
  let c := match c.livenessProbe with
    | none => c
    | some lp => { c with livenessProbe := some (defaultProbe 60 lp) }
  match c.readinessProbe with
  | none => c
  | some rp => { c with readinessProbe := some (defaultProbe 30 rp) }

/-- `setProbeTimeouts`: default liveness/readiness probe thresholds and
timeouts for the kinds the source enumerates (Deployment, DaemonSet,
Elasticsearch node sets, Kibana, Prometheus).  The Go loop mutates the probes
through pointers, so the defaults take effect on the object itself. -/
def setProbeTimeouts (o : Obj) : Obj :=
  match o.payload with
  | .deployment r s t => { o with payload := (.deployment r s
      { t with spec := { t.spec with containers := t.spec.containers.map defaultContainerProbes } }) }
  | .daemonSet s t => { o with payload := (.daemonSet s
      { t with spec := { t.spec with containers := t.spec.containers.map defaultContainerProbes } }) }
  | .elasticsearch sp st => { o with payload := (.elasticsearch
      { sp with nodeSets := sp.nodeSets.map (fun ns1 =>
          { ns1 with spec := { ns1.spec with containers := ns1.spec.containers.map defaultContainerProbes } }) } st) }
  | .kibana sp st => { o with payload := (.kibana
      { sp with podTemplate := { sp.podTemplate with spec :=
          { sp.podTemplate.spec with containers := sp.podTemplate.spec.containers.map defaultContainerProbes } } } st) }
  | .prometheus sp => { o with payload := (.prometheus
      { sp with containers := sp.containers.map defaultContainerProbes }) }
  | _ => o

/-- Set a pod-template label when it is missing or empty (Go reads a missing
key as `""`). -/
def setLabelIfEmpty (m : Smap) (k v : String) : Smap :=
  if (lookupS m k).getD "" = "" then mapSet m k v else m

/-- `setStandardSelectorAndLabels`: the `k8s-app` / `app.kubernetes.io/name`
identity labels on Deployments (object and pod template) and DaemonSets (pod
template only), plus a default `k8s-app` selector when none is specified. -/
def setStandardSelectorAndLabels (o : Obj) : Obj :=
  match o.payload with
  | .deployment r s t =>
    let name := o.meta.name
    let meta := { o.meta with labels :=
      (mapSet (mapSet o.meta.labels "k8s-app" name) "app.kubernetes.io/name" name) }
    let sel := match s with
      | none => some [("k8s-app", name)]
      | some s0 => some s0
    let tl := setLabelIfEmpty (setLabelIfEmpty t.labels "k8s-app" name) "app.kubernetes.io/name" name
    { meta := meta, payload := .deployment r sel { t with labels := tl } }
  | .daemonSet s t =>
    let name := o.meta.name
    let sel := match s with
      | none => some [("k8s-app", name)]
      | some s0 => some s0
    let tl := setLabelIfEmpty (setLabelIfEmpty t.labels "k8s-app" name) "app.kubernetes.io/name" name
    { o with payload := .daemonSet sel { t with labels := tl } }
  | _ => o

/-- Append the cipher-suite environment variable to a container when it is not
already present and a non-empty value is configured. -/
def addCipherEnv (value : String) (c : Container) : Container :=
  if c.env.any (fun e => e.1 = TLS_CIPHERS_ENV_VAR_NAME) then c
  else if value = "" then c
  else { c with env := c.env ++ [(TLS_CIPHERS_ENV_VAR_NAME, value)] }

/-- `ensureTLSCiphers`: inject the cipher-suite environment variable into the
containers of Deployments and DaemonSets, sourced from the
installation-configuration lookup (an external collaborator; its cipher-suite
string is carried on the handler). -/
def ensureTLSCiphers (h : Handler) (o : Obj) : Obj :=
  match o.payload with
  | .deployment r s t => { o with payload := (.deployment r s
      { t with spec := { t.spec with containers := t.spec.containers.map (addCipherEnv h.tlsCiphers) } }) }
  | .daemonSet s t => { o with payload := (.daemonSet s
      { t with spec := { t.spec with containers := t.spec.containers.map (addCipherEnv h.tlsCiphers) } }) }
  | _ => o

/-- The owner-linkage step of `createOrUpdateObject`: never add a controller
reference for UISettings; otherwise attach the configured owner (appended
non-controlling under the multiple-owners marker, controlling otherwise)
unless the scope rule says to skip. -/
def addOwnerLinkage (h : Handler) (multipleOwners : Bool) (o : Obj) : Obj :=
  match o.payload with
  | .uiSettings _ => o
  | _ =>
    match h.cr with
    | none => o
    | some cr =>
      if skipAddingOwnerReference cr o.meta then o
      else if multipleOwners then { o with meta := setOwnerReference cr o.meta }
      else { o with meta := setControllerReference cr o.meta }

/-- The full mutation pipeline applied to a desired object before any write,
in source order: owner linkage, OS scheduling restriction, image pull policy,
volume and volume-mount ordering, probe defaulting, standard selector and
labels, TLS ciphers. -/
def mutate (h : Handler) (osType : OSType) (o : Obj) : Obj :=
  let multipleOwners := checkIfMultipleOwnersLabel o.meta
  let o1 := addOwnerLinkage h multipleOwners o
  let o2 := ensureOSSchedulingRestrictions o1 osType
  let o3 := modifyPodSpec o2 setImagePullPolicy
  let o4 := modifyPodSpec o3 orderVolumes
  let o5 := modifyPodSpec o4 orderVolumeMounts
  let o6 := setProbeTimeouts o5
  let o7 := setStandardSelectorAndLabels o6
  ensureTLSCiphers h o7

/-! ## Handler write primitives and the dedup decision rule -/

/-- `needsUpdate`: the deduplication-cache decision rule.  True when the
identity has no cache entry; true when the live object's generation is newer
than the cached generation; false when the object equals the cached snapshot
exactly; true otherwise. -/
def needsUpdate (cache : Cache) (obj : Obj) : Bool :=
  match cacheGet cache obj.identity with
  | none => true
  | some cached =>
    if cached.2 < obj.meta.generation then true
    else if cached.1 = obj then false
    else true

/-- `c.create`: write through the client, then cache the deep copy taken
before the call together with the object's generation. -/
def handlerCreate (w : World) (obj : Obj) : Except Err Unit × World :=
  let cp := obj
  match clientCreate w obj.identity obj with
  | (.ok _, w1) =>
    (.ok (), { w1 with cache := cacheSet w1.cache obj.identity (cp, obj.meta.generation) })
  | (.error e, w1) => (.error e, w1)

/-- `c.update`: skip entirely when `needsUpdate` says nothing changed;
otherwise write through the client, invalidating the cache entry on NotFound
and refreshing it on success. -/
def handlerUpdate (w : World) (obj : Obj) : Except Err Unit × World :=
  if ¬ needsUpdate w.cache obj then (.ok (), w)
  else
    let cp := obj
    match clientUpdate w obj.identity obj with
    | (.ok _, w1) =>
      (.ok (), { w1 with cache := cacheSet w1.cache obj.identity (cp, obj.meta.generation) })
    | (.error e, w1) =>
      if e = .notFound then (.error e, { w1 with cache := cacheDelete w1.cache obj.identity })
      else (.error e, w1)

/-- `c.delete`: look the object up first and skip the delete call when it does
not exist; always invalidate the cache entry. -/
def handlerDelete (w : World) (obj : Obj) : Except Err Unit × World :=
  let key := obj.identity
  match clusterGet w.cluster key with
  | none => (.ok (), { w with cache := cacheDelete w.cache key })
  | some _ =>
    match clientDelete w key with
    | (.ok _, w1) => (.ok (), { w1 with cache := cacheDelete w1.cache key })
    | (.error e, w1) =>
      if e = .notFound then (.error e, { w1 with cache := cacheDelete w1.cache key })
      else (.error e, w1)

/-! ## `createOrUpdateObject` -/

/-- Delete the live object and re-create the merged object with its identity
fields reset (the MustRecreate write path shared by the Job / Secret /
Service / RoleBinding / ClusterRoleBinding branches). -/
def deleteAndRecreate (w : World) (obj mobj : Obj) : Except Err Unit × World :=
  match handlerDelete w obj with
  | (.error e, w1) => (.error e, w1)
  | (.ok _, w1) => handlerCreate w1 (resetMetadataForCreate mobj)

/-- Whether the Secret recreate condition holds: the secret type changed, and
the change is not the "no explicit type = default Opaque type" special
case. -/
def secretTypeChanged (dty cty : String) : Bool :=
  ¬ dty = cty ∧ ¬ (dty = "" ∧ cty = SecretTypeOpaque)

/-- `createOrUpdateObject`: mutate the desired object through the pipeline,
fetch current state, and create / skip / recreate / update per the source's
decision logic. -/
def createOrUpdateObject (h : Handler) (osType : OSType) (w : World) (obj0 : Obj) :
    Except Err Unit × World :=
  let multipleOwners := checkIfMultipleOwnersLabel obj0.meta
  let obj := mutate h osType obj0
  let key := obj.identity
  match clusterGet w.cluster key with
  | none =>
    -- invalidate our cached object, then check the target namespace
    let w1 := { w with cache := cacheDelete w.cache key }
    let nsStep : Except Err Bool × World :=
      if obj.meta.ns = "" then (.ok false, w1)
      else
        match getIfExistsNamespace w1 obj.meta.ns with
        | (.error e, w2) => (.error e, w2)
        | (.ok nsObj, w2) =>
          match nsObj with
          | none => (.ok false, w2)
          | some nsO => (.ok nsO.meta.deletionTimestamp.isSome, w2)
    match nsStep with
    | (.error e, w2) => (.error e, w2)
    | (.ok nsTerminating, w2) =>
      if nsTerminating then (.ok (), w2)
      else
        let objC :=
          if multipleOwners then
            { obj with meta := { obj.meta with labels := removeKey obj.meta.labels MultipleOwnersLabel } }
          else obj
        handlerCreate w2 objC
  | some cur =>
    if h.createOnly then (.error (.alreadyExists key), w)
    else if IgnoreObject cur then (.ok (), w)
    else
      match mergeState obj cur with
      | none => (.ok (), w)
      | some mobj =>
        match obj.payload with
        | .job _ =>
          -- Jobs can't be updated, only deleted then created
          deleteAndRecreate w obj mobj
        | .secret dty _ =>
          match cur.payload with
          | .secret cty _ =>
            if secretTypeChanged dty cty then deleteAndRecreate w obj mobj
            else handlerUpdate w mobj
          | _ => handlerUpdate w mobj
        | .service dcIP _ =>
          match cur.payload with
          | .service ccIP _ =>
            if dcIP = "None" ∧ ¬ ccIP = "None" then deleteAndRecreate w obj mobj
            else handlerUpdate w mobj
          | _ => handlerUpdate w mobj
        | .roleBinding dref _ =>
          match cur.payload with
          | .roleBinding cref _ =>
            if ¬ dref = cref then deleteAndRecreate w obj mobj
            else handlerUpdate w mobj
          | _ => handlerUpdate w mobj
        | .clusterRoleBinding dref _ =>
          match cur.payload with
          | .clusterRoleBinding cref _ =>
            if ¬ dref = cref then deleteAndRecreate w obj mobj
            else handlerUpdate w mobj
          | _ => handlerUpdate w mobj
        | _ => handlerUpdate w mobj

/-- The body of `createOrUpdateObject` abstracted over the already-mutated
object and the precomputed multiple-owners flag (the two let-bindings the
source computes first).  `createOrUpdateObject` unfolds to this definition by
`rfl`; the idempotence proofs work on it so that the mutated object can be
case-analysed as a variable. -/
def createOrUpdateCore (h : Handler) (w : World) (multipleOwners : Bool) (obj : Obj) :
    Except Err Unit × World :=
  let key := obj.identity
  match clusterGet w.cluster key with
  | none =>
    let w1 := { w with cache := cacheDelete w.cache key }
    let nsStep : Except Err Bool × World :=
      if obj.meta.ns = "" then (.ok false, w1)
      else
        match getIfExistsNamespace w1 obj.meta.ns with
        | (.error e, w2) => (.error e, w2)
        | (.ok nsObj, w2) =>
          match nsObj with
          | none => (.ok false, w2)
          | some nsO => (.ok nsO.meta.deletionTimestamp.isSome, w2)
    match nsStep with
    | (.error e, w2) => (.error e, w2)
    | (.ok nsTerminating, w2) =>
      if nsTerminating then (.ok (), w2)
      else
        let objC :=
          if multipleOwners then
            { obj with meta := { obj.meta with labels := removeKey obj.meta.labels MultipleOwnersLabel } }
          else obj
        handlerCreate w2 objC
  | some cur =>
    if h.createOnly then (.error (.alreadyExists key), w)
    else if IgnoreObject cur then (.ok (), w)
    else
      match mergeState obj cur with
      | none => (.ok (), w)
      | some mobj =>
        match obj.payload with
        | .job _ =>
          deleteAndRecreate w obj mobj
        | .secret dty _ =>
          match cur.payload with
          | .secret cty _ =>
            if secretTypeChanged dty cty then deleteAndRecreate w obj mobj
            else handlerUpdate w mobj
          | _ => handlerUpdate w mobj
        | .service dcIP _ =>
          match cur.payload with
          | .service ccIP _ =>
            if dcIP = "None" ∧ ¬ ccIP = "None" then deleteAndRecreate w obj mobj
            else handlerUpdate w mobj
          | _ => handlerUpdate w mobj
        | .roleBinding dref _ =>
          match cur.payload with
          | .roleBinding cref _ =>
            if ¬ dref = cref then deleteAndRecreate w obj mobj
            else handlerUpdate w mobj
          | _ => handlerUpdate w mobj
        | .clusterRoleBinding dref _ =>
          match cur.payload with
          | .clusterRoleBinding cref _ =>
            if ¬ dref = cref then deleteAndRecreate w obj mobj
            else handlerUpdate w mobj
          | _ => handlerUpdate w mobj
        | _ => handlerUpdate w mobj

/-! ## Settledness predicates (idempotence infrastructure) -/

/-- Whether the desired/current payload pair avoids every delete-and-recreate
branch of `createOrUpdateObject` (Jobs always recreate once the merge asks for
a write). -/
def noRecreate (dpl cpl : Payload) : Prop :=
  match dpl, cpl with
  | .job _, _ => False
  | .secret dty _, .secret cty _ => ¬ secretTypeChanged dty cty = true
  | .service dcIP _, .service ccIP _ => ¬ (dcIP = "None" ∧ ¬ ccIP = "None")
  | .roleBinding dref _, .roleBinding cref _ => dref = cref
  | .clusterRoleBinding dref _, .clusterRoleBinding cref _ => dref = cref
  | _, _ => True

/-- A cluster association list is well keyed when every stored object's
identity equals the key it is stored under (the invariant the real API server
maintains). -/
def WellKeyed (c : Cluster) : Prop := ∀ p ∈ c, p.2.identity = p.1

/-- The (already-mutated) desired object is settled in a world: running
`createOrUpdateCore` on it changes nothing.  Either the live object is there
and is ignored, or the merge signals no change, or the merge reproduces the
live state exactly, no recreate branch fires, and the deduplication cache
already holds that result; or the object is absent, uncached, and its target
namespace is terminating (so creation is skipped). -/
def Settled (w : World) (obj : Obj) : Prop :=
  match clusterGet w.cluster obj.identity with
  | some m =>
    IgnoreObject m = true ∨ mergeState obj m = none ∨
    (∃ m' g, mergeState obj m = some m' ∧ m'.identity = obj.identity ∧
      noRecreate obj.payload m.payload ∧
      cacheGet w.cache obj.identity = some (m', g) ∧ ¬ g < m'.meta.generation)
  | none =>
    cacheGet w.cache obj.identity = none ∧ ¬ obj.meta.ns = "" ∧
    (∃ nsO, clusterGet w.cluster ⟨Kind.namespaceK, "", obj.meta.ns⟩ = some nsO ∧
      nsO.meta.deletionTimestamp.isSome = true)

/-- An obsolete object is delete-settled when it is gone from both the cluster
and the deduplication cache: `c.delete` then changes nothing. -/
def DeleteSettled (w : World) (o : Obj) : Prop :=
  clusterGet w.cluster o.identity = none ∧ cacheGet w.cache o.identity = none

/-- The per-object side conditions of the idempotence theorem: the desired
object carries no server-assigned identity fields, is not a Namespace, and its
live counterpart (if any) agrees on the deletion timestamp and carries the
multiple-owners marker only when the desired object does. -/
def CreateHyp (w : World) (d : Obj) : Prop :=
  d.meta.resourceVersion = "" ∧ d.meta.uid = "" ∧ d.meta.creationTimestamp = 0 ∧
  ¬ d.payload.kind = Kind.namespaceK ∧
  (∀ cur, clusterGet w.cluster d.identity = some cur →
    cur.meta.deletionTimestamp = d.meta.deletionTimestamp ∧
    ((lookupS cur.meta.labels MultipleOwnersLabel).isSome = true →
     (lookupS d.meta.labels MultipleOwnersLabel).isSome = true))

/-! ## `CreateOrUpdateOrDelete` -/

/-- A component: the ordered desired objects, the obsolete objects to remove,
the readiness predicate's value, and the OS constraint. -/
structure Component where
  objsToCreate : List Obj
  objsToDelete : List Obj
  ready : Bool
  osType : OSType
deriving DecidableEq, Repr

/-- What is reported to the status collaborator. -/
structure StatusReport where
  addedDeployments : List Identity
  addedDaemonSets : List Identity
  addedStatefulSets : List Identity
  addedCronJobs : List Identity
  removedDeployments : List Identity
  removedDaemonSets : List Identity
  removedStatefulSets : List Identity
  removedCronJobs : List Identity
  readyToMonitor : Bool
deriving DecidableEq, Repr

/-- The empty status report. -/
def StatusReport.empty : StatusReport := ⟨[], [], [], [], [], [], [], [], false⟩

/-- Accumulator of the create loop: the world, the remembered already-exists
error, and the tracked workload identities. -/
structure LoopState where
  w : World
  alreadyExistsErr : Option Err
  deployments : List Identity
  daemonSets : List Identity
  statefulsets : List Identity
  cronJobs : List Identity
deriving DecidableEq, Repr

/-- Track workload-shaped kinds for the status collaborator. -/
def trackKind (st : LoopState) (key : Identity) (obj : Obj) : LoopState :=
  match obj.payload with
  | .deployment _ _ _ => { st with deployments := st.deployments ++ [key] }
  | .daemonSet _ _ => { st with daemonSets := st.daemonSets ++ [key] }
  | .statefulSet _ => { st with statefulsets := st.statefulsets ++ [key] }
  | .cronJob _ => { st with cronJobs := st.cronJobs ++ [key] }
  | _ => st

/-- One desired object of the create loop, including the `goto`-based single
conflict retry: an already-exists error is remembered and processing carries
on; a conflict is retried exactly once by re-running `createOrUpdateObject`;
any conflict after the retry, and any other error, is fatal. -/
def processOne (h : Handler) (osType : OSType) (w : World) (obj : Obj) :
    Except Err (World × Option Err) × World :=
  match createOrUpdateObject h osType w obj with
  | (.ok _, w1) => (.ok (w1, none), w1)
  | (.error e, w1) =>
    if e.isAlreadyExists then (.ok (w1, some e), w1)
    else if e = .conflict then
      match createOrUpdateObject h osType w1 obj with
      | (.ok _, w2) => (.ok (w2, none), w2)
      | (.error e2, w2) =>
        if e2.isAlreadyExists then (.ok (w2, some e2), w2)
        else (.error e2, w2)
    else (.error e, w1)

/-- The create loop over the desired objects, in caller-supplied order. -/
def processCreateList (h : Handler) (osType : OSType) :
    LoopState → List Obj → Except Err Unit × LoopState
  | st, [] => (.ok (), st)
  | st, obj :: rest =>
    match processOne h osType st.w obj with
    | (.error e, w1) => (.error e, { st with w := w1 })
    | (.ok (w1, ae), _) =>
      let ae2 := match ae with
        | some e => some e
        | none => st.alreadyExistsErr
      let st1 := { st with w := w1, alreadyExistsErr := ae2 }
      let st2 := trackKind st1 obj.identity obj
      processCreateList h osType st2 rest

/-- The delete loop over the obsolete objects: a NotFound on delete is
tolerated, any other delete error aborts and propagates; removals are
reported to the status collaborator. -/
def processDeleteList (h : Handler) :
    World → StatusReport → List Obj → Except Err Unit × World × StatusReport
  | w, rep, [] => (.ok (), w, rep)
  | w, rep, obj :: rest =>
    match handlerDelete w obj with
    | (.error e, w1) =>
      if e = .notFound then
        processDeleteList h w1 (trackRemoval rep obj) rest
      else (.error e, w1, rep)
    | (.ok _, w1) =>
      processDeleteList h w1 (trackRemoval rep obj) rest
where
  /-- Report one removal to the status collaborator, per workload kind. -/
  trackRemoval (rep : StatusReport) (obj : Obj) : StatusReport :=
    match obj.payload with
    | .deployment _ _ _ => { rep with removedDeployments := rep.removedDeployments ++ [obj.identity] }
    | .daemonSet _ _ => { rep with removedDaemonSets := rep.removedDaemonSets ++ [obj.identity] }
    | .statefulSet _ => { rep with removedStatefulSets := rep.removedStatefulSets ++ [obj.identity] }
    | .cronJob _ => { rep with removedCronJobs := rep.removedCronJobs ++ [obj.identity] }
    | _ => rep

/-- `CreateOrUpdateOrDelete`: skip when the component is not ready; process
the desired objects in order (with the conflict retry), report tracked
creations, process the obsolete objects, signal `ReadyToMonitor`, and return
the remembered already-exists error, if any. -/
def CreateOrUpdateOrDelete (h : Handler) (comp : Component) (w : World) :
    Except Err Unit × World × StatusReport :=
  if ¬ comp.ready then (.ok (), w, StatusReport.empty)
  else
    match processCreateList h comp.osType ⟨w, none, [], [], [], []⟩ comp.objsToCreate with
    | (.error e, st) => (.error e, st.w, StatusReport.empty)
    | (.ok _, st) =>
      let rep : StatusReport :=
        { StatusReport.empty with
          addedDeployments := st.deployments,
          addedDaemonSets := st.daemonSets,
          addedStatefulSets := st.statefulsets,
          addedCronJobs := st.cronJobs }
      match processDeleteList h st.w rep comp.objsToDelete with
      | (.error e, w2, rep2) => (.error e, w2, rep2)
      | (.ok _, w2, rep2) =>
        let rep3 := { rep2 with readyToMonitor := true }
        match st.alreadyExistsErr with
        | some e => (.error e, w2, rep3)
        | none => (.ok (), w2, rep3)

/-! ## Concrete fixtures used by the scenario theorems and witnesses -/

/-- Metadata with every field at its zero value. -/
def meta0 (name ns : String) : Meta := ⟨name, ns, 0, "", "", 0, [], [], [], [], none⟩

/-- A handler with no owning resource, normal mode and no configured
ciphers. -/
def plainHandler : Handler := ⟨none, false, ""⟩

/-- The empty world: nothing on the cluster, empty cache, no faults. -/
def wEmpty : World := ⟨[], [], [], [], []⟩

/-- A tiny cluster-scoped object of an unlisted kind. -/
def objX : Obj := ⟨meta0 "a" "", .other "x"⟩

/-- A world whose cluster holds exactly `objX`. -/
def wWithX : World := ⟨[(objX.identity, objX)], [], [], [], []⟩

/-- A desired role binding with role-reference name "new". -/
def rbD : Obj :=
  ⟨{ meta0 "rb" "ns1" with labels := [("own", "2")] }, .roleBinding "new" "subj"⟩

/-- A live role binding with role-reference name "old" and externally added
labels and annotations. -/
def rbC : Obj :=
  ⟨{ meta0 "rb" "ns1" with labels := [("ext", "1")], annotations := [("anx", "y")] },
   .roleBinding "old" "subj"⟩

/-- A world holding exactly the live role binding. -/
def wRB : World := ⟨[(rbD.identity, rbC)], [], [], [], []⟩

/-- A terminating namespace object. -/
def termNs : Obj := ⟨{ meta0 "tns" "" with deletionTimestamp := some 7 }, .namespaceK⟩

/-- A desired object living in the terminating namespace. -/
def objInNs : Obj := ⟨meta0 "o" "tns", .other "x"⟩

/-- A world whose cluster holds only the terminating namespace. -/
def wTermNs : World := ⟨[(termNs.identity, termNs)], [], [], [], []⟩

/-- A world scripted so that the next namespace lookup fails unexpectedly. -/
def wNsFault : World := ⟨[], [], [], [], [true]⟩

/-- A desired object whose live counterpart carries the ignore annotation. -/
def objIgn : Obj := ⟨meta0 "i" "", .other "d"⟩

/-- The live, user-annotated (ignored) counterpart of `objIgn`. -/
def curIgn : Obj :=
  ⟨{ meta0 "i" "" with annotations := [("unsupported.operator.tigera.io/ignore", "true")] },
   .other "c"⟩

/-- A second desired object that does not exist yet. -/
def objFresh : Obj := ⟨meta0 "z" "", .other "2"⟩

/-- A world holding only the ignored live object. -/
def wIgn : World := ⟨[(objIgn.identity, curIgn)], [], [], [], []⟩

/-- The two-object component exercising the ignore escape hatch. -/
def compIgn : Component := ⟨[objIgn, objFresh], [], true, .any⟩

/-- A live object whose spec differs from the desired `objX`, forcing a real
update. -/
def curX : Obj := ⟨meta0 "a" "", .other "old"⟩

/-- A component consisting only of the desired `objX`. -/
def compX : Component := ⟨[objX], [], true, .any⟩

/-- A world where one update conflict is scheduled. -/
def wOneConflict : World := ⟨[(objX.identity, curX)], [], [], [true], []⟩

/-- A world where two consecutive update conflicts are scheduled. -/
def wTwoConflicts : World := ⟨[(objX.identity, curX)], [], [], [true, true], []⟩

/-- A create-only handler. -/
def hCreateOnly : Handler := ⟨none, true, ""⟩

/-- Three desired objects for the create-only scenario. -/
def o51 : Obj := ⟨meta0 "a" "", .other "1"⟩

def o52 : Obj := ⟨meta0 "b" "", .other "2"⟩

def o53 : Obj := ⟨meta0 "c" "", .other "3"⟩

/-- The live (different) object already present at `o51`'s identity. -/
def c51 : Obj := ⟨meta0 "a" "", .other "live"⟩

/-- A world where only the first of the three desired objects already
exists. -/
def w5 : World := ⟨[(o51.identity, c51)], [], [], [], []⟩

/-- The three-object component for the create-only scenario. -/
def comp5 : Component := ⟨[o51, o52, o53], [], true, .any⟩

/-- A desired Elasticsearch object (no status, no externally-written
annotations). -/
def esD : Obj := ⟨meta0 "es" "dns", .elasticsearch ⟨[], "spec"⟩ ""⟩

/-- The live Elasticsearch object: same spec, but with the status and
annotations its own controller wrote. -/
def esC : Obj :=
  ⟨{ meta0 "es" "dns" with annotations := [("eck", "x")] }, .elasticsearch ⟨[], "spec"⟩ "st"⟩

/-- A world holding the live Elasticsearch object, with an empty dedup
cache. -/
def wES : World := ⟨[(esD.identity, esC)], [], [], [], []⟩

/-- As `wES`, but with the dedup cache already holding the live object. -/
def wESCached : World := ⟨[(esD.identity, esC)], [(esD.identity, esC, 0)], [], [], []⟩

/-- A desired Secret carrying a preset resourceVersion and a changed type. -/
def secD : Obj := ⟨{ meta0 "s" "" with resourceVersion := "1" }, .secret "A" []⟩

/-- The live Secret of the other type. -/
def secC : Obj := ⟨meta0 "s" "", .secret "B" []⟩

/-- A world holding exactly the live Secret. -/
def wSec : World := ⟨[(secD.identity, secC)], [], [], [], []⟩

/-- The single-Secret component driving the recreate path. -/
def compSec : Component := ⟨[secD], [], true, .any⟩

end Operator

namespace Operator

/-! ## Association-list lemmas -/

theorem assocGet_set_self {β : Type} (l : List (Identity × β)) (i : Identity) (v : β) :
    assocGet (assocSet l i v) i = some v := by
  simp [assocGet, assocSet, List.find?]

theorem find?_key_filter_ne {β : Type} (l : List (Identity × β)) (i j : Identity) (h : ¬ j = i) :
    (l.filter (fun p => ¬ p.1 = i)).find? (fun p => p.1 = j)
      = l.find? (fun p => p.1 = j) := by
  rw [List.find?_filter]
  congr 1
  funext p
  by_cases hpj : p.1 = j
  · have hpi : ¬ p.1 = i := by rw [hpj]; exact h
    simp [hpj, hpi]
    exact h
  · simp [hpj]

theorem assocGet_set_ne {β : Type} (l : List (Identity × β)) (i j : Identity) (v : β)
    (h : ¬ j = i) : assocGet (assocSet l i v) j = assocGet l j := by
  have hij : ¬ (i = j) := fun hij => h hij.symm
  simp only [assocGet, assocSet]
  rw [List.find?_cons_of_neg _ (by simpa using hij), find?_key_filter_ne l i j h]

theorem assocGet_delete_self {β : Type} (l : List (Identity × β)) (i : Identity) :
    assocGet (assocDelete l i) i = none := by
  simp only [assocGet, assocDelete]
  induction l with
  | nil => rfl
  | cons a t ih =>
    by_cases ha : a.1 = i
    · simp [List.filter_cons, ha]
    · simp [List.filter_cons, ha]

theorem assocGet_delete_ne {β : Type} (l : List (Identity × β)) (i j : Identity)
    (h : ¬ j = i) : assocGet (assocDelete l i) j = assocGet l j := by
  simp only [assocGet, assocDelete]
  rw [find?_key_filter_ne l i j h]

theorem assocDelete_idem {β : Type} (l : List (Identity × β)) (i : Identity) :
    assocDelete (assocDelete l i) i = assocDelete l i := by
  simp [assocDelete, List.filter_filter]

/-! ## String-map lemmas -/

theorem find?_ext {α : Type} (p q : α → Bool) (l : List α) (h : ∀ a, p a = q a) :
    l.find? p = l.find? q := by
  induction l with
  | nil => rfl
  | cons a t ih =>
    rw [List.find?_cons, List.find?_cons, h a, ih]

theorem lookupS_mergeMaps_of_none (cur des : Smap) (k : String)
    (h : lookupS des k = none) :
    lookupS (mergeMaps cur des) k = lookupS cur k := by
  have hfd : List.find? (fun p => decide (p.1 = k)) des = none := by
    rcases hfd0 : List.find? (fun p => decide (p.1 = k)) des with _ | p
    · exact hfd0
    · have hsome : lookupS des k = some p.2 := by
        unfold lookupS
        rw [hfd0]
        rfl
      rw [h] at hsome
      exact Option.noConfusion hsome
  unfold lookupS mergeMaps
  rw [List.find?_append, hfd, Option.none_or, List.find?_filter]
  congr 1
  apply find?_ext
  intro a
  by_cases hak : a.1 = k
  · rw [hak]
    simp [h]
  · simp [hak]

theorem lookupS_mergeMaps_of_some (cur des : Smap) (k v : String)
    (h : lookupS des k = some v) :
    lookupS (mergeMaps cur des) k = some v := by
  have hfd : ∃ p, List.find? (fun p => decide (p.1 = k)) des = some p ∧ p.2 = v := by
    rcases hfd0 : List.find? (fun p => decide (p.1 = k)) des with _ | p
    · have hnone : lookupS des k = none := by
        unfold lookupS
        rw [hfd0]
        rfl
      rw [h] at hnone
      exact Option.noConfusion hnone
    · refine ⟨p, hfd0, ?_⟩
      have hsome : lookupS des k = some p.2 := by
        unfold lookupS
        rw [hfd0]
        rfl
      rw [h] at hsome
      injection hsome with hv
      exact hv.symm
  obtain ⟨p, hp1, hp2⟩ := hfd
  unfold lookupS mergeMaps
  rw [List.find?_append, hp1]
  simp [Option.or, hp2]

/-! ## Merge-algebra lemmas (idempotence of the map and owner-reference
merges, used for the second-reconcile stability argument) -/

theorem lookupS_isSome_of_mem (m : Smap) (a : String × String) (ha : a ∈ m) :
    (lookupS m a.1).isSome = true := by
  unfold lookupS
  rcases hf : m.find? (fun p => p.1 = a.1) with _ | p
  · rw [List.find?_eq_none] at hf
    exact absurd (by simp) (hf a ha)
  · rw [hf]
    rfl

theorem filter_lookup_self (m : Smap) :
    m.filter (fun p => (lookupS m p.1).isNone) = [] := by
  rw [List.filter_eq_nil_iff]
  intro a ha
  have := lookupS_isSome_of_mem m a ha
  rcases h : lookupS m a.1 with _ | v
  · rw [h] at this
    cases this
  · simp [h]

theorem mergeMaps_self (m : Smap) : mergeMaps m m = m := by
  show m ++ m.filter (fun p => (lookupS m p.1).isNone) = m
  rw [filter_lookup_self]
  simp

theorem filter_lookup_mergeMaps (c d : Smap) (q : String × String → Bool) :
    (mergeMaps c d).filter (fun p => (lookupS d p.1).isNone && q p)
      = (c.filter (fun p => (lookupS d p.1).isNone)).filter q := by
  show ((d ++ c.filter (fun p => (lookupS d p.1).isNone)).filter
      (fun p => (lookupS d p.1).isNone && q p)) = _
  rw [List.filter_append, List.filter_filter]
  have h1 : d.filter (fun p => (lookupS d p.1).isNone && q p) = [] := by
    rw [List.filter_eq_nil_iff]
    intro a ha
    have := lookupS_isSome_of_mem d a ha
    rcases h : lookupS d a.1 with _ | v
    · rw [h] at this
      cases this
    · simp [h]
  have h2 : c.filter (fun a => ((lookupS d a.1).isNone && q a) && (lookupS d a.1).isNone)
      = c.filter (fun a => (lookupS d a.1).isNone && q a) := by
    apply List.filter_congr
    intro x hx
    rcases hq : q x <;> rcases hl : (lookupS d x.1).isNone <;> simp [hq, hl]
  rw [h1, h2, List.nil_append, List.filter_filter]
  apply List.filter_congr
  intro x hx
  rcases hq : q x <;> rcases hl : (lookupS d x.1).isNone <;> simp [hq, hl]

theorem mergeMaps_absorb (c d : Smap) : mergeMaps (mergeMaps c d) d = mergeMaps c d := by
  show d ++ (mergeMaps c d).filter (fun p => (lookupS d p.1).isNone) = mergeMaps c d
  have h := filter_lookup_mergeMaps c d (fun _ => true)
  simp only [Bool.and_true, List.filter_true] at h
  rw [h]
  rfl

theorem lookupS_removeKey_self (m : Smap) (k : String) :
    lookupS (removeKey m k) k = none := by
  unfold lookupS removeKey
  have hnone : List.find? (fun p => decide (p.1 = k)) (m.filter (fun p => ¬ p.1 = k)) = none := by
    rw [List.find?_eq_none]
    intro p hp
    have := List.of_mem_filter hp
    simpa using this
  rw [hnone]
  rfl

theorem removeKey_of_lookup_none (m : Smap) (k : String) (h : lookupS m k = none) :
    removeKey m k = m := by
  unfold removeKey
  rw [List.filter_eq_self]
  intro a ha
  have hs := lookupS_isSome_of_mem m a ha
  simp only [decide_eq_true_eq]
  intro hak
  rw [hak] at hs
  rw [h] at hs
  cases hs

theorem removeKey_mergeMaps_removeKey (c d : Smap) (k : String) :
    removeKey (mergeMaps (removeKey (mergeMaps c d) k) d) k
      = removeKey (mergeMaps c d) k := by
  have hstep : mergeMaps (removeKey (mergeMaps c d) k) d
      = d ++ removeKey (c.filter (fun p => (lookupS d p.1).isNone)) k := by
    show d ++ (removeKey (mergeMaps c d) k).filter (fun p => (lookupS d p.1).isNone) = _
    unfold removeKey
    rw [List.filter_filter]
    have hcomm : (mergeMaps c d).filter (fun a => (lookupS d a.1).isNone && ¬ a.1 = k)
        = (c.filter (fun p => (lookupS d p.1).isNone)).filter (fun a => ¬ a.1 = k) :=
      filter_lookup_mergeMaps c d (fun a => ¬ a.1 = k)
    rw [hcomm]
  rw [hstep]
  show (d ++ removeKey (c.filter (fun p => (lookupS d p.1).isNone)) k).filter
      (fun p => ¬ p.1 = k) = _
  rw [List.filter_append]
  have hidem : (removeKey (c.filter (fun p => (lookupS d p.1).isNone)) k).filter
      (fun p => ¬ p.1 = k) = removeKey (c.filter (fun p => (lookupS d p.1).isNone)) k := by
    unfold removeKey
    rw [List.filter_filter]
    apply List.filter_congr
    intro x hx
    rcases hl : (decide (¬ x.1 = k)) <;> simp [hl]
  rw [hidem]
  show _ = (d ++ List.filter (fun p => (lookupS d p.1).isNone) c).filter (fun p => ¬ p.1 = k)
  rw [List.filter_append]
  rfl

theorem mergeMaps_removeKey_self (d : Smap) (k : String) :
    mergeMaps (removeKey d k) d = d := by
  show d ++ (removeKey d k).filter (fun p => (lookupS d p.1).isNone) = d
  have : (removeKey d k).filter (fun p => (lookupS d p.1).isNone) = [] := by
    rw [List.filter_eq_nil_iff]
    intro a ha
    have ham := List.mem_of_mem_filter ha
    have hs := lookupS_isSome_of_mem d a ham
    rcases h : lookupS d a.1 with _ | v
    · rw [h] at hs
      cases hs
    · simp [h]
  rw [this]
  simp

theorem contains_filter_not_contains (a b : List OwnerRef) :
    (b.filter (fun r => ¬ a.contains r)).filter (fun r => ¬ a.contains r)
      = b.filter (fun r => ¬ a.contains r) := by
  rw [List.filter_filter]
  apply List.filter_congr
  intro x hx
  rcases hl : (decide (¬ a.contains x = true)) <;> simp [hl]

theorem mergeOwnerReferences_self (a : List OwnerRef) : mergeOwnerReferences a a = a := by
  show a ++ a.filter (fun r => ¬ a.contains r) = a
  have : a.filter (fun r => ¬ a.contains r) = [] := by
    rw [List.filter_eq_nil_iff]
    intro r hr
    simpa using hr
  rw [this]
  simp

theorem mergeOwnerReferences_absorb (a b : List OwnerRef) :
    mergeOwnerReferences a (mergeOwnerReferences a b) = mergeOwnerReferences a b := by
  show a ++ (a ++ b.filter (fun r => ¬ a.contains r)).filter (fun r => ¬ a.contains r)
      = mergeOwnerReferences a b
  rw [List.filter_append]
  have h1 : a.filter (fun r => ¬ a.contains r) = [] := by
    rw [List.filter_eq_nil_iff]
    intro r hr
    simpa using hr
  rw [h1, contains_filter_not_contains]
  rfl

/-! ## `mergeMeta` field lemmas -/

theorem mergeMeta_name (dm cu : Meta) : (mergeMeta dm cu).name = dm.name := rfl

theorem mergeMeta_ns (dm cu : Meta) : (mergeMeta dm cu).ns = dm.ns := rfl

theorem mergeMeta_generation (dm cu : Meta) : (mergeMeta dm cu).generation = cu.generation := rfl

theorem mergeMeta_annotations (dm cu : Meta) :
    (mergeMeta dm cu).annotations = mergeMaps cu.annotations dm.annotations := rfl

theorem mergeMeta_finalizers (dm cu : Meta) : (mergeMeta dm cu).finalizers = dm.finalizers := rfl

theorem mergeMeta_deletionTimestamp (dm cu : Meta) :
    (mergeMeta dm cu).deletionTimestamp = dm.deletionTimestamp := rfl

theorem mergeMeta_resourceVersion (dm cu : Meta) :
    (mergeMeta dm cu).resourceVersion
      = if dm.resourceVersion = "" then cu.resourceVersion else dm.resourceVersion := rfl

theorem mergeMeta_uid (dm cu : Meta) :
    (mergeMeta dm cu).uid = if dm.uid = "" then cu.uid else dm.uid := rfl

theorem mergeMeta_creationTimestamp (dm cu : Meta) :
    (mergeMeta dm cu).creationTimestamp
      = if dm.creationTimestamp = 0 then cu.creationTimestamp else dm.creationTimestamp := rfl

theorem mergeMeta_labels_noMO (dm cu : Meta)
    (hd : lookupS dm.labels MultipleOwnersLabel = none)
    (hc : lookupS cu.labels MultipleOwnersLabel = none) :
    (mergeMeta dm cu).labels = mergeMaps cu.labels dm.labels ∧
    (mergeMeta dm cu).ownerReferences = dm.ownerReferences := by
  have hmo : lookupS (mergeMaps cu.labels dm.labels) MultipleOwnersLabel = none := by
    rw [lookupS_mergeMaps_of_none cu.labels dm.labels MultipleOwnersLabel hd]
    exact hc
  simp [mergeMeta, checkIfMultipleOwnersLabel, hmo]

/-! ## `mergeMeta` idempotence -/

theorem mergeMeta_labels (dm cu : Meta) :
    (mergeMeta dm cu).labels =
      (if (lookupS (mergeMaps cu.labels dm.labels) MultipleOwnersLabel).isSome
       then removeKey (mergeMaps cu.labels dm.labels) MultipleOwnersLabel
       else mergeMaps cu.labels dm.labels) := rfl

theorem mergeMeta_ownerReferences (dm cu : Meta) :
    (mergeMeta dm cu).ownerReferences =
      (if (lookupS (mergeMaps cu.labels dm.labels) MultipleOwnersLabel).isSome
       then mergeOwnerReferences dm.ownerReferences cu.ownerReferences
       else dm.ownerReferences) := rfl

theorem mergeMeta_labels_MO_free (dm cu : Meta) :
    lookupS (mergeMeta dm cu).labels MultipleOwnersLabel = none := by
  rw [mergeMeta_labels]
  rcases hmo : lookupS (mergeMaps cu.labels dm.labels) MultipleOwnersLabel with _ | v
  · simp [hmo]
  · simp [hmo, lookupS_removeKey_self]

theorem lookupS_mergeMaps_left_MOfree (x d : Smap) (k : String) (hx : lookupS x k = none) :
    lookupS (mergeMaps x d) k = lookupS d k := by
  rcases hd : lookupS d k with _ | v
  · rw [lookupS_mergeMaps_of_none x d k hd, hx]
  · rw [lookupS_mergeMaps_of_some x d k v hd]

theorem Meta.ext' {a b : Meta} (hname : a.name = b.name) (hns : a.ns = b.ns)
    (hgen : a.generation = b.generation) (hrv : a.resourceVersion = b.resourceVersion)
    (huid : a.uid = b.uid) (hts : a.creationTimestamp = b.creationTimestamp)
    (hl : a.labels = b.labels) (hann : a.annotations = b.annotations)
    (hfin : a.finalizers = b.finalizers) (href : a.ownerReferences = b.ownerReferences)
    (hdts : a.deletionTimestamp = b.deletionTimestamp) : a = b := by
  rcases a
  rcases b
  simp_all

/-- Re-merging against a current metadata whose labels and owner references
already are the result of a previous merge leaves labels and owner references
unchanged (the multiple-owners interaction needs that the live object carries
the marker only when the desired one does). -/
theorem mergeMeta_labels_refs_stable (dm cu X : Meta)
    (hMO : (lookupS cu.labels MultipleOwnersLabel).isSome = true →
           (lookupS dm.labels MultipleOwnersLabel).isSome = true)
    (hXl : X.labels = (mergeMeta dm cu).labels)
    (hXr : X.ownerReferences = (mergeMeta dm cu).ownerReferences) :
    (mergeMeta dm X).labels = X.labels ∧
    (mergeMeta dm X).ownerReferences = X.ownerReferences := by
  have hfree : lookupS X.labels MultipleOwnersLabel = none := by
    rw [hXl]
    exact mergeMeta_labels_MO_free dm cu
  have hcond2 : lookupS (mergeMaps X.labels dm.labels) MultipleOwnersLabel
      = lookupS dm.labels MultipleOwnersLabel :=
    lookupS_mergeMaps_left_MOfree _ _ _ hfree
  rcases hdm : lookupS dm.labels MultipleOwnersLabel with _ | v
  · -- the desired object does not carry the marker, hence neither does the
    -- live one
    have hcu : lookupS cu.labels MultipleOwnersLabel = none := by
      rcases hcu0 : lookupS cu.labels MultipleOwnersLabel with _ | u
      · rfl
      · have := hMO (by rw [hcu0]; rfl)
        rw [hdm] at this
        cases this
    have hcond1 : lookupS (mergeMaps cu.labels dm.labels) MultipleOwnersLabel = none := by
      rw [lookupS_mergeMaps_of_none cu.labels dm.labels _ hdm, hcu]
    constructor
    · rw [mergeMeta_labels dm X, hcond2, hdm]
      simp only [Option.isSome_none, Bool.false_eq_true, if_false]
      rw [hXl, mergeMeta_labels dm cu, hcond1]
      simp only [Option.isSome_none, Bool.false_eq_true, if_false]
      exact mergeMaps_absorb cu.labels dm.labels
    · rw [mergeMeta_ownerReferences dm X, hcond2, hdm]
      simp only [Option.isSome_none, Bool.false_eq_true, if_false]
      rw [hXr, mergeMeta_ownerReferences dm cu, hcond1]
      simp
  · -- the desired object carries the marker
    have hcond1 : lookupS (mergeMaps cu.labels dm.labels) MultipleOwnersLabel = some v :=
      lookupS_mergeMaps_of_some cu.labels dm.labels _ v hdm
    constructor
    · rw [mergeMeta_labels dm X, hcond2, hdm]
      simp only [Option.isSome_some, if_true]
      rw [hXl, mergeMeta_labels dm cu, hcond1]
      simp only [Option.isSome_some, if_true]
      exact removeKey_mergeMaps_removeKey cu.labels dm.labels MultipleOwnersLabel
    · rw [mergeMeta_ownerReferences dm X, hcond2, hdm]
      simp only [Option.isSome_some, if_true]
      rw [hXr, mergeMeta_ownerReferences dm cu, hcond1]
      simp only [Option.isSome_some, if_true]
      exact mergeOwnerReferences_absorb dm.ownerReferences cu.ownerReferences

/-- Merging a second time against the previous merge result is the
identity. -/
theorem mergeMeta_idem (dm cu : Meta)
    (hMO : (lookupS cu.labels MultipleOwnersLabel).isSome = true →
           (lookupS dm.labels MultipleOwnersLabel).isSome = true) :
    mergeMeta dm (mergeMeta dm cu) = mergeMeta dm cu := by
  have hlr := mergeMeta_labels_refs_stable dm cu (mergeMeta dm cu) hMO rfl rfl
  apply Meta.ext'
  · rw [mergeMeta_name, mergeMeta_name]
  · rw [mergeMeta_ns, mergeMeta_ns]
  · rw [mergeMeta_generation]
  · rw [mergeMeta_resourceVersion, mergeMeta_resourceVersion]
    split_ifs with h <;> rfl
  · rw [mergeMeta_uid, mergeMeta_uid]
    split_ifs with h <;> rfl
  · rw [mergeMeta_creationTimestamp, mergeMeta_creationTimestamp]
    split_ifs with h <;> rfl
  · exact hlr.1
  · rw [mergeMeta_annotations, mergeMeta_annotations]
    exact mergeMaps_absorb cu.annotations dm.annotations
  · rw [mergeMeta_finalizers, mergeMeta_finalizers]
  · exact hlr.2
  · rw [mergeMeta_deletionTimestamp, mergeMeta_deletionTimestamp]

/-- Merging against the reset (resourceVersion / UID / creation timestamp
cleared) previous merge result is also the identity, provided the desired
metadata carries empty identity fields. -/
theorem mergeMeta_reset_idem (dm cu : Meta)
    (hrv : dm.resourceVersion = "") (huid : dm.uid = "") (hts : dm.creationTimestamp = 0)
    (hMO : (lookupS cu.labels MultipleOwnersLabel).isSome = true →
           (lookupS dm.labels MultipleOwnersLabel).isSome = true) :
    mergeMeta dm { mergeMeta dm cu with
        resourceVersion := "", uid := "", creationTimestamp := 0 }
      = { mergeMeta dm cu with resourceVersion := "", uid := "", creationTimestamp := 0 } := by
  have hlr := mergeMeta_labels_refs_stable dm cu
    { mergeMeta dm cu with resourceVersion := "", uid := "", creationTimestamp := 0 }
    hMO rfl rfl
  apply Meta.ext'
  · rw [mergeMeta_name]
    rfl
  · rw [mergeMeta_ns]
    rfl
  · rw [mergeMeta_generation]
  · rw [mergeMeta_resourceVersion, hrv]
    rfl
  · rw [mergeMeta_uid, huid]
    rfl
  · rw [mergeMeta_creationTimestamp, hts]
    rfl
  · exact hlr.1
  · rw [mergeMeta_annotations]
    show mergeMaps (mergeMeta dm cu).annotations dm.annotations = (mergeMeta dm cu).annotations
    rw [mergeMeta_annotations, mergeMaps_absorb]
  · rw [mergeMeta_finalizers]
    rfl
  · exact hlr.2
  · rw [mergeMeta_deletionTimestamp]
    rfl

/-- Merging against the desired metadata itself (what a plain create stored)
is the identity when the desired object does not carry the multiple-owners
marker. -/
theorem mergeMeta_self_noMO (dm : Meta)
    (hdm : lookupS dm.labels MultipleOwnersLabel = none) :
    mergeMeta dm dm = dm := by
  have hcond : lookupS (mergeMaps dm.labels dm.labels) MultipleOwnersLabel = none := by
    rw [mergeMaps_self, hdm]
  apply Meta.ext'
  · rw [mergeMeta_name]
  · rw [mergeMeta_ns]
  · rw [mergeMeta_generation]
  · rw [mergeMeta_resourceVersion]
    split_ifs with h
    · rw [h]
    · rfl
  · rw [mergeMeta_uid]
    split_ifs with h
    · rw [h]
    · rfl
  · rw [mergeMeta_creationTimestamp]
    split_ifs with h
    · rw [h]
    · rfl
  · rw [mergeMeta_labels, hcond]
    simp only [Option.isSome_none, Bool.false_eq_true, if_false]
    exact mergeMaps_self dm.labels
  · rw [mergeMeta_annotations, mergeMaps_self]
  · rw [mergeMeta_finalizers]
  · rw [mergeMeta_ownerReferences, hcond]
    simp
  · rw [mergeMeta_deletionTimestamp]

/-- Merging against the marker-stripped desired metadata (what a
multiple-owners create stored) is the identity when the desired object does
carry the marker. -/
theorem mergeMeta_self_MO (dm : Meta) (v : String)
    (hdm : lookupS dm.labels MultipleOwnersLabel = some v) :
    mergeMeta dm { dm with labels := removeKey dm.labels MultipleOwnersLabel }
      = { dm with labels := removeKey dm.labels MultipleOwnersLabel } := by
  have hcond : lookupS
      (mergeMaps (removeKey dm.labels MultipleOwnersLabel) dm.labels) MultipleOwnersLabel
      = some v := lookupS_mergeMaps_of_some _ _ _ v hdm
  apply Meta.ext'
  · rw [mergeMeta_name]
  · rw [mergeMeta_ns]
  · rw [mergeMeta_generation]
  · rw [mergeMeta_resourceVersion]
    split_ifs with h
    · rw [h]
    · rfl
  · rw [mergeMeta_uid]
    split_ifs with h
    · rw [h]
    · rfl
  · rw [mergeMeta_creationTimestamp]
    split_ifs with h
    · rw [h]
    · rfl
  · rw [mergeMeta_labels]
    show _ = removeKey dm.labels MultipleOwnersLabel
    rw [hcond]
    simp only [Option.isSome_some, if_true]
    exact congrArg (fun m => removeKey m MultipleOwnersLabel)
      (mergeMaps_removeKey_self dm.labels MultipleOwnersLabel)
  · rw [mergeMeta_annotations]
    show mergeMaps dm.annotations dm.annotations = dm.annotations
    exact mergeMaps_self dm.annotations
  · rw [mergeMeta_finalizers]
  · rw [mergeMeta_ownerReferences]
    show _ = dm.ownerReferences
    rw [hcond]
    simp only [Option.isSome_some, if_true]
    exact mergeOwnerReferences_self dm.ownerReferences
  · rw [mergeMeta_deletionTimestamp]

/-- Overriding the current metadata's annotations and finalizers before a
merge only affects the merged annotations (the merged finalizers are always
the desired ones). -/
theorem mergeMeta_override_ann_fin (dm cu : Meta) (a : Smap) (f : List String) :
    mergeMeta dm { cu with annotations := a, finalizers := f }
      = { mergeMeta dm cu with annotations := mergeMaps a dm.annotations } := by
  apply Meta.ext'
  · rw [mergeMeta_name]
    show dm.name = (mergeMeta dm cu).name
    rw [mergeMeta_name]
  · rw [mergeMeta_ns]
    show dm.ns = (mergeMeta dm cu).ns
    rw [mergeMeta_ns]
  · rw [mergeMeta_generation]
    show cu.generation = _
    show cu.generation = (mergeMeta dm cu).generation
    rw [mergeMeta_generation]
  · rw [mergeMeta_resourceVersion]
    show (if dm.resourceVersion = "" then cu.resourceVersion else dm.resourceVersion)
      = (mergeMeta dm cu).resourceVersion
    rw [mergeMeta_resourceVersion]
  · rw [mergeMeta_uid]
    show (if dm.uid = "" then cu.uid else dm.uid) = (mergeMeta dm cu).uid
    rw [mergeMeta_uid]
  · rw [mergeMeta_creationTimestamp]
    show (if dm.creationTimestamp = 0 then cu.creationTimestamp else dm.creationTimestamp)
      = (mergeMeta dm cu).creationTimestamp
    rw [mergeMeta_creationTimestamp]
  · rw [mergeMeta_labels]
    show _ = (mergeMeta dm cu).labels
    rw [mergeMeta_labels]
  · rw [mergeMeta_annotations]
  · rw [mergeMeta_finalizers]
    show dm.finalizers = (mergeMeta dm cu).finalizers
    rw [mergeMeta_finalizers]
  · rw [mergeMeta_ownerReferences]
    show _ = (mergeMeta dm cu).ownerReferences
    rw [mergeMeta_ownerReferences]
  · rw [mergeMeta_deletionTimestamp]
    show dm.deletionTimestamp = (mergeMeta dm cu).deletionTimestamp
    rw [mergeMeta_deletionTimestamp]

/-! ## Pipeline kind preservation -/

theorem addOwnerLinkage_payload (h : Handler) (mo : Bool) (o : Obj) :
    (addOwnerLinkage h mo o).payload = o.payload := by
  unfold addOwnerLinkage
  split
  · rfl
  · split
    · rfl
    · split_ifs <;> rfl

theorem kind_modifyPodSpec (o : Obj) (f : PodSpecM → PodSpecM) :
    (modifyPodSpec o f).payload.kind = o.payload.kind := by
  rcases o with ⟨m, pl⟩
  cases pl <;> rfl

theorem kind_ensureOS (o : Obj) (os : OSType) :
    (ensureOSSchedulingRestrictions o os).payload.kind = o.payload.kind := by
  unfold ensureOSSchedulingRestrictions
  split
  · rfl
  · rcases o with ⟨m, pl⟩
    cases pl <;> rfl

theorem kind_setProbeTimeouts (o : Obj) :
    (setProbeTimeouts o).payload.kind = o.payload.kind := by
  rcases o with ⟨m, pl⟩
  cases pl <;> rfl

theorem kind_setStandardSelectorAndLabels (o : Obj) :
    (setStandardSelectorAndLabels o).payload.kind = o.payload.kind := by
  rcases o with ⟨m, pl⟩
  cases pl <;> rfl

theorem kind_ensureTLSCiphers (h : Handler) (o : Obj) :
    (ensureTLSCiphers h o).payload.kind = o.payload.kind := by
  rcases o with ⟨m, pl⟩
  cases pl <;> rfl

/-- The mutation pipeline never changes the kind of an object. -/
theorem mutate_payload_kind (h : Handler) (os : OSType) (o : Obj) :
    (mutate h os o).payload.kind = o.payload.kind := by
  unfold mutate
  rw [kind_ensureTLSCiphers, kind_setStandardSelectorAndLabels, kind_setProbeTimeouts,
    kind_modifyPodSpec, kind_modifyPodSpec, kind_modifyPodSpec, kind_ensureOS,
    addOwnerLinkage_payload]

theorem Payload.job_of_kind (p : Payload) (h : p.kind = Kind.job) :
    ∃ t, p = .job t := by
  cases p <;> simp_all [Payload.kind]

/-- A desired Job stays a Job through the mutation pipeline. -/
theorem mutate_job_payload (h : Handler) (os : OSType) (o : Obj) (t : Template)
    (hp : o.payload = .job t) : ∃ t2, (mutate h os o).payload = .job t2 := by
  apply Payload.job_of_kind
  rw [mutate_payload_kind, hp]
  rfl

/-! ## Idempotence infrastructure: small state lemmas -/

theorem assocDelete_of_get_none {β : Type} (l : List (Identity × β)) (i : Identity)
    (h : assocGet l i = none) : assocDelete l i = l := by
  unfold assocDelete
  apply List.filter_eq_self.mpr
  intro p hp
  rcases hf : l.find? (fun p => p.1 = i) with _ | q
  · have := List.find?_eq_none.mp hf p hp
    simpa using this
  · unfold assocGet at h
    rw [hf] at h
    cases h

theorem World_eta_nsFaults (w : World) (h : w.nsFaults = []) :
    { w with nsFaults := ([] : List Bool) } = w := by
  rcases w with ⟨cl, ca, lg, cf, nf⟩
  cases h
  rfl

theorem handlerUpdate_noop (w : World) (m : Obj) (g : Nat)
    (hc : cacheGet w.cache m.identity = some (m, g)) (hg : ¬ g < m.meta.generation) :
    handlerUpdate w m = (.ok (), w) := by
  simp [handlerUpdate, needsUpdate, hc, hg]

theorem handlerDelete_noop (w : World) (o : Obj)
    (hcl : clusterGet w.cluster o.identity = none)
    (hca : cacheGet w.cache o.identity = none) :
    handlerDelete w o = (.ok (), w) := by
  have hdel : cacheDelete w.cache o.identity = w.cache := assocDelete_of_get_none _ _ hca
  simp [handlerDelete, hcl, hdel]

theorem zip_self_images (l : List Container) :
    (List.zip l l).any (fun p => ¬ p.1.image = p.2.image) = false := by
  induction l with
  | nil => rfl
  | cons c cs ih => simpa using ih

theorem find?_skey_filter_ne (l : Smap) (k k' : String) (h : ¬ k' = k) :
    (l.filter (fun p => ¬ p.1 = k)).find? (fun p => p.1 = k')
      = l.find? (fun p => p.1 = k') := by
  rw [List.find?_filter]
  congr 1
  funext p
  by_cases hpj : p.1 = k'
  · have hpi : ¬ p.1 = k := by rw [hpj]; exact h
    simp [hpj, hpi]
    exact h
  · simp [hpj]

theorem lookupS_mapSet_ne (m : Smap) (k v k' : String) (h : ¬ k' = k) :
    lookupS (mapSet m k v) k' = lookupS m k' := by
  unfold lookupS mapSet
  have hk : ¬ k = k' := fun hh => h hh.symm
  rw [List.find?_cons_of_neg _ (by simpa using hk), find?_skey_filter_ne _ _ _ h]

/-! ## Idempotence infrastructure: metadata preservation along the pipeline -/

theorem meta_modifyPodSpec (o : Obj) (f : PodSpecM → PodSpecM) :
    (modifyPodSpec o f).meta = o.meta := by
  rcases o with ⟨m, pl⟩
  cases pl <;> rfl

theorem meta_ensureOS (o : Obj) (os : OSType) :
    (ensureOSSchedulingRestrictions o os).meta = o.meta := by
  unfold ensureOSSchedulingRestrictions
  split
  · rfl
  · rcases o with ⟨m, pl⟩
    cases pl <;> rfl

theorem meta_setProbeTimeouts (o : Obj) : (setProbeTimeouts o).meta = o.meta := by
  rcases o with ⟨m, pl⟩
  cases pl <;> rfl

theorem meta_ensureTLSCiphers (h : Handler) (o : Obj) :
    (ensureTLSCiphers h o).meta = o.meta := by
  rcases o with ⟨m, pl⟩
  cases pl <;> rfl

/-- Owner linkage only touches the owner references of the metadata. -/
theorem addOwnerLinkage_meta (h : Handler) (mo : Bool) (o : Obj) :
    (addOwnerLinkage h mo o).meta.name = o.meta.name ∧
    (addOwnerLinkage h mo o).meta.ns = o.meta.ns ∧
    (addOwnerLinkage h mo o).meta.resourceVersion = o.meta.resourceVersion ∧
    (addOwnerLinkage h mo o).meta.uid = o.meta.uid ∧
    (addOwnerLinkage h mo o).meta.creationTimestamp = o.meta.creationTimestamp ∧
    (addOwnerLinkage h mo o).meta.deletionTimestamp = o.meta.deletionTimestamp ∧
    (addOwnerLinkage h mo o).meta.labels = o.meta.labels := by
  unfold addOwnerLinkage
  split
  · exact ⟨rfl, rfl, rfl, rfl, rfl, rfl, rfl⟩
  · split
    · exact ⟨rfl, rfl, rfl, rfl, rfl, rfl, rfl⟩
    · split_ifs <;>
        simp [setOwnerReference, setControllerReference] <;>
        split_ifs <;> simp

/-- The standard-labels step preserves all metadata fields other than the
labels, and never touches the multiple-owners marker. -/
theorem setStandard_meta (o : Obj) :
    (setStandardSelectorAndLabels o).meta.name = o.meta.name ∧
    (setStandardSelectorAndLabels o).meta.ns = o.meta.ns ∧
    (setStandardSelectorAndLabels o).meta.resourceVersion = o.meta.resourceVersion ∧
    (setStandardSelectorAndLabels o).meta.uid = o.meta.uid ∧
    (setStandardSelectorAndLabels o).meta.creationTimestamp = o.meta.creationTimestamp ∧
    (setStandardSelectorAndLabels o).meta.deletionTimestamp = o.meta.deletionTimestamp ∧
    lookupS (setStandardSelectorAndLabels o).meta.labels MultipleOwnersLabel
      = lookupS o.meta.labels MultipleOwnersLabel := by
  rcases o with ⟨m, pl⟩
  cases pl <;>
    refine ⟨rfl, rfl, rfl, rfl, rfl, rfl, ?_⟩ <;>
    try rfl
  show lookupS (mapSet (mapSet m.labels "k8s-app" m.name) "app.kubernetes.io/name" m.name)
      MultipleOwnersLabel = lookupS m.labels MultipleOwnersLabel
  rw [lookupS_mapSet_ne _ _ _ _ (by decide), lookupS_mapSet_ne _ _ _ _ (by decide)]

/-- The mutation pipeline preserves the object's name, namespace, identity
fields, deletion timestamp, and the presence of the multiple-owners marker. -/
theorem mutate_meta_fields (h : Handler) (os : OSType) (o : Obj) :
    (mutate h os o).meta.name = o.meta.name ∧
    (mutate h os o).meta.ns = o.meta.ns ∧
    (mutate h os o).meta.resourceVersion = o.meta.resourceVersion ∧
    (mutate h os o).meta.uid = o.meta.uid ∧
    (mutate h os o).meta.creationTimestamp = o.meta.creationTimestamp ∧
    (mutate h os o).meta.deletionTimestamp = o.meta.deletionTimestamp ∧
    lookupS (mutate h os o).meta.labels MultipleOwnersLabel
      = lookupS o.meta.labels MultipleOwnersLabel := by
  have hm : mutate h os o
      = ensureTLSCiphers h (setStandardSelectorAndLabels (setProbeTimeouts
          (modifyPodSpec (modifyPodSpec (modifyPodSpec
            (ensureOSSchedulingRestrictions
              (addOwnerLinkage h (checkIfMultipleOwnersLabel o.meta) o) os)
            setImagePullPolicy) orderVolumes) orderVolumeMounts))) := rfl
  rw [hm, meta_ensureTLSCiphers]
  obtain ⟨s1, s2, s3, s4, s5, s6, s7⟩ := setStandard_meta (setProbeTimeouts
    (modifyPodSpec (modifyPodSpec (modifyPodSpec
      (ensureOSSchedulingRestrictions
        (addOwnerLinkage h (checkIfMultipleOwnersLabel o.meta) o) os)
      setImagePullPolicy) orderVolumes) orderVolumeMounts))
  rw [s1, s2, s3, s4, s5, s6, s7]
  rw [meta_setProbeTimeouts, meta_modifyPodSpec, meta_modifyPodSpec, meta_modifyPodSpec,
    meta_ensureOS]
  obtain ⟨a1, a2, a3, a4, a5, a6, a7⟩ :=
    addOwnerLinkage_meta h (checkIfMultipleOwnersLabel o.meta) o
  exact ⟨a1, a2, a3, a4, a5, a6, by rw [a7]⟩

/-- The mutation pipeline preserves the identity (kind, namespace, name). -/
theorem mutate_identity (h : Handler) (os : OSType) (o : Obj) :
    (mutate h os o).identity = o.identity := by
  obtain ⟨h1, h2, _⟩ := mutate_meta_fields h os o
  unfold Obj.identity
  rw [h1, h2, mutate_payload_kind]

/-- `createOrUpdateObject` is the core body applied to the mutated object. -/
theorem createOrUpdateObject_eq_core (h : Handler) (os : OSType) (w : World) (d : Obj) :
    createOrUpdateObject h os w d
      = createOrUpdateCore h w (checkIfMultipleOwnersLabel d.meta) (mutate h os d) := rfl

/-! ## Idempotence infrastructure: merge stability -/

theorem mem_zip_self {α : Type} {l : List α} {a b : α} (h : (a, b) ∈ List.zip l l) :
    a = b := by
  induction l with
  | nil => cases h
  | cons x xs ih =>
    rw [List.zip_cons_cons, List.mem_cons] at h
    rcases h with h | h
    · rw [Prod.mk.injEq] at h
      rw [h.1, h.2]
    · exact ih h

/-- Merging a desired object against a current object with the same payload
and a merge-stable metadata yields the current object again (or no change),
and never triggers a recreate branch. -/
theorem mergeState_self_generic (dm cmeta : Meta) (dpl : Payload)
    (hmeta : mergeMeta dm cmeta = cmeta) :
    mergeState ⟨dm, dpl⟩ ⟨cmeta, dpl⟩ = none ∨
    (mergeState ⟨dm, dpl⟩ ⟨cmeta, dpl⟩ = some ⟨cmeta, dpl⟩ ∧ noRecreate dpl dpl) := by
  cases dpl with
  | namespaceK => exact Or.inr ⟨by simp [mergeState, hmeta], True.intro⟩
  | deployment r s t =>
    refine Or.inr ⟨?_, True.intro⟩
    cases r <;> simp [mergeState, hmeta, mergeMaps_self]
  | daemonSet s t =>
    refine Or.inr ⟨?_, True.intro⟩
    simp [mergeState, hmeta, mergeMaps_self]
  | statefulSet t => exact Or.inr ⟨by simp [mergeState, hmeta], True.intro⟩
  | cronJob t => exact Or.inr ⟨by simp [mergeState, hmeta], True.intro⟩
  | job t =>
    left
    simp [mergeState]
    intro a b hab
    rw [mem_zip_self hab]
  | secret ty d =>
    refine Or.inr ⟨by simp [mergeState, hmeta], ?_⟩
    show ¬ secretTypeChanged ty ty = true
    simp [secretTypeChanged]
  | service ip rest =>
    refine Or.inr ⟨?_, ?_⟩
    · by_cases hip : ip = "None" <;> simp [mergeState, hmeta, hip]
    · show ¬ (ip = "None" ∧ ¬ ip = "None")
      rintro ⟨h1, h2⟩
      exact h2 h1
  | roleBinding ref rest => exact Or.inr ⟨by simp [mergeState, hmeta], rfl⟩
  | clusterRoleBinding ref rest => exact Or.inr ⟨by simp [mergeState, hmeta], rfl⟩
  | serviceAccount sec pull =>
    refine Or.inr ⟨?_, True.intro⟩
    simp [mergeState, hmeta]
  | elasticsearch sp st => exact Or.inr ⟨by simp [mergeState], True.intro⟩
  | kibana sp st => exact Or.inr ⟨by simp [mergeState], True.intro⟩
  | uiSettings sp => exact Or.inr ⟨by simp [mergeState], True.intro⟩
  | networkPolicy sp =>
    left
    simp [mergeState]
  | tier sp =>
    left
    simp [mergeState]
  | prometheus sp => exact Or.inr ⟨by simp [mergeState, hmeta], True.intro⟩
  | alertmanager sp => exact Or.inr ⟨by simp [mergeState, hmeta], True.intro⟩
  | podTemplate t => exact Or.inr ⟨by simp [mergeState, hmeta], True.intro⟩
  | other s => exact Or.inr ⟨by simp [mergeState, hmeta], True.intro⟩

theorem identity_merged (dm cm : Meta) (pl : Payload) :
    (⟨mergeMeta dm cm, pl⟩ : Obj).identity = (⟨dm, pl⟩ : Obj).identity := by
  unfold Obj.identity
  rw [mergeMeta_name, mergeMeta_ns]

theorem sa_keep_idem (c d : List String) :
    (if (if c ≠ [] ∧ d = [] then c else d) ≠ [] ∧ d = []
      then (if c ≠ [] ∧ d = [] then c else d) else d)
      = (if c ≠ [] ∧ d = [] then c else d) := by
  by_cases hc : c ≠ [] ∧ d = []
  · simp only [if_pos hc]
  · simp only [if_neg hc]
    rw [ite_self]

/-- The result of a merge is stable: merging the desired object a second time
against the previous merge result either signals no change or reproduces the
result exactly, without triggering a recreate branch; moreover the merge
result carries the desired identity (or is the current object verbatim). -/
theorem mergeState_result_stable (dm cm : Meta) (dpl cpl : Payload) (m' : Obj)
    (hMO : (lookupS cm.labels MultipleOwnersLabel).isSome = true →
           (lookupS dm.labels MultipleOwnersLabel).isSome = true)
    (hm : mergeState ⟨dm, dpl⟩ ⟨cm, cpl⟩ = some m') :
    (m' = ⟨cm, cpl⟩ ∨ m'.identity = Obj.identity ⟨dm, dpl⟩) ∧
    (mergeState ⟨dm, dpl⟩ m' = none ∨
      (mergeState ⟨dm, dpl⟩ m' = some m' ∧ noRecreate dpl m'.payload)) := by
  have hidem : mergeMeta dm (mergeMeta dm cm) = mergeMeta dm cm := mergeMeta_idem dm cm hMO
  cases dpl with
  | namespaceK =>
    have hm2 : (⟨mergeMeta dm cm, Payload.namespaceK⟩ : Obj) = m' := Option.some.inj hm
    subst hm2
    exact ⟨Or.inr (identity_merged dm cm _),
      mergeState_self_generic dm (mergeMeta dm cm) _ hidem⟩
  | statefulSet t =>
    have hm2 : (⟨mergeMeta dm cm, Payload.statefulSet t⟩ : Obj) = m' := Option.some.inj hm
    subst hm2
    exact ⟨Or.inr (identity_merged dm cm _),
      mergeState_self_generic dm (mergeMeta dm cm) _ hidem⟩
  | cronJob t =>
    have hm2 : (⟨mergeMeta dm cm, Payload.cronJob t⟩ : Obj) = m' := Option.some.inj hm
    subst hm2
    exact ⟨Or.inr (identity_merged dm cm _),
      mergeState_self_generic dm (mergeMeta dm cm) _ hidem⟩
  | secret ty d =>
    have hm2 : (⟨mergeMeta dm cm, Payload.secret ty d⟩ : Obj) = m' := Option.some.inj hm
    subst hm2
    exact ⟨Or.inr (identity_merged dm cm _),
      mergeState_self_generic dm (mergeMeta dm cm) _ hidem⟩
  | roleBinding ref rest =>
    have hm2 : (⟨mergeMeta dm cm, Payload.roleBinding ref rest⟩ : Obj) = m' :=
      Option.some.inj hm
    subst hm2
    exact ⟨Or.inr (identity_merged dm cm _),
      mergeState_self_generic dm (mergeMeta dm cm) _ hidem⟩
  | clusterRoleBinding ref rest =>
    have hm2 : (⟨mergeMeta dm cm, Payload.clusterRoleBinding ref rest⟩ : Obj) = m' :=
      Option.some.inj hm
    subst hm2
    exact ⟨Or.inr (identity_merged dm cm _),
      mergeState_self_generic dm (mergeMeta dm cm) _ hidem⟩
  | prometheus sp =>
    have hm2 : (⟨mergeMeta dm cm, Payload.prometheus sp⟩ : Obj) = m' := Option.some.inj hm
    subst hm2
    exact ⟨Or.inr (identity_merged dm cm _),
      mergeState_self_generic dm (mergeMeta dm cm) _ hidem⟩
  | alertmanager sp =>
    have hm2 : (⟨mergeMeta dm cm, Payload.alertmanager sp⟩ : Obj) = m' := Option.some.inj hm
    subst hm2
    exact ⟨Or.inr (identity_merged dm cm _),
      mergeState_self_generic dm (mergeMeta dm cm) _ hidem⟩
  | podTemplate t =>
    have hm2 : (⟨mergeMeta dm cm, Payload.podTemplate t⟩ : Obj) = m' := Option.some.inj hm
    subst hm2
    exact ⟨Or.inr (identity_merged dm cm _),
      mergeState_self_generic dm (mergeMeta dm cm) _ hidem⟩
  | other s =>
    have hm2 : (⟨mergeMeta dm cm, Payload.other s⟩ : Obj) = m' := Option.some.inj hm
    subst hm2
    exact ⟨Or.inr (identity_merged dm cm _),
      mergeState_self_generic dm (mergeMeta dm cm) _ hidem⟩
  | service ip rest =>
    simp only [mergeState] at hm
    split at hm
    · rename_i ccIP crest
      split at hm
      · rename_i hip
        have hm2 : (⟨mergeMeta dm cm, Payload.service ccIP rest⟩ : Obj) = m' :=
          Option.some.inj hm
        subst hm2
        refine ⟨Or.inr (by simp [Obj.identity, Payload.kind, mergeMeta_name, mergeMeta_ns]),
          Or.inr ⟨?_, ?_⟩⟩
        · simp [mergeState, hidem, hip]
        · intro hc
          exact hip hc.1
      · rename_i hip
        have hm2 : (⟨mergeMeta dm cm, Payload.service ip rest⟩ : Obj) = m' :=
          Option.some.inj hm
        subst hm2
        exact ⟨Or.inr (identity_merged dm cm _),
          mergeState_self_generic dm (mergeMeta dm cm) _ hidem⟩
    · have hm2 : (⟨mergeMeta dm cm, Payload.service ip rest⟩ : Obj) = m' :=
        Option.some.inj hm
      subst hm2
      exact ⟨Or.inr (identity_merged dm cm _),
        mergeState_self_generic dm (mergeMeta dm cm) _ hidem⟩
  | job t =>
    simp only [mergeState] at hm
    split at hm
    · rename_i ct
      split at hm
      · have hm2 : (⟨mergeMeta dm cm, Payload.job t⟩ : Obj) = m' := Option.some.inj hm
        subst hm2
        exact ⟨Or.inr (identity_merged dm cm _),
          mergeState_self_generic dm (mergeMeta dm cm) _ hidem⟩
      · split at hm
        · have hm2 : (⟨mergeMeta dm cm, Payload.job t⟩ : Obj) = m' := Option.some.inj hm
          subst hm2
          exact ⟨Or.inr (identity_merged dm cm _),
            mergeState_self_generic dm (mergeMeta dm cm) _ hidem⟩
        · split at hm
          · simp at hm
          · have hm2 : (⟨mergeMeta dm cm, Payload.job t⟩ : Obj) = m' := Option.some.inj hm
            subst hm2
            exact ⟨Or.inr (identity_merged dm cm _),
              mergeState_self_generic dm (mergeMeta dm cm) _ hidem⟩
    · have hm2 : (⟨mergeMeta dm cm, Payload.job t⟩ : Obj) = m' := Option.some.inj hm
      subst hm2
      exact ⟨Or.inr (identity_merged dm cm _),
        mergeState_self_generic dm (mergeMeta dm cm) _ hidem⟩
  | deployment dr ds dt =>
    simp only [mergeState] at hm
    split at hm
    · rename_i cr cs ct
      have hm2 := Option.some.inj hm
      subst hm2
      refine ⟨Or.inr ?_, Or.inr ⟨?_, True.intro⟩⟩
      · cases dr <;> simp [Obj.identity, Payload.kind, mergeMeta_name, mergeMeta_ns]
      · cases dr <;> simp [mergeState, hidem, mergeMaps_absorb]
    · have hm2 : (⟨mergeMeta dm cm, Payload.deployment dr ds dt⟩ : Obj) = m' :=
        Option.some.inj hm
      subst hm2
      exact ⟨Or.inr (identity_merged dm cm _),
        mergeState_self_generic dm (mergeMeta dm cm) _ hidem⟩
  | daemonSet ds dt =>
    simp only [mergeState] at hm
    split at hm
    · rename_i cs ct
      have hm2 := Option.some.inj hm
      subst hm2
      refine ⟨Or.inr ?_, Or.inr ⟨?_, True.intro⟩⟩
      · simp [Obj.identity, Payload.kind, mergeMeta_name, mergeMeta_ns]
      · simp [mergeState, hidem, mergeMaps_absorb]
    · have hm2 : (⟨mergeMeta dm cm, Payload.daemonSet ds dt⟩ : Obj) = m' :=
        Option.some.inj hm
      subst hm2
      exact ⟨Or.inr (identity_merged dm cm _),
        mergeState_self_generic dm (mergeMeta dm cm) _ hidem⟩
  | serviceAccount dsec dpull =>
    simp only [mergeState] at hm
    split at hm
    · rename_i csec cpull
      have hm2 := Option.some.inj hm
      subst hm2
      refine ⟨Or.inr ?_, Or.inr ⟨?_, True.intro⟩⟩
      · simp [Obj.identity, Payload.kind, mergeMeta_name, mergeMeta_ns]
      · simp only [mergeState, sa_keep_idem, hidem]
    · have hm2 : (⟨mergeMeta dm cm, Payload.serviceAccount dsec dpull⟩ : Obj) = m' :=
        Option.some.inj hm
      subst hm2
      exact ⟨Or.inr (identity_merged dm cm _),
        mergeState_self_generic dm (mergeMeta dm cm) _ hidem⟩
  | elasticsearch dsp dst =>
    simp only [mergeState] at hm
    split at hm
    · rename_i csp cst
      split at hm
      · rename_i heq
        have hm2 : (⟨cm, Payload.elasticsearch csp cst⟩ : Obj) = m' := Option.some.inj hm
        subst hm2
        refine ⟨Or.inl rfl, Or.inr ⟨?_, True.intro⟩⟩
        simp [mergeState, heq]
      · rename_i hne
        have hm2 := Option.some.inj hm
        subst hm2
        refine ⟨Or.inr (by simp [Obj.identity, Payload.kind, mergeMeta_name, mergeMeta_ns]),
          Or.inr ⟨?_, True.intro⟩⟩
        simp [mergeState]
    · have hm2 : (⟨mergeMeta dm cm, Payload.elasticsearch dsp dst⟩ : Obj) = m' :=
        Option.some.inj hm
      subst hm2
      exact ⟨Or.inr (identity_merged dm cm _),
        mergeState_self_generic dm (mergeMeta dm cm) _ hidem⟩
  | kibana dsp dst =>
    simp only [mergeState] at hm
    split at hm
    · rename_i csp cst
      split at hm
      · rename_i heq
        have hm2 : (⟨cm, Payload.kibana csp cst⟩ : Obj) = m' := Option.some.inj hm
        subst hm2
        refine ⟨Or.inl rfl, Or.inr ⟨?_, True.intro⟩⟩
        simp [mergeState, heq]
      · rename_i hne
        have hm2 := Option.some.inj hm
        subst hm2
        refine ⟨Or.inr (by simp [Obj.identity, Payload.kind, mergeMeta_name, mergeMeta_ns]),
          Or.inr ⟨?_, True.intro⟩⟩
        by_cases href : dsp = { dsp with elasticsearchRef := csp.elasticsearchRef }
        · simp [mergeState, if_pos href]
        · simp [mergeState, if_neg href, mergeMeta_override_ann_fin, hidem]
    · have hm2 : (⟨mergeMeta dm cm, Payload.kibana dsp dst⟩ : Obj) = m' :=
        Option.some.inj hm
      subst hm2
      exact ⟨Or.inr (identity_merged dm cm _),
        mergeState_self_generic dm (mergeMeta dm cm) _ hidem⟩
  | uiSettings dsp =>
    simp only [mergeState] at hm
    split at hm
    · rename_i csp
      split at hm
      · rename_i heq
        have hm2 : (⟨cm, Payload.uiSettings csp⟩ : Obj) = m' := Option.some.inj hm
        subst hm2
        refine ⟨Or.inl rfl, Or.inr ⟨?_, True.intro⟩⟩
        simp [mergeState, heq]
      · rename_i hne
        have hm2 := Option.some.inj hm
        subst hm2
        refine ⟨Or.inr (by simp [Obj.identity, Payload.kind, mergeMeta_name, mergeMeta_ns]),
          Or.inr ⟨?_, True.intro⟩⟩
        simp [mergeState]
    · have hm2 : (⟨mergeMeta dm cm, Payload.uiSettings dsp⟩ : Obj) = m' :=
        Option.some.inj hm
      subst hm2
      exact ⟨Or.inr (identity_merged dm cm _),
        mergeState_self_generic dm (mergeMeta dm cm) _ hidem⟩
  | networkPolicy dsp =>
    simp only [mergeState] at hm
    split at hm
    · rename_i csp
      split at hm
      · simp at hm
      · have hm2 : (⟨mergeMeta dm cm, Payload.networkPolicy dsp⟩ : Obj) = m' :=
          Option.some.inj hm
        subst hm2
        exact ⟨Or.inr (identity_merged dm cm _),
          mergeState_self_generic dm (mergeMeta dm cm) _ hidem⟩
    · have hm2 : (⟨mergeMeta dm cm, Payload.networkPolicy dsp⟩ : Obj) = m' :=
        Option.some.inj hm
      subst hm2
      exact ⟨Or.inr (identity_merged dm cm _),
        mergeState_self_generic dm (mergeMeta dm cm) _ hidem⟩
  | tier dsp =>
    simp only [mergeState] at hm
    split at hm
    · rename_i csp
      split at hm
      · simp at hm
      · have hm2 : (⟨mergeMeta dm cm, Payload.tier dsp⟩ : Obj) = m' :=
          Option.some.inj hm
        subst hm2
        exact ⟨Or.inr (identity_merged dm cm _),
          mergeState_self_generic dm (mergeMeta dm cm) _ hidem⟩
    · have hm2 : (⟨mergeMeta dm cm, Payload.tier dsp⟩ : Obj) = m' :=
        Option.some.inj hm
      subst hm2
      exact ⟨Or.inr (identity_merged dm cm _),
        mergeState_self_generic dm (mergeMeta dm cm) _ hidem⟩

/-- After a Job recreate, merging the desired Job against the recreated
object signals no change. -/
theorem mergeState_job_reset (dm cm : Meta) (dt : Template) (cpl : Payload) (m' : Obj)
    (hm : mergeState ⟨dm, Payload.job dt⟩ ⟨cm, cpl⟩ = some m') :
    mergeState ⟨dm, Payload.job dt⟩ (resetMetadataForCreate m') = none := by
  have hm2 : (⟨mergeMeta dm cm, Payload.job dt⟩ : Obj) = m' := by
    simp only [mergeState] at hm
    split at hm
    · split at hm
      · exact Option.some.inj hm
      · split at hm
        · exact Option.some.inj hm
        · split at hm
          · simp at hm
          · exact Option.some.inj hm
    · exact Option.some.inj hm
  subst hm2
  simp [mergeState, resetMetadataForCreate]
  intro a b hab
  rw [mem_zip_self hab]

/-- After a Secret recreate, merging the desired Secret against the recreated
object reproduces it exactly. -/
theorem mergeState_secret_reset (dm cm : Meta) (ty : String) (d : Smap) (cpl : Payload)
    (m' : Obj)
    (hrv : dm.resourceVersion = "") (huid : dm.uid = "") (hts : dm.creationTimestamp = 0)
    (hMO : (lookupS cm.labels MultipleOwnersLabel).isSome = true →
           (lookupS dm.labels MultipleOwnersLabel).isSome = true)
    (hm : mergeState ⟨dm, Payload.secret ty d⟩ ⟨cm, cpl⟩ = some m') :
    mergeState ⟨dm, Payload.secret ty d⟩ (resetMetadataForCreate m')
      = some (resetMetadataForCreate m') := by
  have hm2 : (⟨mergeMeta dm cm, Payload.secret ty d⟩ : Obj) = m' := Option.some.inj hm
  subst hm2
  have hreset := mergeMeta_reset_idem dm cm hrv huid hts hMO
  simp [mergeState, resetMetadataForCreate, hreset]

/-- After a RoleBinding recreate, merging the desired role binding against the
recreated object reproduces it exactly. -/
theorem mergeState_roleBinding_reset (dm cm : Meta) (ref rest : String) (cpl : Payload)
    (m' : Obj)
    (hrv : dm.resourceVersion = "") (huid : dm.uid = "") (hts : dm.creationTimestamp = 0)
    (hMO : (lookupS cm.labels MultipleOwnersLabel).isSome = true →
           (lookupS dm.labels MultipleOwnersLabel).isSome = true)
    (hm : mergeState ⟨dm, Payload.roleBinding ref rest⟩ ⟨cm, cpl⟩ = some m') :
    mergeState ⟨dm, Payload.roleBinding ref rest⟩ (resetMetadataForCreate m')
      = some (resetMetadataForCreate m') := by
  have hm2 : (⟨mergeMeta dm cm, Payload.roleBinding ref rest⟩ : Obj) = m' :=
    Option.some.inj hm
  subst hm2
  have hreset := mergeMeta_reset_idem dm cm hrv huid hts hMO
  simp [mergeState, resetMetadataForCreate, hreset]

/-- After a ClusterRoleBinding recreate, merging the desired cluster role
binding against the recreated object reproduces it exactly. -/
theorem mergeState_clusterRoleBinding_reset (dm cm : Meta) (ref rest : String)
    (cpl : Payload) (m' : Obj)
    (hrv : dm.resourceVersion = "") (huid : dm.uid = "") (hts : dm.creationTimestamp = 0)
    (hMO : (lookupS cm.labels MultipleOwnersLabel).isSome = true →
           (lookupS dm.labels MultipleOwnersLabel).isSome = true)
    (hm : mergeState ⟨dm, Payload.clusterRoleBinding ref rest⟩ ⟨cm, cpl⟩ = some m') :
    mergeState ⟨dm, Payload.clusterRoleBinding ref rest⟩ (resetMetadataForCreate m')
      = some (resetMetadataForCreate m') := by
  have hm2 : (⟨mergeMeta dm cm, Payload.clusterRoleBinding ref rest⟩ : Obj) = m' :=
    Option.some.inj hm
  subst hm2
  have hreset := mergeMeta_reset_idem dm cm hrv huid hts hMO
  simp [mergeState, resetMetadataForCreate, hreset]

/-- After a headless-Service recreate, merging the desired service against the
recreated object reproduces it exactly. -/
theorem mergeState_service_reset (dm cm : Meta) (rest : String) (cpl : Payload) (m' : Obj)
    (hrv : dm.resourceVersion = "") (huid : dm.uid = "") (hts : dm.creationTimestamp = 0)
    (hMO : (lookupS cm.labels MultipleOwnersLabel).isSome = true →
           (lookupS dm.labels MultipleOwnersLabel).isSome = true)
    (hm : mergeState ⟨dm, Payload.service "None" rest⟩ ⟨cm, cpl⟩ = some m') :
    mergeState ⟨dm, Payload.service "None" rest⟩ (resetMetadataForCreate m')
      = some (resetMetadataForCreate m') := by
  have hm2 : (⟨mergeMeta dm cm, Payload.service "None" rest⟩ : Obj) = m' := by
    simp only [mergeState] at hm
    split at hm
    · split at hm
      · rename_i hip
        exact absurd rfl hip
      · exact Option.some.inj hm
    · exact Option.some.inj hm
  subst hm2
  have hreset := mergeMeta_reset_idem dm cm hrv huid hts hMO
  simp [mergeState, resetMetadataForCreate, hreset]

/-- A merge result either carries the desired deletion timestamp or is the
current object verbatim. -/
theorem mergeState_dts (dm cm : Meta) (dpl cpl : Payload) (m : Obj)
    (hm : mergeState ⟨dm, dpl⟩ ⟨cm, cpl⟩ = some m) :
    m.meta.deletionTimestamp = dm.deletionTimestamp ∨ m = ⟨cm, cpl⟩ := by
  cases dpl <;>
    · simp only [mergeState] at hm
      repeat' split at hm
      all_goals first
        | (left
           rw [← hm]
           exact mergeMeta_deletionTimestamp dm cm)
        | (right
           exact hm.symm)
        | (left
           rw [← Option.some.inj hm]
           exact mergeMeta_deletionTimestamp dm cm)
        | (right
           exact (Option.some.inj hm).symm)
        | simp at hm

theorem WellKeyed_get (c : Cluster) (i : Identity) (o : Obj) (hwk : WellKeyed c)
    (h : clusterGet c i = some o) : o.identity = i := by
  unfold clusterGet assocGet at h
  rcases hf : c.find? (fun p => p.1 = i) with _ | p
  · rw [hf] at h
    cases h
  · rw [hf] at h
    have hmem := List.mem_of_find?_eq_some hf
    have hkey : p.1 = i := by simpa using List.find?_some hf
    have hid := hwk p hmem
    simp only [Option.map_some'] at h
    rw [← Option.some.inj h, hid]
    exact hkey

theorem WellKeyed_set (c : Cluster) (i : Identity) (o : Obj) (hwk : WellKeyed c)
    (ho : o.identity = i) : WellKeyed (clusterSet c i o) := by
  intro p hp
  rcases List.mem_cons.mp hp with hp | hp
  · rw [hp]
    exact ho
  · exact hwk p (List.mem_of_mem_filter hp)

theorem WellKeyed_delete (c : Cluster) (i : Identity) (hwk : WellKeyed c) :
    WellKeyed (clusterDelete c i) := by
  intro p hp
  exact hwk p (List.mem_of_mem_filter hp)

/-- `c.create` always succeeds: the object is stored under its identity, the
cache is refreshed, and one create call is logged. -/
theorem handlerCreate_run (w : World) (o : Obj) :
    handlerCreate w o = (.ok (), { w with
      cluster := clusterSet w.cluster o.identity o,
      cache := cacheSet w.cache o.identity (o, o.meta.generation),
      log := w.log ++ [.create o.identity o] }) := by
  simp [handlerCreate, clientCreate]

/-- `c.update` with a due write, no scheduled conflict and a present live
object: the payload is stored (with the server-owned deletion timestamp kept),
the cache is refreshed, and one update call is logged. -/
theorem handlerUpdate_run (w : World) (o old : Obj)
    (hconf : w.conflicts = [])
    (hold : clusterGet w.cluster o.identity = some old)
    (hnu : needsUpdate w.cache o = true) :
    handlerUpdate w o = (.ok (), { w with
      cluster := clusterSet w.cluster o.identity
        { o with meta := { o.meta with deletionTimestamp := old.meta.deletionTimestamp } },
      cache := cacheSet w.cache o.identity (o, o.meta.generation),
      log := w.log ++ [.update o.identity o],
      conflicts := [] }) := by
  simp [handlerUpdate, hnu, clientUpdate, hconf, popSchedule, hold]

/-- `c.delete` of a present object: the object is removed, the cache entry
invalidated, and one delete call logged. -/
theorem handlerDelete_run (w : World) (o cur : Obj)
    (hcl : clusterGet w.cluster o.identity = some cur) :
    handlerDelete w o = (.ok (), { w with
      cluster := clusterDelete w.cluster o.identity,
      cache := cacheDelete w.cache o.identity,
      log := w.log ++ [.delete o.identity] }) := by
  simp [handlerDelete, hcl, clientDelete]

theorem reset_identity (o : Obj) : (resetMetadataForCreate o).identity = o.identity := rfl

/-- Creating a merge-stable object settles it: the world after `c.create`
answers the second reconcile with no change. -/
theorem create_establishes (w2 : World) (om omC : Meta) (opl : Payload)
    (hmetaC : mergeMeta om omC = omC)
    (hkeyC : Obj.identity (⟨omC, opl⟩ : Obj) = Obj.identity ⟨om, opl⟩) :
    handlerCreate w2 ⟨omC, opl⟩ = (.ok (), { w2 with
        cluster := clusterSet w2.cluster (Obj.identity (⟨omC, opl⟩ : Obj)) ⟨omC, opl⟩,
        cache := cacheSet w2.cache (Obj.identity (⟨omC, opl⟩ : Obj)) (⟨omC, opl⟩, omC.generation),
        log := w2.log ++ [.create (Obj.identity (⟨omC, opl⟩ : Obj)) ⟨omC, opl⟩] }) ∧
    Settled { w2 with
        cluster := clusterSet w2.cluster (Obj.identity (⟨omC, opl⟩ : Obj)) ⟨omC, opl⟩,
        cache := cacheSet w2.cache (Obj.identity (⟨omC, opl⟩ : Obj)) (⟨omC, opl⟩, omC.generation),
        log := w2.log ++ [.create (Obj.identity (⟨omC, opl⟩ : Obj)) ⟨omC, opl⟩] }
      ⟨om, opl⟩ := by
  constructor
  · exact handlerCreate_run w2 ⟨omC, opl⟩
  · unfold Settled
    have hg : clusterGet (clusterSet w2.cluster (Obj.identity (⟨omC, opl⟩ : Obj)) ⟨omC, opl⟩)
        (Obj.identity (⟨om, opl⟩ : Obj)) = some ⟨omC, opl⟩ := by
      rw [← hkeyC]
      exact assocGet_set_self _ _ _
    simp only [hg]
    by_cases hig : IgnoreObject ⟨omC, opl⟩ = true
    · exact Or.inl hig
    · rcases mergeState_self_generic om omC opl hmetaC with hnone | ⟨hsome, hnr⟩
      · exact Or.inr (Or.inl hnone)
      · refine Or.inr (Or.inr ⟨⟨omC, opl⟩, omC.generation, hsome, hkeyC, hnr, ?_, lt_irrefl _⟩)
        rw [← hkeyC]
        exact assocGet_set_self _ _ _

/-- An update write from the found path settles the object: either the write
is deduplicated away, or the merge result is stored together with a matching
cache entry. -/
theorem update_establishes (w : World) (om : Meta) (opl : Payload) (cm : Meta)
    (cpl : Payload) (mobj : Obj)
    (hconf : w.conflicts = [])
    (hget : clusterGet w.cluster (Obj.identity ⟨om, opl⟩) = some ⟨cm, cpl⟩)
    (hwk : WellKeyed w.cluster)
    (hmg : mergeState ⟨om, opl⟩ ⟨cm, cpl⟩ = some mobj)
    (hmid : mobj.identity = Obj.identity ⟨om, opl⟩)
    (hmdts : mobj.meta.deletionTimestamp = cm.deletionTimestamp)
    (hnrcur : noRecreate opl cpl)
    (hB : mergeState ⟨om, opl⟩ mobj = none ∨
      (mergeState ⟨om, opl⟩ mobj = some mobj ∧ noRecreate opl mobj.payload)) :
    ∃ w', handlerUpdate w mobj = (.ok (), w') ∧
      w'.conflicts = [] ∧ w'.nsFaults = w.nsFaults ∧ WellKeyed w'.cluster ∧
      (∀ i, ¬ i = Obj.identity (⟨om, opl⟩ : Obj) →
        clusterGet w'.cluster i = clusterGet w.cluster i) ∧
      (∀ i, ¬ i = Obj.identity (⟨om, opl⟩ : Obj) →
        cacheGet w'.cache i = cacheGet w.cache i) ∧
      Settled w' ⟨om, opl⟩ := by
  cases hnu : needsUpdate w.cache mobj with
  | false =>
    have hskip : handlerUpdate w mobj = (.ok (), w) := by
      simp [handlerUpdate, hnu]
    unfold needsUpdate at hnu
    rcases hc0 : cacheGet w.cache mobj.identity with _ | c0
    · simp only [hc0] at hnu
      cases hnu
    · simp only [hc0] at hnu
      split_ifs at hnu with h1 h2
      refine ⟨w, hskip, hconf, rfl, hwk, fun i _ => rfl, fun i _ => rfl, ?_⟩
      unfold Settled
      simp only [hget]
      refine Or.inr (Or.inr ⟨mobj, c0.2, hmg, hmid, hnrcur, ?_, h1⟩)
      rw [← hmid, hc0, ← h2]
  | true =>
    have hstored :
        ({ mobj with meta := { mobj.meta with deletionTimestamp := cm.deletionTimestamp } }
          : Obj) = mobj := by
      rw [← hmdts]
    have hrun := handlerUpdate_run w mobj ⟨cm, cpl⟩ hconf (by rw [hmid]; exact hget) hnu
    rw [hstored] at hrun
    refine ⟨_, hrun, rfl, rfl, WellKeyed_set _ _ _ hwk rfl, ?_, ?_, ?_⟩
    · intro i hi
      exact assocGet_set_ne _ _ _ _ (by rw [hmid]; exact hi)
    · intro i hi
      exact assocGet_set_ne _ _ _ _ (by rw [hmid]; exact hi)
    · unfold Settled
      have hg2 : clusterGet (clusterSet w.cluster mobj.identity mobj)
          (Obj.identity (⟨om, opl⟩ : Obj)) = some mobj := by
        rw [← hmid]
        exact assocGet_set_self _ _ _
      simp only [hg2]
      by_cases hig2 : IgnoreObject mobj = true
      · exact Or.inl hig2
      · rcases hB with hB | ⟨hB1, hB2⟩
        · exact Or.inr (Or.inl hB)
        · refine Or.inr (Or.inr ⟨mobj, mobj.meta.generation, hB1, hmid, hB2, ?_, lt_irrefl _⟩)
          rw [← hmid]
          exact assocGet_set_self _ _ _

/-- A delete-and-recreate from the found path settles the object, provided the
merge of the desired object against the recreated one is stable. -/
theorem recreate_establishes (w : World) (om : Meta) (opl : Payload) (cm : Meta)
    (cpl : Payload) (mobj : Obj)
    (hget : clusterGet w.cluster (Obj.identity ⟨om, opl⟩) = some ⟨cm, cpl⟩)
    (hwk : WellKeyed w.cluster)
    (hmid : mobj.identity = Obj.identity ⟨om, opl⟩)
    (hres : mergeState ⟨om, opl⟩ (resetMetadataForCreate mobj) = none ∨
      (mergeState ⟨om, opl⟩ (resetMetadataForCreate mobj)
          = some (resetMetadataForCreate mobj) ∧
        noRecreate opl (resetMetadataForCreate mobj).payload)) :
    ∃ w', deleteAndRecreate w ⟨om, opl⟩ mobj = (.ok (), w') ∧
      w'.conflicts = w.conflicts ∧ w'.nsFaults = w.nsFaults ∧ WellKeyed w'.cluster ∧
      (∀ i, ¬ i = Obj.identity (⟨om, opl⟩ : Obj) →
        clusterGet w'.cluster i = clusterGet w.cluster i) ∧
      (∀ i, ¬ i = Obj.identity (⟨om, opl⟩ : Obj) →
        cacheGet w'.cache i = cacheGet w.cache i) ∧
      Settled w' ⟨om, opl⟩ := by
  have hrid : (resetMetadataForCreate mobj).identity = Obj.identity (⟨om, opl⟩ : Obj) := by
    rw [reset_identity]
    exact hmid
  have hdel := handlerDelete_run w ⟨om, opl⟩ ⟨cm, cpl⟩ hget
  have hcr := handlerCreate_run
    { w with
      cluster := (clusterDelete w.cluster (Obj.identity (⟨om, opl⟩ : Obj))),
      cache := (cacheDelete w.cache (Obj.identity (⟨om, opl⟩ : Obj))),
      log := (w.log ++ [WriteOp.delete (Obj.identity (⟨om, opl⟩ : Obj))]) }
    (resetMetadataForCreate mobj)
  have hrun : deleteAndRecreate w ⟨om, opl⟩ mobj
      = handlerCreate
          { w with
            cluster := (clusterDelete w.cluster (Obj.identity (⟨om, opl⟩ : Obj))),
            cache := (cacheDelete w.cache (Obj.identity (⟨om, opl⟩ : Obj))),
            log := (w.log ++ [WriteOp.delete (Obj.identity (⟨om, opl⟩ : Obj))]) }
          (resetMetadataForCreate mobj) := by
    simp only [deleteAndRecreate, hdel]
  refine ⟨_, hrun.trans hcr, rfl, rfl, ?_, ?_, ?_, ?_⟩
  · exact WellKeyed_set _ _ _ (WellKeyed_delete _ _ hwk) rfl
  · intro i hi
    have hstep1 : clusterGet (clusterSet
        (clusterDelete w.cluster (Obj.identity (⟨om, opl⟩ : Obj)))
        (resetMetadataForCreate mobj).identity (resetMetadataForCreate mobj)) i
        = clusterGet (clusterDelete w.cluster (Obj.identity (⟨om, opl⟩ : Obj))) i :=
      assocGet_set_ne _ _ _ _ (by rw [hrid]; exact hi)
    exact hstep1.trans (assocGet_delete_ne _ _ _ hi)
  · intro i hi
    have hstep1 : cacheGet (cacheSet
        (cacheDelete w.cache (Obj.identity (⟨om, opl⟩ : Obj)))
        (resetMetadataForCreate mobj).identity
        (resetMetadataForCreate mobj, (resetMetadataForCreate mobj).meta.generation)) i
        = cacheGet (cacheDelete w.cache (Obj.identity (⟨om, opl⟩ : Obj))) i :=
      assocGet_set_ne _ _ _ _ (by rw [hrid]; exact hi)
    exact hstep1.trans (assocGet_delete_ne _ _ _ hi)
  · unfold Settled
    have hg2 : clusterGet (clusterSet
        (clusterDelete w.cluster (Obj.identity (⟨om, opl⟩ : Obj)))
        (resetMetadataForCreate mobj).identity (resetMetadataForCreate mobj))
        (Obj.identity (⟨om, opl⟩ : Obj)) = some (resetMetadataForCreate mobj) := by
      rw [← hrid]
      exact assocGet_set_self _ _ _
    simp only [hg2]
    by_cases hig2 : IgnoreObject (resetMetadataForCreate mobj) = true
    · exact Or.inl hig2
    · rcases hres with hres | ⟨hr1, hr2⟩
      · exact Or.inr (Or.inl hres)
      · refine Or.inr (Or.inr ⟨_, _, hr1, hrid, hr2, ?_, lt_irrefl _⟩)
        rw [← hrid]
        exact assocGet_set_self _ _ _

/-- A settled object is a no-op for `createOrUpdateCore`: the call succeeds
and leaves the world (cluster, cache, write log, schedules) untouched. -/
theorem Settled_run (h : Handler) (w : World) (mo : Bool) (obj : Obj)
    (hco : h.createOnly = false)
    (hnsf : w.nsFaults = [])
    (hs : Settled w obj) :
    createOrUpdateCore h w mo obj = (.ok (), w) := by
  obtain ⟨om, opl⟩ := obj
  unfold Settled at hs
  rcases hget : clusterGet w.cluster (Obj.identity ⟨om, opl⟩) with _ | m
  · simp only [hget] at hs
    obtain ⟨hcache, hns, nsO, hnsO, hterm⟩ := hs
    have hw1 : cacheDelete w.cache (Obj.identity ⟨om, opl⟩) = w.cache :=
      assocDelete_of_get_none _ _ hcache
    have heta : ({ w with nsFaults := [] } : World) = w := World_eta_nsFaults w hnsf
    simp [createOrUpdateCore, hget, hw1, hns, getIfExistsNamespace, popSchedule, hnsf,
      hnsO, hterm, heta]
  · simp only [hget] at hs
    rcases hs with hign | hnone | ⟨m', g, hmerge, hid, hnr, hcache, hgen⟩
    · simp [createOrUpdateCore, hget, hco, hign]
    · by_cases hig : IgnoreObject m
      · simp [createOrUpdateCore, hget, hco, hig]
      · simp [createOrUpdateCore, hget, hco, hig, hnone]
    · by_cases hig : IgnoreObject m
      · simp [createOrUpdateCore, hget, hco, hig]
      · have hupd : handlerUpdate w m' = (.ok (), w) :=
          handlerUpdate_noop w m' g (by rw [hid]; exact hcache) hgen
        obtain ⟨mm, mpl⟩ := m
        simp only [createOrUpdateCore, hget, hco, hig, hmerge, Bool.false_eq_true,
          if_false]
        cases opl <;> try exact hupd
        · exact hnr.elim
        · cases mpl <;> try exact hupd
          simp only [if_neg hnr]
          exact hupd
        · cases mpl <;> try exact hupd
          simp only [if_neg hnr]
          exact hupd
        · rename_i dref drest
          cases mpl <;> try exact hupd
          rename_i cref crest
          have hcc : dref = cref := hnr
          simp only [if_neg (not_not_intro hcc)]
          exact hupd
        · rename_i dref drest
          cases mpl <;> try exact hupd
          rename_i cref crest
          have hcc : dref = cref := hnr
          simp only [if_neg (not_not_intro hcc)]
          exact hupd

/-- One run of `createOrUpdateCore` on a well-behaved desired object: the call
succeeds, touches the cluster and the cache only at the object's identity,
keeps the schedules empty and the cluster well keyed, and leaves the object
settled. -/
theorem step_settles (h : Handler) (w : World) (mo : Bool) (om : Meta) (opl : Payload)
    (hco : h.createOnly = false)
    (hconf : w.conflicts = []) (hnsf : w.nsFaults = [])
    (hwk : WellKeyed w.cluster)
    (hmo : mo = checkIfMultipleOwnersLabel om)
    (hrv : om.resourceVersion = "") (huid : om.uid = "") (hts : om.creationTimestamp = 0)
    (hcur : ∀ cur, clusterGet w.cluster (Obj.identity ⟨om, opl⟩) = some cur →
      cur.meta.deletionTimestamp = om.deletionTimestamp ∧
      ((lookupS cur.meta.labels MultipleOwnersLabel).isSome = true →
       (lookupS om.labels MultipleOwnersLabel).isSome = true)) :
    ∃ w', createOrUpdateCore h w mo ⟨om, opl⟩ = (.ok (), w') ∧
      w'.conflicts = [] ∧ w'.nsFaults = [] ∧ WellKeyed w'.cluster ∧
      (∀ i, ¬ i = Obj.identity (⟨om, opl⟩ : Obj) →
        clusterGet w'.cluster i = clusterGet w.cluster i) ∧
      (∀ i, ¬ i = Obj.identity (⟨om, opl⟩ : Obj) →
        cacheGet w'.cache i = cacheGet w.cache i) ∧
      Settled w' ⟨om, opl⟩ := by
  rcases hget : clusterGet w.cluster (Obj.identity ⟨om, opl⟩) with _ | cur
  · -- the object is absent: the create path
    have main : ∀ omC : Meta, mergeMeta om omC = omC →
        Obj.identity (⟨omC, opl⟩ : Obj) = Obj.identity (⟨om, opl⟩ : Obj) →
        ∃ w', handlerCreate
            { w with cache := cacheDelete w.cache (Obj.identity (⟨om, opl⟩ : Obj)) }
            ⟨omC, opl⟩ = (.ok (), w') ∧
          w'.conflicts = [] ∧ w'.nsFaults = [] ∧ WellKeyed w'.cluster ∧
          (∀ i, ¬ i = Obj.identity (⟨om, opl⟩ : Obj) →
            clusterGet w'.cluster i = clusterGet w.cluster i) ∧
          (∀ i, ¬ i = Obj.identity (⟨om, opl⟩ : Obj) →
            cacheGet w'.cache i = cacheGet w.cache i) ∧
          Settled w' ⟨om, opl⟩ := by
      intro omC hmetaC hkeyC
      obtain ⟨hrun, hsettle⟩ := create_establishes
        { w with cache := cacheDelete w.cache (Obj.identity (⟨om, opl⟩ : Obj)) }
        om omC opl hmetaC hkeyC
      refine ⟨_, hrun, hconf, hnsf, WellKeyed_set _ _ _ hwk rfl, ?_, ?_, hsettle⟩
      · intro i hi
        exact assocGet_set_ne _ _ _ _ (by rw [hkeyC]; exact hi)
      · intro i hi
        have hstep1 : cacheGet (cacheSet
            (cacheDelete w.cache (Obj.identity (⟨om, opl⟩ : Obj)))
            (Obj.identity (⟨omC, opl⟩ : Obj)) (⟨omC, opl⟩, omC.generation)) i
            = cacheGet (cacheDelete w.cache (Obj.identity (⟨om, opl⟩ : Obj))) i :=
          assocGet_set_ne _ _ _ _ (by rw [hkeyC]; exact hi)
        exact hstep1.trans (assocGet_delete_ne _ _ _ hi)
    have hcreate : ∀ (hcore0 : createOrUpdateCore h w mo ⟨om, opl⟩
          = handlerCreate
            { w with cache := cacheDelete w.cache (Obj.identity (⟨om, opl⟩ : Obj)) }
            (if mo = true then
              ({ (⟨om, opl⟩ : Obj) with meta :=
                { om with labels := removeKey om.labels MultipleOwnersLabel } } : Obj)
            else ⟨om, opl⟩)),
        ∃ w', createOrUpdateCore h w mo ⟨om, opl⟩ = (.ok (), w') ∧
          w'.conflicts = [] ∧ w'.nsFaults = [] ∧ WellKeyed w'.cluster ∧
          (∀ i, ¬ i = Obj.identity (⟨om, opl⟩ : Obj) →
            clusterGet w'.cluster i = clusterGet w.cluster i) ∧
          (∀ i, ¬ i = Obj.identity (⟨om, opl⟩ : Obj) →
            cacheGet w'.cache i = cacheGet w.cache i) ∧
          Settled w' ⟨om, opl⟩ := by
      intro hcore0
      rcases hlook : lookupS om.labels MultipleOwnersLabel with _ | v
      · have hmo2 : mo = false := by
          rw [hmo]
          simp [checkIfMultipleOwnersLabel, hlook]
        subst hmo2
        obtain ⟨w', hrun, hc1, hc2, hc3, hc4, hc5, hset⟩ :=
          main om (mergeMeta_self_noMO om hlook) rfl
        exact ⟨w', hcore0.trans hrun, hc1, hc2, hc3, hc4, hc5, hset⟩
      · have hmo2 : mo = true := by
          rw [hmo]
          simp [checkIfMultipleOwnersLabel, hlook]
        subst hmo2
        obtain ⟨w', hrun, hc1, hc2, hc3, hc4, hc5, hset⟩ :=
          main { om with labels := removeKey om.labels MultipleOwnersLabel }
            (mergeMeta_self_MO om v hlook) rfl
        exact ⟨w', hcore0.trans hrun, hc1, hc2, hc3, hc4, hc5, hset⟩
    by_cases hns : om.ns = ""
    · exact hcreate (by simp [createOrUpdateCore, hget, hns])
    · have heta1 : ({ w with
            cache := cacheDelete w.cache (Obj.identity (⟨om, opl⟩ : Obj)),
            nsFaults := [] } : World)
          = { w with cache := cacheDelete w.cache (Obj.identity (⟨om, opl⟩ : Obj)) } := by
        rw [← hnsf]
      rcases hnsO : clusterGet w.cluster ⟨Kind.namespaceK, "", om.ns⟩ with _ | nsO
      · exact hcreate (by
          simp [createOrUpdateCore, hget, hns, getIfExistsNamespace, popSchedule, hnsf,
            heta1, hnsO])
      · by_cases hterm : nsO.meta.deletionTimestamp.isSome = true
        · -- terminating namespace: silently skipped, already settled
          refine ⟨{ w with cache := cacheDelete w.cache (Obj.identity (⟨om, opl⟩ : Obj)) },
            ?_, hconf, hnsf, hwk, fun i _ => rfl, ?_, ?_⟩
          · simp [createOrUpdateCore, hget, hns, getIfExistsNamespace, popSchedule, hnsf,
              heta1, hnsO, hterm]
          · intro i hi
            exact assocGet_delete_ne _ _ _ hi
          · unfold Settled
            simp only [hget]
            exact ⟨assocGet_delete_self _ _, hns, nsO, hnsO, hterm⟩
        · exact hcreate (by
            simp [createOrUpdateCore, hget, hns, getIfExistsNamespace, popSchedule, hnsf,
              heta1, hnsO, hterm])
  · -- the object is present: the found path
    have hkcur := WellKeyed_get _ _ _ hwk hget
    obtain ⟨hdts, hmol⟩ := hcur cur hget
    obtain ⟨cm, cpl⟩ := cur
    by_cases hig : IgnoreObject ⟨cm, cpl⟩ = true
    · refine ⟨w, ?_, hconf, hnsf, hwk, fun i _ => rfl, fun i _ => rfl, ?_⟩
      · simp [createOrUpdateCore, hget, hco, hig]
      · unfold Settled
        simp only [hget]
        exact Or.inl hig
    · rcases hmg : mergeState ⟨om, opl⟩ ⟨cm, cpl⟩ with _ | mobj
      · refine ⟨w, ?_, hconf, hnsf, hwk, fun i _ => rfl, fun i _ => rfl, ?_⟩
        · simp [createOrUpdateCore, hget, hco, hig, hmg]
        · unfold Settled
          simp only [hget]
          exact Or.inr (Or.inl hmg)
      · obtain ⟨hA, hB⟩ := mergeState_result_stable om cm opl cpl mobj hmol hmg
        have hmid : mobj.identity = Obj.identity (⟨om, opl⟩ : Obj) := by
          rcases hA with hA | hA
          · rw [hA]
            exact hkcur
          · exact hA
        have hmdts : mobj.meta.deletionTimestamp = cm.deletionTimestamp := by
          rcases mergeState_dts om cm opl cpl mobj hmg with hd | hd
          · rw [hd]
            exact hdts.symm
          · rw [hd]
        cases opl <;> try (
          obtain ⟨w', hrun, hc1, hc2, hc3, hc4, hc5, hset⟩ :=
            update_establishes w om _ cm cpl mobj hconf hget hwk hmg hmid hmdts
              True.intro hB
          refine ⟨w', ?_, hc1, hc2.trans hnsf, hc3, hc4, hc5, hset⟩
          refine Eq.trans ?_ hrun
          simp [createOrUpdateCore, hget, hco, hig, hmg]
          all_goals rfl)
        -- Job: unconditional delete-and-recreate
        · rename_i dt
          have hres := mergeState_job_reset om cm dt cpl mobj hmg
          obtain ⟨w', hrun, hc1, hc2, hc3, hc4, hc5, hset⟩ :=
            recreate_establishes w om _ cm cpl mobj hget hwk hmid (Or.inl hres)
          refine ⟨w', ?_, hc1.trans hconf, hc2.trans hnsf, hc3, hc4, hc5, hset⟩
          refine Eq.trans ?_ hrun
          simp [createOrUpdateCore, hget, hco, hig, hmg]
        -- Secret
        · rename_i ty d
          cases cpl <;> try (
            obtain ⟨w', hrun, hc1, hc2, hc3, hc4, hc5, hset⟩ :=
              update_establishes w om _ cm _ mobj hconf hget hwk hmg hmid hmdts
                True.intro hB
            refine ⟨w', ?_, hc1, hc2.trans hnsf, hc3, hc4, hc5, hset⟩
            refine Eq.trans ?_ hrun
            simp [createOrUpdateCore, hget, hco, hig, hmg]
            all_goals rfl)
          rename_i cty cd
          have hm2 : (⟨mergeMeta om cm, Payload.secret ty d⟩ : Obj) = mobj :=
            Option.some.inj hmg
          subst hm2
          by_cases hch : secretTypeChanged ty cty = true
          · have hres := mergeState_secret_reset om cm ty d _ _ hrv huid hts hmol hmg
            obtain ⟨w', hrun, hc1, hc2, hc3, hc4, hc5, hset⟩ :=
              recreate_establishes w om _ cm _ _ hget hwk hmid
                (Or.inr ⟨hres, by
                  show ¬ secretTypeChanged ty ty = true
                  simp [secretTypeChanged]⟩)
            refine ⟨w', ?_, hc1.trans hconf, hc2.trans hnsf, hc3, hc4, hc5, hset⟩
            refine Eq.trans ?_ hrun
            simp [createOrUpdateCore, hget, hco, hig, hmg, hch]
          · obtain ⟨w', hrun, hc1, hc2, hc3, hc4, hc5, hset⟩ :=
              update_establishes w om _ cm _ _ hconf hget hwk hmg hmid hmdts hch hB
            refine ⟨w', ?_, hc1, hc2.trans hnsf, hc3, hc4, hc5, hset⟩
            refine Eq.trans ?_ hrun
            simp [createOrUpdateCore, hget, hco, hig, hmg, hch]
        -- Service
        · rename_i dip drest
          cases cpl <;> try (
            obtain ⟨w', hrun, hc1, hc2, hc3, hc4, hc5, hset⟩ :=
              update_establishes w om _ cm _ mobj hconf hget hwk hmg hmid hmdts
                True.intro hB
            refine ⟨w', ?_, hc1, hc2.trans hnsf, hc3, hc4, hc5, hset⟩
            refine Eq.trans ?_ hrun
            simp [createOrUpdateCore, hget, hco, hig, hmg]
            all_goals rfl)
          rename_i cip crest
          by_cases hsc : dip = "None" ∧ ¬ cip = "None"
          · obtain ⟨hd1, hd2⟩ := hsc
            subst hd1
            have hm2 : (⟨mergeMeta om cm, Payload.service "None" drest⟩ : Obj) = mobj := by
              simp only [mergeState] at hmg
              split at hmg
              · rename_i hcontra
                exact absurd rfl hcontra
              · exact Option.some.inj hmg
            subst hm2
            have hres := mergeState_service_reset om cm drest _ _ hrv huid hts hmol hmg
            obtain ⟨w', hrun, hc1, hc2, hc3, hc4, hc5, hset⟩ :=
              recreate_establishes w om _ cm _ _ hget hwk hmid
                (Or.inr ⟨hres, by
                  show ¬ ((("None" : String)) = "None" ∧ ¬ (("None" : String)) = "None")
                  rintro ⟨_, hx⟩
                  exact hx rfl⟩)
            refine ⟨w', ?_, hc1.trans hconf, hc2.trans hnsf, hc3, hc4, hc5, hset⟩
            refine Eq.trans ?_ hrun
            simp [createOrUpdateCore, hget, hco, hig, hmg, hd2]
          · obtain ⟨w', hrun, hc1, hc2, hc3, hc4, hc5, hset⟩ :=
              update_establishes w om _ cm _ mobj hconf hget hwk hmg hmid hmdts hsc hB
            refine ⟨w', ?_, hc1, hc2.trans hnsf, hc3, hc4, hc5, hset⟩
            refine Eq.trans ?_ hrun
            simp [createOrUpdateCore, hget, hco, hig, hmg, if_neg hsc]
        -- RoleBinding
        · rename_i dref drest
          cases cpl <;> try (
            obtain ⟨w', hrun, hc1, hc2, hc3, hc4, hc5, hset⟩ :=
              update_establishes w om _ cm _ mobj hconf hget hwk hmg hmid hmdts
                True.intro hB
            refine ⟨w', ?_, hc1, hc2.trans hnsf, hc3, hc4, hc5, hset⟩
            refine Eq.trans ?_ hrun
            simp [createOrUpdateCore, hget, hco, hig, hmg]
            all_goals rfl)
          rename_i cref crest
          by_cases hrr : dref = cref
          · obtain ⟨w', hrun, hc1, hc2, hc3, hc4, hc5, hset⟩ :=
              update_establishes w om _ cm _ mobj hconf hget hwk hmg hmid hmdts hrr hB
            refine ⟨w', ?_, hc1, hc2.trans hnsf, hc3, hc4, hc5, hset⟩
            refine Eq.trans ?_ hrun
            simp [createOrUpdateCore, hget, hco, hig, hmg, if_neg (not_not_intro hrr)]
          · have hm2 : (⟨mergeMeta om cm, Payload.roleBinding dref drest⟩ : Obj) = mobj :=
              Option.some.inj hmg
            subst hm2
            have hres :=
              mergeState_roleBinding_reset om cm dref drest _ _ hrv huid hts hmol hmg
            obtain ⟨w', hrun, hc1, hc2, hc3, hc4, hc5, hset⟩ :=
              recreate_establishes w om _ cm _ _ hget hwk hmid
                (Or.inr ⟨hres, rfl⟩)
            refine ⟨w', ?_, hc1.trans hconf, hc2.trans hnsf, hc3, hc4, hc5, hset⟩
            refine Eq.trans ?_ hrun
            simp [createOrUpdateCore, hget, hco, hig, hmg, if_pos hrr]
        -- ClusterRoleBinding
        · rename_i dref drest
          cases cpl <;> try (
            obtain ⟨w', hrun, hc1, hc2, hc3, hc4, hc5, hset⟩ :=
              update_establishes w om _ cm _ mobj hconf hget hwk hmg hmid hmdts
                True.intro hB
            refine ⟨w', ?_, hc1, hc2.trans hnsf, hc3, hc4, hc5, hset⟩
            refine Eq.trans ?_ hrun
            simp [createOrUpdateCore, hget, hco, hig, hmg]
            all_goals rfl)
          rename_i cref crest
          by_cases hrr : dref = cref
          · obtain ⟨w', hrun, hc1, hc2, hc3, hc4, hc5, hset⟩ :=
              update_establishes w om _ cm _ mobj hconf hget hwk hmg hmid hmdts hrr hB
            refine ⟨w', ?_, hc1, hc2.trans hnsf, hc3, hc4, hc5, hset⟩
            refine Eq.trans ?_ hrun
            simp [createOrUpdateCore, hget, hco, hig, hmg, if_neg (not_not_intro hrr)]
          · have hm2 :
                (⟨mergeMeta om cm, Payload.clusterRoleBinding dref drest⟩ : Obj) = mobj :=
              Option.some.inj hmg
            subst hm2
            have hres :=
              mergeState_clusterRoleBinding_reset om cm dref drest _ _ hrv huid hts hmol hmg
            obtain ⟨w', hrun, hc1, hc2, hc3, hc4, hc5, hset⟩ :=
              recreate_establishes w om _ cm _ _ hget hwk hmid
                (Or.inr ⟨hres, rfl⟩)
            refine ⟨w', ?_, hc1.trans hconf, hc2.trans hnsf, hc3, hc4, hc5, hset⟩
            refine Eq.trans ?_ hrun
            simp [createOrUpdateCore, hget, hco, hig, hmg, if_pos hrr]

/-- Settledness only depends on the world through the cluster and cache
entries at the object's identity and the cluster entry of its target
namespace. -/
theorem Settled_frame (w w2 : World) (obj : Obj)
    (hcl : clusterGet w2.cluster obj.identity = clusterGet w.cluster obj.identity)
    (hca : cacheGet w2.cache obj.identity = cacheGet w.cache obj.identity)
    (hns : clusterGet w2.cluster ⟨Kind.namespaceK, "", obj.meta.ns⟩
      = clusterGet w.cluster ⟨Kind.namespaceK, "", obj.meta.ns⟩)
    (hs : Settled w obj) : Settled w2 obj := by
  unfold Settled at hs ⊢
  rcases hget : clusterGet w.cluster obj.identity with _ | m
  · simp only [hget] at hs
    simp only [hcl, hget]
    obtain ⟨h1, h2, nsO, h3, h4⟩ := hs
    exact ⟨hca.trans h1, h2, nsO, hns.trans h3, h4⟩
  · simp only [hget] at hs
    simp only [hcl, hget]
    rcases hs with hs | hs | ⟨m', g, h1, h2, h3, h4, h5⟩
    · exact Or.inl hs
    · exact Or.inr (Or.inl hs)
    · exact Or.inr (Or.inr ⟨m', g, h1, h2, h3, hca.trans h4, h5⟩)

theorem trackKind_w (st : LoopState) (k : Identity) (o : Obj) :
    (trackKind st k o).w = st.w := by
  unfold trackKind
  cases o.payload <;> rfl

theorem trackKind_ae (st : LoopState) (k : Identity) (o : Obj) :
    (trackKind st k o).alreadyExistsErr = st.alreadyExistsErr := by
  unfold trackKind
  cases o.payload <;> rfl

/-- Identities of objects of non-namespace kinds never collide with a
namespace identity. -/
theorem nsId_not_mem (ds : List Obj) (hk : ∀ d ∈ ds, ¬ d.payload.kind = Kind.namespaceK)
    (ns : String) : (⟨Kind.namespaceK, "", ns⟩ : Identity) ∉ ds.map Obj.identity := by
  intro hmem
  rcases List.mem_map.mp hmem with ⟨e, he, heq⟩
  have hke : e.payload.kind = Kind.namespaceK := by
    rw [show e.payload.kind = (Obj.identity e).kind from rfl, heq]
  exact hk e he hke

/-- The second pass over a list of settled desired objects is a pure no-op:
it succeeds and leaves the world untouched. -/
theorem processCreateList_noop (h : Handler) (os : OSType) (ds : List Obj) :
    ∀ st : LoopState, h.createOnly = false → st.w.nsFaults = [] →
    (∀ d ∈ ds, Settled st.w (mutate h os d)) →
    ∃ st', processCreateList h os st ds = (.ok (), st') ∧ st'.w = st.w ∧
      st'.alreadyExistsErr = st.alreadyExistsErr := by
  induction ds with
  | nil =>
    intro st _ _ _
    exact ⟨st, rfl, rfl, rfl⟩
  | cons d rest ih =>
    intro st hco hnsf hsettled
    have hrun : createOrUpdateObject h os st.w d = (.ok (), st.w) := by
      rw [createOrUpdateObject_eq_core]
      exact Settled_run h st.w _ _ hco hnsf (hsettled d (List.mem_cons_self d rest))
    have hrest : ∀ e ∈ rest, Settled (trackKind st d.identity d).w (mutate h os e) := by
      intro e he
      rw [trackKind_w]
      exact hsettled e (List.mem_cons_of_mem d he)
    obtain ⟨st', hst', hw', hae'⟩ := ih (trackKind st d.identity d) hco
      (by rw [trackKind_w]; exact hnsf) hrest
    refine ⟨st', ?_, hw'.trans (by rw [trackKind_w]),
      hae'.trans (trackKind_ae st d.identity d)⟩
    have hone : processOne h os st.w d = (.ok (st.w, none), st.w) := by
      simp [processOne, hrun]
    calc processCreateList h os st (d :: rest)
        = processCreateList h os (trackKind st d.identity d) rest := by
          simp only [processCreateList, hone]
      _ = (.ok (), st') := hst'

/-- The second pass over a list of delete-settled obsolete objects is a pure
no-op: it succeeds and leaves the world untouched. -/
theorem processDeleteList_noop (h : Handler) (dels : List Obj) :
    ∀ (w : World) (rep : StatusReport),
    (∀ o ∈ dels, DeleteSettled w o) →
    ∃ rep2, processDeleteList h w rep dels = (.ok (), w, rep2) := by
  induction dels with
  | nil =>
    intro w rep _
    exact ⟨rep, rfl⟩
  | cons o rest ih =>
    intro w rep hds
    have ho := hds o (List.mem_cons_self o rest)
    have hrun : handlerDelete w o = (.ok (), w) := handlerDelete_noop w o ho.1 ho.2
    obtain ⟨rep2, hrep2⟩ := ih w (processDeleteList.trackRemoval rep o)
      (fun e he => hds e (List.mem_cons_of_mem o he))
    refine ⟨rep2, ?_⟩
    calc processDeleteList h w rep (o :: rest)
        = processDeleteList h w (processDeleteList.trackRemoval rep o) rest := by
          simp only [processDeleteList, hrun]
      _ = (.ok (), w, rep2) := hrep2

/-- The first pass over the desired list: the create loop succeeds, touches
the cluster and the cache only at the listed identities, keeps the loop
invariants, and leaves every desired object settled. -/
theorem processCreateList_settles (h : Handler) (os : OSType) (ds : List Obj) :
    ∀ st : LoopState, h.createOnly = false →
    st.w.conflicts = [] → st.w.nsFaults = [] → WellKeyed st.w.cluster →
    (ds.map Obj.identity).Nodup →
    (∀ d ∈ ds, CreateHyp st.w d) →
    ∃ st', processCreateList h os st ds = (.ok (), st') ∧
      st'.w.conflicts = [] ∧ st'.w.nsFaults = [] ∧ WellKeyed st'.w.cluster ∧
      st'.alreadyExistsErr = st.alreadyExistsErr ∧
      (∀ i, i ∉ ds.map Obj.identity →
        clusterGet st'.w.cluster i = clusterGet st.w.cluster i) ∧
      (∀ i, i ∉ ds.map Obj.identity →
        cacheGet st'.w.cache i = cacheGet st.w.cache i) ∧
      (∀ d ∈ ds, Settled st'.w (mutate h os d)) := by
  induction ds with
  | nil =>
    intro st _ hcf hnf hwk _ _
    exact ⟨st, rfl, hcf, hnf, hwk, rfl, fun i _ => rfl, fun i _ => rfl,
      fun d hd => absurd hd (List.not_mem_nil d)⟩
  | cons d rest ih =>
    intro st hco hcf hnf hwk hnodup hhyp
    obtain ⟨hrv, huid, hts, hkind, hcur⟩ := hhyp d (List.mem_cons_self d rest)
    obtain ⟨f1, f2, f3, f4, f5, f6, f7⟩ := mutate_meta_fields h os d
    have hkey : Obj.identity (⟨(mutate h os d).meta, (mutate h os d).payload⟩ : Obj)
        = d.identity := mutate_identity h os d
    have hnodup2 := List.nodup_cons.mp hnodup
    have hcur2 : ∀ cur, clusterGet st.w.cluster
        (Obj.identity (⟨(mutate h os d).meta, (mutate h os d).payload⟩ : Obj)) = some cur →
        cur.meta.deletionTimestamp = (mutate h os d).meta.deletionTimestamp ∧
        ((lookupS cur.meta.labels MultipleOwnersLabel).isSome = true →
         (lookupS (mutate h os d).meta.labels MultipleOwnersLabel).isSome = true) := by
      intro cur hc
      rw [hkey] at hc
      obtain ⟨hd1, hd2⟩ := hcur cur hc
      exact ⟨by rw [f6]; exact hd1, by rw [f7]; exact hd2⟩
    obtain ⟨w', hrun, hw1, hw2, hw3, hw4, hw5, hsettle⟩ :=
      step_settles h st.w (checkIfMultipleOwnersLabel d.meta)
        (mutate h os d).meta (mutate h os d).payload hco hcf hnf hwk
        (by unfold checkIfMultipleOwnersLabel; rw [f7])
        (by rw [f3]; exact hrv) (by rw [f4]; exact huid) (by rw [f5]; exact hts)
        hcur2
    have hrun2 : createOrUpdateObject h os st.w d = (.ok (), w') := by
      rw [createOrUpdateObject_eq_core]
      exact hrun
    have hone : processOne h os st.w d = (.ok (w', none), w') := by
      simp [processOne, hrun2]
    have hfr_cl : ∀ i, ¬ i = d.identity →
        clusterGet w'.cluster i = clusterGet st.w.cluster i := by
      intro i hi
      exact hw4 i (by rw [hkey]; exact hi)
    have hfr_ca : ∀ i, ¬ i = d.identity →
        cacheGet w'.cache i = cacheGet st.w.cache i := by
      intro i hi
      exact hw5 i (by rw [hkey]; exact hi)
    have hne_of_mem : ∀ e ∈ rest, ¬ e.identity = d.identity := by
      intro e he hh
      exact hnodup2.1 (hh ▸ List.mem_map_of_mem Obj.identity he)
    have hhyp2 : ∀ e ∈ rest, CreateHyp
        (trackKind { st with w := w', alreadyExistsErr := st.alreadyExistsErr }
          d.identity d).w e := by
      intro e he
      obtain ⟨g1, g2, g3, g4, g5⟩ := hhyp e (List.mem_cons_of_mem d he)
      refine ⟨g1, g2, g3, g4, ?_⟩
      intro cur hc
      apply g5
      rw [← hc, trackKind_w]
      exact (hfr_cl e.identity (hne_of_mem e he)).symm
    obtain ⟨st'', ih0, ih1, ih2, ih3, ih4, ih5, ih6, ih7⟩ :=
      ih (trackKind { st with w := w', alreadyExistsErr := st.alreadyExistsErr }
          d.identity d) hco
        (by rw [trackKind_w]; exact hw1)
        (by rw [trackKind_w]; exact hw2)
        (by rw [trackKind_w]; exact hw3)
        hnodup2.2 hhyp2
    have htrack : ∀ i, clusterGet
        (trackKind { st with w := w', alreadyExistsErr := st.alreadyExistsErr }
          d.identity d).w.cluster i = clusterGet w'.cluster i := by
      intro i
      rw [trackKind_w]
    have htrack2 : ∀ i, cacheGet
        (trackKind { st with w := w', alreadyExistsErr := st.alreadyExistsErr }
          d.identity d).w.cache i = cacheGet w'.cache i := by
      intro i
      rw [trackKind_w]
    refine ⟨st'', ?_, ih1, ih2, ih3,
      ih4.trans (by rw [trackKind_ae]), ?_, ?_, ?_⟩
    · calc processCreateList h os st (d :: rest)
          = processCreateList h os
            (trackKind { st with w := w', alreadyExistsErr := st.alreadyExistsErr }
              d.identity d) rest := by
            simp only [processCreateList, hone]
            all_goals rfl
        _ = (.ok (), st'') := ih0
    · intro i hi
      have hi1 : ¬ i = d.identity := by
        intro hh
        apply hi
        rw [List.map_cons]
        exact hh ▸ List.mem_cons_self _ _
      have hi2 : i ∉ rest.map Obj.identity := by
        intro hh
        apply hi
        rw [List.map_cons]
        exact List.mem_cons_of_mem _ hh
      calc clusterGet st''.w.cluster i
          = clusterGet w'.cluster i := (ih5 i hi2).trans (htrack i)
        _ = clusterGet st.w.cluster i := hfr_cl i hi1
    · intro i hi
      have hi1 : ¬ i = d.identity := by
        intro hh
        apply hi
        rw [List.map_cons]
        exact hh ▸ List.mem_cons_self _ _
      have hi2 : i ∉ rest.map Obj.identity := by
        intro hh
        apply hi
        rw [List.map_cons]
        exact List.mem_cons_of_mem _ hh
      calc cacheGet st''.w.cache i
          = cacheGet w'.cache i := (ih6 i hi2).trans (htrack2 i)
        _ = cacheGet st.w.cache i := hfr_ca i hi1
    · intro e he
      rcases List.mem_cons.mp he with he | he
      · subst he
        have hmutid : (mutate h os e).identity = e.identity := mutate_identity h os e
        have hnotmem : (mutate h os e).identity ∉ rest.map Obj.identity := by
          rw [hmutid]
          exact hnodup2.1
        have hnsmem : (⟨Kind.namespaceK, "", (mutate h os e).meta.ns⟩ : Identity)
            ∉ rest.map Obj.identity := by
          rw [f2]
          exact nsId_not_mem rest
            (fun e2 he2 => (hhyp e2 (List.mem_cons_of_mem e he2)).2.2.2.1) e.meta.ns
        refine Settled_frame w' st''.w (mutate h os e)
          ((ih5 _ hnotmem).trans (htrack _))
          ((ih6 _ hnotmem).trans (htrack2 _))
          ((ih5 _ hnsmem).trans (htrack _))
          ?_
        exact hsettle
      · exact ih7 e he

/-- The removal pass: the delete loop succeeds, touches the cluster and the
cache only at the listed identities, and leaves every obsolete object
delete-settled. -/
theorem processDeleteList_settles (h : Handler) (dels : List Obj) :
    ∀ (w : World) (rep : StatusReport),
    w.conflicts = [] → w.nsFaults = [] → WellKeyed w.cluster →
    ∃ w2 rep2, processDeleteList h w rep dels = (.ok (), w2, rep2) ∧
      w2.conflicts = [] ∧ w2.nsFaults = [] ∧ WellKeyed w2.cluster ∧
      (∀ i, i ∉ dels.map Obj.identity →
        clusterGet w2.cluster i = clusterGet w.cluster i) ∧
      (∀ i, i ∉ dels.map Obj.identity →
        cacheGet w2.cache i = cacheGet w.cache i) ∧
      (∀ o ∈ dels, DeleteSettled w2 o) := by
  induction dels with
  | nil =>
    intro w rep hcf hnf hwk
    exact ⟨w, rep, rfl, hcf, hnf, hwk, fun i _ => rfl, fun i _ => rfl,
      fun o ho => absurd ho (List.not_mem_nil o)⟩
  | cons o rest ih =>
    intro w rep hcf hnf hwk
    rcases hgo : clusterGet w.cluster o.identity with _ | curo
    · have hdel : handlerDelete w o
          = (.ok (), { w with cache := cacheDelete w.cache o.identity }) := by
        simp [handlerDelete, hgo]
      obtain ⟨w2, rep2, ih0, ih1, ih2, ih3, ih4, ih5, ih6⟩ :=
        ih { w with cache := cacheDelete w.cache o.identity }
          (processDeleteList.trackRemoval rep o) hcf hnf hwk
      refine ⟨w2, rep2, ?_, ih1, ih2, ih3, ?_, ?_, ?_⟩
      · calc processDeleteList h w rep (o :: rest)
            = processDeleteList h { w with cache := cacheDelete w.cache o.identity }
              (processDeleteList.trackRemoval rep o) rest := by
              simp only [processDeleteList, hdel]
              all_goals rfl
          _ = (.ok (), w2, rep2) := ih0
      · intro i hi
        have hi2 : i ∉ rest.map Obj.identity := by
          intro hh
          apply hi
          rw [List.map_cons]
          exact List.mem_cons_of_mem _ hh
        exact ih4 i hi2
      · intro i hi
        have hi1 : ¬ i = o.identity := by
          intro hh
          apply hi
          rw [List.map_cons]
          exact hh ▸ List.mem_cons_self _ _
        have hi2 : i ∉ rest.map Obj.identity := by
          intro hh
          apply hi
          rw [List.map_cons]
          exact List.mem_cons_of_mem _ hh
        exact (ih5 i hi2).trans (assocGet_delete_ne _ _ _ hi1)
      · intro e he
        rcases List.mem_cons.mp he with he | he
        · subst he
          by_cases hdup : e.identity ∈ rest.map Obj.identity
          · rcases List.mem_map.mp hdup with ⟨e2, he2, heq⟩
            have hde := ih6 e2 he2
            exact ⟨by rw [← heq]; exact hde.1, by rw [← heq]; exact hde.2⟩
          · exact ⟨(ih4 _ hdup).trans hgo,
              (ih5 _ hdup).trans (assocGet_delete_self _ _)⟩
        · exact ih6 e he
    · have hdel := handlerDelete_run w o curo hgo
      obtain ⟨w2, rep2, ih0, ih1, ih2, ih3, ih4, ih5, ih6⟩ :=
        ih { w with
            cluster := (clusterDelete w.cluster o.identity),
            cache := (cacheDelete w.cache o.identity),
            log := (w.log ++ [WriteOp.delete o.identity]) }
          (processDeleteList.trackRemoval rep o) hcf hnf (WellKeyed_delete _ _ hwk)
      refine ⟨w2, rep2, ?_, ih1, ih2, ih3, ?_, ?_, ?_⟩
      · calc processDeleteList h w rep (o :: rest)
            = processDeleteList h
              { w with
                cluster := (clusterDelete w.cluster o.identity),
                cache := (cacheDelete w.cache o.identity),
                log := (w.log ++ [WriteOp.delete o.identity]) }
              (processDeleteList.trackRemoval rep o) rest := by
              simp only [processDeleteList, hdel]
              all_goals rfl
          _ = (.ok (), w2, rep2) := ih0
      · intro i hi
        have hi1 : ¬ i = o.identity := by
          intro hh
          apply hi
          rw [List.map_cons]
          exact hh ▸ List.mem_cons_self _ _
        have hi2 : i ∉ rest.map Obj.identity := by
          intro hh
          apply hi
          rw [List.map_cons]
          exact List.mem_cons_of_mem _ hh
        exact (ih4 i hi2).trans (assocGet_delete_ne _ _ _ hi1)
      · intro i hi
        have hi1 : ¬ i = o.identity := by
          intro hh
          apply hi
          rw [List.map_cons]
          exact hh ▸ List.mem_cons_self _ _
        have hi2 : i ∉ rest.map Obj.identity := by
          intro hh
          apply hi
          rw [List.map_cons]
          exact List.mem_cons_of_mem _ hh
        exact (ih5 i hi2).trans (assocGet_delete_ne _ _ _ hi1)
      · intro e he
        rcases List.mem_cons.mp he with he | he
        · subst he
          by_cases hdup : e.identity ∈ rest.map Obj.identity
          · rcases List.mem_map.mp hdup with ⟨e2, he2, heq⟩
            have hde := ih6 e2 he2
            exact ⟨by rw [← heq]; exact hde.1, by rw [← heq]; exact hde.2⟩
          · exact ⟨(ih4 _ hdup).trans (assocGet_delete_self _ _),
              (ih5 _ hdup).trans (assocGet_delete_self _ _)⟩
        · exact ih6 e he

/-- **C2** (amended): idempotence of the engine under side conditions.  With
empty fault schedules, create-only off, a well-keyed cluster, pairwise
distinct desired identities, no Namespace objects among the obsolete objects,
obsolete identities disjoint from desired identities, and each desired object
carrying no server-assigned identity fields (resourceVersion, UID, creation
timestamp), not being a Namespace, agreeing with its live counterpart on the
deletion timestamp and carrying the multiple-owners marker whenever the live
object does: `CreateOrUpdateOrDelete` succeeds, and calling it a second time
on the resulting world returns that world unchanged — in particular the
second call appends nothing to the write log, i.e. performs zero create,
update or delete calls. -/
theorem engine_idempotent_amended (h : Handler) (comp : Component) (w : World)
    (hco : h.createOnly = false)
    (hconf : w.conflicts = []) (hnsf : w.nsFaults = [])
    (hwk : WellKeyed w.cluster)
    (hnodup : (comp.objsToCreate.map Obj.identity).Nodup)
    (hdelk : ∀ o ∈ comp.objsToDelete, ¬ o.payload.kind = Kind.namespaceK)
    (hdisj : ∀ d ∈ comp.objsToCreate, ∀ o ∈ comp.objsToDelete,
      ¬ d.identity = o.identity)
    (hch : ∀ d ∈ comp.objsToCreate, CreateHyp w d) :
    ∃ w₁ rep₁, CreateOrUpdateOrDelete h comp w = (.ok (), w₁, rep₁) ∧
      (CreateOrUpdateOrDelete h comp w₁).2.1 = w₁ ∧
      (CreateOrUpdateOrDelete h comp w₁).2.1.log = w₁.log := by
  by_cases hready : comp.ready = true
  · obtain ⟨st1, hc0, hc1, hc2, hc3, hc4, hc5, hc6, hc7⟩ :=
      processCreateList_settles h comp.osType comp.objsToCreate
        ⟨w, none, [], [], [], []⟩ hco hconf hnsf hwk hnodup hch
    obtain ⟨w2, rep2, hd0, hd1, hd2, hd3, hd4, hd5, hd6⟩ :=
      processDeleteList_settles h comp.objsToDelete st1.w
        { StatusReport.empty with
          addedDeployments := st1.deployments,
          addedDaemonSets := st1.daemonSets,
          addedStatefulSets := st1.statefulsets,
          addedCronJobs := st1.cronJobs } hc1 hc2 hc3
    have hae : st1.alreadyExistsErr = none := hc4
    have run1eq : CreateOrUpdateOrDelete h comp w
        = (.ok (), w2, { rep2 with readyToMonitor := true }) := by
      simp only [CreateOrUpdateOrDelete, hready, hc0, hd0, hae]
      all_goals rfl
    have hkeymem : ∀ d ∈ comp.objsToCreate,
        (mutate h comp.osType d).identity ∉ comp.objsToDelete.map Obj.identity := by
      intro d hd hmem
      rcases List.mem_map.mp hmem with ⟨o, ho, heq⟩
      rw [mutate_identity] at heq
      exact hdisj d hd o ho heq.symm
    have hsettled2 : ∀ d ∈ comp.objsToCreate, Settled w2 (mutate h comp.osType d) := by
      intro d hd
      exact Settled_frame st1.w w2 (mutate h comp.osType d)
        (hd4 _ (hkeymem d hd)) (hd5 _ (hkeymem d hd))
        (hd4 _ (nsId_not_mem comp.objsToDelete hdelk _)) (hc7 d hd)
    obtain ⟨st2', hr2c, hw2eq, hae2⟩ :=
      processCreateList_noop h comp.osType comp.objsToCreate
        ⟨w2, none, [], [], [], []⟩ hco hd2 hsettled2
    obtain ⟨rep2', hr2d⟩ := processDeleteList_noop h comp.objsToDelete st2'.w
      { StatusReport.empty with
        addedDeployments := st2'.deployments,
        addedDaemonSets := st2'.daemonSets,
        addedStatefulSets := st2'.statefulsets,
        addedCronJobs := st2'.cronJobs }
      (fun o ho => by rw [hw2eq]; exact hd6 o ho)
    have hae2' : st2'.alreadyExistsErr = none := hae2
    have run2eq : CreateOrUpdateOrDelete h comp w2
        = (.ok (), st2'.w, { rep2' with readyToMonitor := true }) := by
      simp only [CreateOrUpdateOrDelete, hready, hr2c, hr2d, hae2']
      all_goals rfl
    refine ⟨w2, { rep2 with readyToMonitor := true }, run1eq, ?_, ?_⟩
    · rw [run2eq]
      exact hw2eq
    · rw [run2eq]
      rw [show st2'.w = w2 from hw2eq]
  · have h1 : CreateOrUpdateOrDelete h comp w = (.ok (), w, StatusReport.empty) := by
      simp [CreateOrUpdateOrDelete, hready]
    refine ⟨w, StatusReport.empty, h1, ?_, ?_⟩
    · rw [h1]
    · rw [h1]

/-- **C2** (counterexample to the claim as stated): a desired Secret with a
preset resourceVersion whose type differs from the live one is deleted and
recreated on the first call, and the second call — with no external
modification in between — still issues an update write: the write log grows,
so the second call does not perform zero writes. -/
theorem engine_idempotence_counterexample :
    ¬ ((CreateOrUpdateOrDelete plainHandler compSec
        (CreateOrUpdateOrDelete plainHandler compSec wSec).2.1).2.1.log
      = (CreateOrUpdateOrDelete plainHandler compSec wSec).2.1.log) := by decide

theorem engine_idempotent_amended_witness :
    ∃ w₁ rep₁, CreateOrUpdateOrDelete plainHandler compX wEmpty = (.ok (), w₁, rep₁) ∧
      (CreateOrUpdateOrDelete plainHandler compX w₁).2.1 = w₁ ∧
      (CreateOrUpdateOrDelete plainHandler compX w₁).2.1.log = w₁.log :=
  engine_idempotent_amended plainHandler compX wEmpty rfl rfl rfl
    (fun p hp => absurd hp (List.not_mem_nil p))
    (by decide)
    (fun o ho => absurd ho (List.not_mem_nil o))
    (fun d _ o ho => absurd ho (List.not_mem_nil o))
    (by
      intro d hd
      have hd2 : d = objX := List.mem_singleton.mp hd
      subst hd2
      exact ⟨rfl, rfl, rfl, by decide, fun cur hc => Option.noConfusion hc⟩)

/-! ## C1: the deduplication-cache decision rule -/

/-- **C1**: the `needsUpdate` decision rule: true when the cache holds no
entry for the object's identity; otherwise true when the live object's
generation is newer than the cached generation; otherwise false when the
object equals the cached snapshot exactly; otherwise true. -/
theorem needsUpdate_decision_rule (cache : Cache) (obj : Obj) :
    (cacheGet cache obj.identity = none → needsUpdate cache obj = true) ∧
    (∀ co cg, cacheGet cache obj.identity = some (co, cg) →
      (cg < obj.meta.generation → needsUpdate cache obj = true) ∧
      (¬ cg < obj.meta.generation → co = obj → needsUpdate cache obj = false) ∧
      (¬ cg < obj.meta.generation → ¬ co = obj → needsUpdate cache obj = true)) := by
  constructor
  · intro h
    simp [needsUpdate, h]
  · intro co cg h
    refine ⟨fun hlt => ?_, fun hge heq => ?_, fun hge hne => ?_⟩
    · simp [needsUpdate, h, hlt]
    · simp [needsUpdate, h, hge, heq]
    · simp [needsUpdate, h, hge, hne]

/-! ## C3: cache correctness at the write boundary -/

theorem needsUpdate_after_set (c : Cache) (obj : Obj) :
    needsUpdate (cacheSet c obj.identity (obj, obj.meta.generation)) obj = false := by
  simp [needsUpdate, cacheGet, cacheSet, assocGet_set_self]

theorem needsUpdate_after_set_bumped (c : Cache) (obj : Obj) (g' : Nat)
    (h : obj.meta.generation < g') :
    needsUpdate (cacheSet c obj.identity (obj, obj.meta.generation))
      { obj with meta := { obj.meta with generation := g' } } = true := by
  have hid : ({ obj with meta := { obj.meta with generation := g' } } : Obj).identity
      = obj.identity := rfl
  simp [needsUpdate, hid, cacheGet, cacheSet, assocGet_set_self, h]

/-- **C3**: for any object, `needsUpdate` returns false immediately after a
successful write (create, or an update that actually wrote) of that exact
object, and returns true for the object whose generation on the cluster was
incremented beyond the value cached at the write. -/
theorem cache_correct_after_write (w w₁ w₂ : World) (obj : Obj) :
    (handlerCreate w obj = (.ok (), w₁) →
      needsUpdate w₁.cache obj = false ∧
      ∀ g', obj.meta.generation < g' →
        needsUpdate w₁.cache { obj with meta := { obj.meta with generation := g' } } = true) ∧
    (needsUpdate w.cache obj = true → handlerUpdate w obj = (.ok (), w₂) →
      needsUpdate w₂.cache obj = false ∧
      ∀ g', obj.meta.generation < g' →
        needsUpdate w₂.cache { obj with meta := { obj.meta with generation := g' } } = true) := by
  constructor
  · intro hc
    simp only [handlerCreate, clientCreate] at hc
    rw [Prod.mk.injEq] at hc
    obtain ⟨-, hw⟩ := hc
    subst hw
    exact ⟨needsUpdate_after_set _ obj, fun g' hg' => needsUpdate_after_set_bumped _ obj g' hg'⟩
  · intro hn hu
    simp only [handlerUpdate, hn, Bool.not_true, clientUpdate] at hu
    rcases hcf : popSchedule w.conflicts with ⟨cf, rest⟩
    rw [hcf] at hu
    cases cf
    · simp only [Bool.false_eq_true, if_false] at hu
      rcases hg : clusterGet w.cluster obj.identity with _ | old
      · rw [hg] at hu
        simp at hu
      · rw [hg] at hu
        rw [Prod.mk.injEq] at hu
        obtain ⟨-, hw⟩ := hu
        subst hw
        exact ⟨needsUpdate_after_set _ obj, fun g' hg' => needsUpdate_after_set_bumped _ obj g' hg'⟩
    · simp at hu

/-- Witness for C3: the write boundary evaluated on a concrete create and a
concrete update. -/
theorem cache_correct_after_write_witness :
    needsUpdate (handlerCreate wEmpty objX).2.cache objX = false ∧
    needsUpdate (handlerCreate wEmpty objX).2.cache
      { objX with meta := { objX.meta with generation := 1 } } = true ∧
    needsUpdate (handlerUpdate wWithX objX).2.cache objX = false := by
  have h1 := cache_correct_after_write wEmpty (handlerCreate wEmpty objX).2 wEmpty objX
  have h2 := cache_correct_after_write wWithX wEmpty (handlerUpdate wWithX objX).2 objX
  exact ⟨(h1.1 rfl).1, (h1.1 rfl).2 1 (by decide), (h2.2 (by decide) rfl).1⟩

/-! ## C7: the batch Job merge policy -/

theorem deleteAndRecreate_spec (w : World) (obj mobj cur : Obj)
    (hget : clusterGet w.cluster obj.identity = some cur) :
    deleteAndRecreate w obj mobj =
      (.ok (), { w with
        cluster := clusterSet (clusterDelete w.cluster obj.identity)
          (resetMetadataForCreate mobj).identity (resetMetadataForCreate mobj),
        cache := cacheSet (cacheDelete w.cache obj.identity)
          (resetMetadataForCreate mobj).identity
          (resetMetadataForCreate mobj, (resetMetadataForCreate mobj).meta.generation),
        log := w.log ++ [.delete obj.identity,
          .create (resetMetadataForCreate mobj).identity (resetMetadataForCreate mobj)] }) := by
  simp [deleteAndRecreate, handlerDelete, clientDelete, handlerCreate, clientCreate, hget,
    List.append_assoc]

/-- **C7**: for an existing Job, the merge signals no change exactly when the
container count, every container image string, and the pod-template
annotations agree between desired and current; a `none` merge performs no
write, and a non-`none` merge makes the engine delete the job and re-create
it from the merged object (with identity metadata reset) rather than update
it in place. -/
theorem job_merge_policy :
    (∀ dm cm (dt ct : Template),
      mergeState ⟨dm, .job dt⟩ ⟨cm, .job ct⟩ = none ↔
        (ct.spec.containers.length = dt.spec.containers.length ∧
         (ct.spec.containers.zip dt.spec.containers).all (fun p => p.1.image = p.2.image) ∧
         ct.annotations = dt.annotations)) ∧
    (∀ h os w obj0 cur,
      clusterGet w.cluster (mutate h os obj0).identity = some cur →
      h.createOnly = false → IgnoreObject cur = false →
      mergeState (mutate h os obj0) cur = none →
      createOrUpdateObject h os w obj0 = (.ok (), w)) ∧
    (∀ h os w obj0 t cur mobj,
      (mutate h os obj0).payload = .job t →
      clusterGet w.cluster (mutate h os obj0).identity = some cur →
      h.createOnly = false → IgnoreObject cur = false →
      mergeState (mutate h os obj0) cur = some mobj →
      (createOrUpdateObject h os w obj0).1 = .ok () ∧
      (createOrUpdateObject h os w obj0).2.log
        = w.log ++ [.delete (mutate h os obj0).identity,
            .create (resetMetadataForCreate mobj).identity (resetMetadataForCreate mobj)]) := by
  refine ⟨?_, ?_, ?_⟩
  · intro dm cm dt ct
    simp only [mergeState]
    by_cases h1 : ct.spec.containers.length = dt.spec.containers.length
    case neg =>
      rw [if_pos h1]
      apply iff_of_false (by simp)
      rintro ⟨h1', -, -⟩
      exact h1 h1'
    · rw [if_neg (not_not_intro h1)]
      by_cases h2 : (List.zip ct.spec.containers dt.spec.containers).any
          (fun p => ¬ p.1.image = p.2.image) = true
      · rw [if_pos h2]
        apply iff_of_false (by simp)
        rintro ⟨-, hall, -⟩
        simp only [List.any_eq_true, decide_eq_true_eq] at h2
        obtain ⟨p, hp, hpi⟩ := h2
        simp only [List.all_eq_true, decide_eq_true_eq] at hall
        exact hpi (hall p hp)
      · rw [if_neg h2]
        by_cases h3 : ct.annotations = dt.annotations
        · rw [if_pos h3]
          refine iff_of_true rfl ⟨h1, ?_, h3⟩
          simp only [List.all_eq_true, decide_eq_true_eq]
          intro p hp
          by_contra hne
          apply h2
          simp only [List.any_eq_true, decide_eq_true_eq]
          exact ⟨p, hp, hne⟩
        · rw [if_neg h3]
          apply iff_of_false (by simp)
          rintro ⟨-, -, h3'⟩
          exact h3 h3'
  · intro h os w obj0 cur hget hco hig hm
    simp [createOrUpdateObject, hget, hco, hig, hm]
  · intro h os w obj0 t cur mobj hjob hget hco hig hm
    have hrun : createOrUpdateObject h os w obj0
        = deleteAndRecreate w (mutate h os obj0) mobj := by
      simp [createOrUpdateObject, hget, hco, hig, hm, hjob]
    rw [hrun, deleteAndRecreate_spec w (mutate h os obj0) mobj cur hget]
    exact ⟨rfl, rfl⟩

/-- Witness for C7: the merge characterization and the delete-then-recreate
write path evaluated on a concrete changed Job. -/
theorem job_merge_policy_witness :
    mergeState ⟨meta0 "j" "", .job ⟨[], [], ⟨[], [], []⟩⟩⟩ ⟨meta0 "j" "", .job ⟨[], [], ⟨[], [], []⟩⟩⟩
        = none ∧
    (createOrUpdateObject plainHandler .any
        ⟨[(Obj.identity ⟨meta0 "j" "", .job ⟨[], [("a", "1")], ⟨[], [], []⟩⟩⟩,
           ⟨meta0 "j" "", .job ⟨[], [("a", "0")], ⟨[], [], []⟩⟩⟩)], [], [], [], []⟩
        ⟨meta0 "j" "", .job ⟨[], [("a", "1")], ⟨[], [], []⟩⟩⟩).1 = .ok () := by
  constructor
  · exact (job_merge_policy.1 (meta0 "j" "") (meta0 "j" "") ⟨[], [], ⟨[], [], []⟩⟩
      ⟨[], [], ⟨[], [], []⟩⟩).mpr (by decide)
  · exact (job_merge_policy.2.2 plainHandler .any
      ⟨[(Obj.identity ⟨meta0 "j" "", .job ⟨[], [("a", "1")], ⟨[], [], []⟩⟩⟩,
         ⟨meta0 "j" "", .job ⟨[], [("a", "0")], ⟨[], [], []⟩⟩⟩)], [], [], [], []⟩
      ⟨meta0 "j" "", .job ⟨[], [("a", "1")], ⟨[], [], []⟩⟩⟩
      ⟨[], [("a", "1")], ⟨[], [], []⟩⟩
      ⟨meta0 "j" "", .job ⟨[], [("a", "0")], ⟨[], [], []⟩⟩⟩
      ⟨meta0 "j" "", .job ⟨[], [("a", "1")], ⟨[], [], []⟩⟩⟩
      (by decide) (by decide) (by decide) (by decide) (by decide)).1

/-! ## C6: MustRecreate for role bindings -/

theorem mergeState_roleBinding (d c : Obj) (dref drest cref crest : String)
    (hd : d.payload = .roleBinding dref drest) (hc : c.payload = .roleBinding cref crest) :
    mergeState d c = some ⟨mergeMeta d.meta c.meta, d.payload⟩ := by
  rcases d with ⟨dm, dpl⟩
  rcases c with ⟨cm, cpl⟩
  simp only at hd hc
  subst hd
  subst hc
  simp [mergeState]

theorem mergeState_clusterRoleBinding (d c : Obj) (dref drest cref crest : String)
    (hd : d.payload = .clusterRoleBinding dref drest)
    (hc : c.payload = .clusterRoleBinding cref crest) :
    mergeState d c = some ⟨mergeMeta d.meta c.meta, d.payload⟩ := by
  rcases d with ⟨dm, dpl⟩
  rcases c with ⟨cm, cpl⟩
  simp only at hd hc
  subst hd
  subst hc
  simp [mergeState]

/-- The payload and labels/annotations of a merged object whose kinds fall in
the default merge branch: the merged object is the desired object carrying the
generically merged metadata. -/
theorem resetMetadata_merged_fields (d c : Obj) :
    (resetMetadataForCreate ⟨mergeMeta d.meta c.meta, d.payload⟩).meta.resourceVersion = "" ∧
    (resetMetadataForCreate ⟨mergeMeta d.meta c.meta, d.payload⟩).meta.uid = "" ∧
    (resetMetadataForCreate ⟨mergeMeta d.meta c.meta, d.payload⟩).meta.creationTimestamp = 0 ∧
    (resetMetadataForCreate ⟨mergeMeta d.meta c.meta, d.payload⟩).meta.annotations
      = mergeMaps c.meta.annotations d.meta.annotations ∧
    (lookupS d.meta.labels MultipleOwnersLabel = none →
     lookupS c.meta.labels MultipleOwnersLabel = none →
     (resetMetadataForCreate ⟨mergeMeta d.meta c.meta, d.payload⟩).meta.labels
       = mergeMaps c.meta.labels d.meta.labels) := by
  refine ⟨rfl, rfl, rfl, mergeMeta_annotations d.meta c.meta, fun hd hc => ?_⟩
  exact (mergeMeta_labels_noMO d.meta c.meta hd hc).1

/-- **C6**: an existing role binding (or cluster role binding) whose live
role-reference name differs from the desired one is deleted and then
re-created from the merged object; the created payload has resourceVersion,
UID and creation timestamp cleared while retaining the merged labels and
annotations. -/
theorem roleBinding_mustRecreate :
    (∀ h os w obj0 dref drest cref crest cur mobj,
      (mutate h os obj0).payload = .roleBinding dref drest →
      cur.payload = .roleBinding cref crest →
      ¬ dref = cref →
      clusterGet w.cluster (mutate h os obj0).identity = some cur →
      h.createOnly = false → IgnoreObject cur = false →
      mergeState (mutate h os obj0) cur = some mobj →
      ((createOrUpdateObject h os w obj0).1 = .ok () ∧
       (createOrUpdateObject h os w obj0).2.log
         = w.log ++ [.delete (mutate h os obj0).identity,
             .create (resetMetadataForCreate mobj).identity (resetMetadataForCreate mobj)] ∧
       (resetMetadataForCreate mobj).meta.resourceVersion = "" ∧
       (resetMetadataForCreate mobj).meta.uid = "" ∧
       (resetMetadataForCreate mobj).meta.creationTimestamp = 0 ∧
       (resetMetadataForCreate mobj).meta.annotations
         = mergeMaps cur.meta.annotations (mutate h os obj0).meta.annotations ∧
       (lookupS (mutate h os obj0).meta.labels MultipleOwnersLabel = none →
        lookupS cur.meta.labels MultipleOwnersLabel = none →
        (resetMetadataForCreate mobj).meta.labels
          = mergeMaps cur.meta.labels (mutate h os obj0).meta.labels))) ∧
    (∀ h os w obj0 dref drest cref crest cur mobj,
      (mutate h os obj0).payload = .clusterRoleBinding dref drest →
      cur.payload = .clusterRoleBinding cref crest →
      ¬ dref = cref →
      clusterGet w.cluster (mutate h os obj0).identity = some cur →
      h.createOnly = false → IgnoreObject cur = false →
      mergeState (mutate h os obj0) cur = some mobj →
      ((createOrUpdateObject h os w obj0).1 = .ok () ∧
       (createOrUpdateObject h os w obj0).2.log
         = w.log ++ [.delete (mutate h os obj0).identity,
             .create (resetMetadataForCreate mobj).identity (resetMetadataForCreate mobj)] ∧
       (resetMetadataForCreate mobj).meta.resourceVersion = "" ∧
       (resetMetadataForCreate mobj).meta.uid = "" ∧
       (resetMetadataForCreate mobj).meta.creationTimestamp = 0)) := by
  constructor
  · intro h os w obj0 dref drest cref crest cur mobj hdrb hcrb hne hget hco hig hm
    have hmobj : mobj = ⟨mergeMeta (mutate h os obj0).meta cur.meta, (mutate h os obj0).payload⟩ := by
      rw [mergeState_roleBinding (mutate h os obj0) cur dref drest cref crest hdrb hcrb] at hm
      exact (Option.some.injEq _ _ ▸ hm).symm
    have hrun : createOrUpdateObject h os w obj0
        = deleteAndRecreate w (mutate h os obj0) mobj := by
      simp [createOrUpdateObject, hget, hco, hig, hm, hdrb, hcrb, hne]
    rw [hrun, deleteAndRecreate_spec w (mutate h os obj0) mobj cur hget]
    subst hmobj
    have hf := resetMetadata_merged_fields (mutate h os obj0) cur
    exact ⟨rfl, rfl, hf.1, hf.2.1, hf.2.2.1, hf.2.2.2.1, hf.2.2.2.2⟩
  · intro h os w obj0 dref drest cref crest cur mobj hdrb hcrb hne hget hco hig hm
    have hmobj : mobj = ⟨mergeMeta (mutate h os obj0).meta cur.meta, (mutate h os obj0).payload⟩ := by
      rw [mergeState_clusterRoleBinding (mutate h os obj0) cur dref drest cref crest hdrb hcrb] at hm
      exact (Option.some.injEq _ _ ▸ hm).symm
    have hrun : createOrUpdateObject h os w obj0
        = deleteAndRecreate w (mutate h os obj0) mobj := by
      simp [createOrUpdateObject, hget, hco, hig, hm, hdrb, hcrb, hne]
    rw [hrun, deleteAndRecreate_spec w (mutate h os obj0) mobj cur hget]
    subst hmobj
    exact ⟨rfl, rfl, rfl, rfl, rfl⟩

/-- Witness for C6: delete-then-recreate observed on a concrete role binding
whose role-reference name changed. -/
theorem roleBinding_mustRecreate_witness :
    (createOrUpdateObject plainHandler .any wRB rbD).1 = .ok () ∧
    (createOrUpdateObject plainHandler .any wRB rbD).2.log
      = [.delete rbD.identity,
         .create rbD.identity
           (resetMetadataForCreate
             ⟨mergeMeta (mutate plainHandler .any rbD).meta rbC.meta,
              (mutate plainHandler .any rbD).payload⟩)] := by
  have h := roleBinding_mustRecreate.1 plainHandler .any wRB rbD "new" "subj" "old" "subj" rbC
    ⟨mergeMeta (mutate plainHandler .any rbD).meta rbC.meta, (mutate plainHandler .any rbD).payload⟩
    (by decide) (by decide) (by decide) (by decide) (by decide) (by decide) (by decide)
  refine ⟨h.1, ?_⟩
  rw [h.2.1]
  decide

/-! ## C9: the namespace-terminating guard -/

/-- A namespace-lookup fault inside `createOrUpdateObject` surfaces as the
propagated error. -/
theorem createOrUpdateObject_nsFault (h : Handler) (os : OSType) (w : World) (obj0 : Obj)
    (rest : List Bool)
    (hget : clusterGet w.cluster (mutate h os obj0).identity = none)
    (hns : ¬ (mutate h os obj0).meta.ns = "")
    (hf : w.nsFaults = true :: rest) :
    (createOrUpdateObject h os w obj0).1 = .error .nsLookup := by
  simp [createOrUpdateObject, getIfExistsNamespace, popSchedule, hget, hns, hf]

/-- **C9**: when a desired object is not found and its target namespace is
terminating, no create call is issued and no error is returned (only the
cache entry is invalidated); when the namespace lookup fails unexpectedly,
that error is propagated out of `CreateOrUpdateOrDelete`. -/
theorem namespace_terminating_guard :
    (∀ h os w obj0 nsO ts,
      clusterGet w.cluster (mutate h os obj0).identity = none →
      ¬ (mutate h os obj0).meta.ns = "" →
      w.nsFaults = [] →
      clusterGet w.cluster ⟨Kind.namespaceK, "", (mutate h os obj0).meta.ns⟩ = some nsO →
      nsO.meta.deletionTimestamp = some ts →
      createOrUpdateObject h os w obj0
        = (.ok (), { w with cache := cacheDelete w.cache (mutate h os obj0).identity })) ∧
    (∀ h os w obj0 rest,
      clusterGet w.cluster (mutate h os obj0).identity = none →
      ¬ (mutate h os obj0).meta.ns = "" →
      w.nsFaults = true :: rest →
      (CreateOrUpdateOrDelete h ⟨[obj0], [], true, os⟩ w).1 = .error .nsLookup) := by
  constructor
  · intro h os w obj0 nsO ts hget hns hnf hnsGet hterm
    simp [createOrUpdateObject, getIfExistsNamespace, popSchedule, hget, hns, hnf, hnsGet, hterm]
  · intro h os w obj0 rest hget hns hf
    have hrun := createOrUpdateObject_nsFault h os w obj0 rest hget hns hf
    rcases hco : createOrUpdateObject h os w obj0 with ⟨r, w'⟩
    rw [hco] at hrun
    simp only at hrun
    subst hrun
    simp [CreateOrUpdateOrDelete, processCreateList, processOne, hco, Err.isAlreadyExists]

/-- Witness for C9: a concrete skipped creation in a terminating namespace and
a concrete propagated lookup failure. -/
theorem namespace_terminating_guard_witness :
    createOrUpdateObject plainHandler .any wTermNs objInNs
      = (.ok (), { wTermNs with cache := cacheDelete wTermNs.cache objInNs.identity }) ∧
    (CreateOrUpdateOrDelete plainHandler ⟨[objInNs], [], true, .any⟩ wNsFault).1
      = .error .nsLookup := by
  constructor
  · exact namespace_terminating_guard.1 plainHandler .any wTermNs objInNs termNs 7
      (by decide) (by decide) (by decide) (by decide) (by decide)
  · exact namespace_terminating_guard.2 plainHandler .any wNsFault objInNs []
      (by decide) (by decide) (by decide)

/-! ## C10: the ignore-annotation escape hatch -/

/-- **C10**: an existing object marked by `IgnoreObject` is left entirely
untouched (no create, update or delete; no error; no state change), and
processing of the remaining objects continues normally: in the concrete
two-object component whose first object is live and ignored, the run succeeds,
writes only the second object, and leaves the ignored live object exactly as
it was. -/
theorem ignored_object_untouched :
    (∀ h os w obj0 cur,
      clusterGet w.cluster (mutate h os obj0).identity = some cur →
      h.createOnly = false →
      IgnoreObject cur = true →
      createOrUpdateObject h os w obj0 = (.ok (), w)) ∧
    ((CreateOrUpdateOrDelete plainHandler compIgn wIgn).1 = .ok () ∧
     (CreateOrUpdateOrDelete plainHandler compIgn wIgn).2.1.log
       = [.create objFresh.identity objFresh] ∧
     clusterGet (CreateOrUpdateOrDelete plainHandler compIgn wIgn).2.1.cluster
       objIgn.identity = some curIgn) := by
  constructor
  · intro h os w obj0 cur hget hco hig
    simp [createOrUpdateObject, hget, hco, hig]
  · refine ⟨by decide, by decide, by decide⟩

/-- Witness for C10: the frame property evaluated on the concrete ignored
object. -/
theorem ignored_object_untouched_witness :
    createOrUpdateObject plainHandler .any wIgn objIgn = (.ok (), wIgn) :=
  ignored_object_untouched.1 plainHandler .any wIgn objIgn curIgn
    (by decide) (by decide) (by decide)

/-! ## C4: the conflict retry bound -/

/-- **C4**: with one scheduled conflict, the call succeeds after exactly one
retried update attempt (two update calls in total); with two consecutive
scheduled conflicts, the call returns the conflict error after exactly two
update attempts, never issuing a third. -/
theorem conflict_retry_exactly_once :
    ((CreateOrUpdateOrDelete plainHandler compX wOneConflict).1 = .ok () ∧
     ((CreateOrUpdateOrDelete plainHandler compX wOneConflict).2.1.log.filter
        WriteOp.isUpdate).length = 2) ∧
    ((CreateOrUpdateOrDelete plainHandler compX wTwoConflicts).1 = .error .conflict ∧
     ((CreateOrUpdateOrDelete plainHandler compX wTwoConflicts).2.1.log.filter
        WriteOp.isUpdate).length = 2) := by
  refine ⟨⟨by decide, by decide⟩, ⟨by decide, by decide⟩⟩

/-! ## C5: create-only mode -/

/-- **C5**: with `SetCreateOnly` in effect and one of three desired objects
already present, the call creates the two missing objects, never modifies the
existing one, keeps processing through the whole list, and returns the
already-exists-classified error only at the end; when none of the objects
exist, all three are created and nil is returned. -/
theorem create_only_mode :
    ((CreateOrUpdateOrDelete hCreateOnly comp5 w5).1 = .error (.alreadyExists o51.identity) ∧
     (CreateOrUpdateOrDelete hCreateOnly comp5 w5).2.1.log
       = [.create o52.identity o52, .create o53.identity o53] ∧
     clusterGet (CreateOrUpdateOrDelete hCreateOnly comp5 w5).2.1.cluster o51.identity
       = some c51) ∧
    ((CreateOrUpdateOrDelete hCreateOnly comp5 wEmpty).1 = .ok () ∧
     (CreateOrUpdateOrDelete hCreateOnly comp5 wEmpty).2.1.log
       = [.create o51.identity o51, .create o52.identity o52, .create o53.identity o53]) := by
  refine ⟨⟨by decide, by decide, by decide⟩, ⟨by decide, by decide⟩⟩

/-! ## C8: externally-status-managed kinds (Elasticsearch / Kibana) -/

/-- Counterexample to C8 as stated: desired and current Elasticsearch specs
are equal and only the status (and externally-written annotations) differ,
yet the engine DOES issue a client update call — the merge returns the
current object and `c.update` forwards it to the client because the dedup
cache holds no matching snapshot.  (The written payload is the current object
itself, so nothing is clobbered, but an update call is issued.) -/
theorem externally_status_managed_counterexample :
    esD.payload = .elasticsearch ⟨[], "spec"⟩ "" ∧
    esC.payload = .elasticsearch ⟨[], "spec"⟩ "st" ∧
    mergeState (mutate plainHandler .any esD) esC = some esC ∧
    (createOrUpdateObject plainHandler .any wES esD).2.log = [.update esD.identity esC] := by
  refine ⟨rfl, rfl, by decide, by decide⟩

/-- **C8 (amended)**: when desired and current specs are equal, the merge
returns the current object unchanged, so the externally-written annotations,
finalizers and status are preserved; no client update call is issued when the
dedup cache holds the current snapshot, while on a cache miss the update call
writes back the current object verbatim.  When the specs differ, the current
object's annotations, finalizers and status (and, for Kibana, the
Elasticsearch reference) are copied onto the desired object before the
update. -/
theorem externally_status_managed_amended :
    (∀ dm cm spec dstatus cstatus,
      mergeState ⟨dm, .elasticsearch spec dstatus⟩ ⟨cm, .elasticsearch spec cstatus⟩
        = some ⟨cm, .elasticsearch spec cstatus⟩) ∧
    (∀ dm cm spec dstatus cstatus,
      mergeState ⟨dm, .kibana spec dstatus⟩ ⟨cm, .kibana spec cstatus⟩
        = some ⟨cm, .kibana spec cstatus⟩) ∧
    (∀ w (cur : Obj) g, cacheGet w.cache cur.identity = some (cur, g) →
      ¬ g < cur.meta.generation →
      handlerUpdate w cur = (.ok (), w)) ∧
    (∀ w (cur : Obj), needsUpdate w.cache cur = true → w.conflicts = [] →
      clusterGet w.cluster cur.identity = some cur →
      (handlerUpdate w cur).1 = .ok () ∧
      (handlerUpdate w cur).2.log = w.log ++ [.update cur.identity cur] ∧
      clusterGet (handlerUpdate w cur).2.cluster cur.identity = some cur) ∧
    (∀ dm cm dspec cspec dstatus cstatus, ¬ dspec = cspec →
      mergeState ⟨dm, .elasticsearch dspec dstatus⟩ ⟨cm, .elasticsearch cspec cstatus⟩
        = some ⟨{ mergeMeta dm cm with annotations := cm.annotations, finalizers := cm.finalizers },
                .elasticsearch dspec cstatus⟩) ∧
    (∀ dm cm dspec cspec dstatus cstatus, ¬ dspec = cspec →
      mergeState ⟨dm, .kibana dspec dstatus⟩ ⟨cm, .kibana cspec cstatus⟩
        = some ⟨{ mergeMeta dm cm with annotations := cm.annotations, finalizers := cm.finalizers },
                .kibana { dspec with elasticsearchRef := cspec.elasticsearchRef } cstatus⟩) := by
  refine ⟨?_, ?_, ?_, ?_, ?_, ?_⟩
  · intro dm cm spec dstatus cstatus
    simp [mergeState]
  · intro dm cm spec dstatus cstatus
    simp [mergeState]
  · intro w cur g hcache hge
    have hnu : needsUpdate w.cache cur = false := by
      simp [needsUpdate, hcache, hge]
    simp [handlerUpdate, hnu]
  · intro w cur hnu hcf hget
    have hobj : ({ cur with
        meta := { cur.meta with deletionTimestamp := cur.meta.deletionTimestamp } } : Obj)
        = cur := rfl
    rcases w with ⟨wc, wca, wl, wcf, wnf⟩
    simp only at hcf
    subst hcf
    simp only [clusterGet] at hget
    simp only at hget hnu
    simp [handlerUpdate, hnu, clientUpdate, popSchedule, hget, hobj, clusterGet, clusterSet,
      assocGet_set_self]
  · intro dm cm dspec cspec dstatus cstatus hne
    simp [mergeState, hne]
  · intro dm cm dspec cspec dstatus cstatus hne
    simp [mergeState, hne]

/-- Witness for C8 (amended): evaluated on the concrete Elasticsearch pair,
both on a cache hit (no client call) and on the empty cache (write-back of
the current object). -/
theorem externally_status_managed_amended_witness :
    handlerUpdate wESCached esC = (.ok (), wESCached) ∧
    (handlerUpdate wES esC).2.log = [.update esD.identity esC] := by
  constructor
  · exact externally_status_managed_amended.2.2.1 wESCached esC 0 (by decide) (by decide)
  · have h := externally_status_managed_amended.2.2.2.1 wES esC (by decide) (by decide) (by decide)
    rw [h.2.1]
    decide

/-- Witness for C1: the rule evaluated at concrete cache states. -/
theorem needsUpdate_decision_rule_witness :
    needsUpdate [] ⟨meta0 "a" "", .other "x"⟩ = true ∧
    needsUpdate [(Obj.identity ⟨meta0 "a" "", .other "x"⟩, ⟨meta0 "a" "", .other "x"⟩, 0)]
      ⟨meta0 "a" "", .other "x"⟩ = false := by
  constructor
  · exact (needsUpdate_decision_rule [] ⟨meta0 "a" "", .other "x"⟩).1 (by decide)
  · exact ((needsUpdate_decision_rule
      [(Obj.identity ⟨meta0 "a" "", .other "x"⟩, ⟨meta0 "a" "", .other "x"⟩, 0)]
      ⟨meta0 "a" "", .other "x"⟩).2 ⟨meta0 "a" "", .other "x"⟩ 0 (by decide)).2.1
      (by decide) (by decide)

end Operator
